import Mathlib

/-!
# Chat widget: conversation engine and appointment form

A shallow embedding of `src/components/ChatbotWidget.jsx`.

* The React component state (the `useState` cells) is one record, `State`;
  every handler is a function from the state before to the state after,
  together with what it emits (a chat request, an alert, a host callback).
* `sendMessage` is asynchronous.  Its synchronous prefix is `sendMessage`;
  the timer callback of the success path is `handleResponse`, the timer
  callback of the `catch` path is `handleFailure`.
* What the backend sends is arbitrary JSON, so payloads are values of `JVal`
  and property reads follow the JavaScript rules (a read on a non-object is
  `undefined`, a method call on a value without that method raises).
* JSON numbers are integers here, read as the nearest double: the code only
  observes whether a number is zero, whether it is `null`/`undefined`, and its
  rendering into text.
-/

set_option linter.unusedVariables false

namespace ChatbotWidget

/-! ## JavaScript values -/

/-- A JavaScript value as produced by `JSON.parse`, plus `undefined`. -/
inductive JVal where
  | undefined
  | null
  | bool (b : Bool)
  | num (n : Int)
  | str (s : String)
  | arr (xs : List JVal)
  | obj (kvs : List (String × JVal))

namespace JVal

/-- ToBoolean: `undefined`, `null`, `false`, `0` and `""` are falsy. -/
def truthy : JVal → Bool
  | undefined => false
  | null => false
  | bool b => b
  | num n => n != 0
  | str s => s != ""
  | arr _ => true
  | obj _ => true

/-- The test `v == null` (true of `null` and of `undefined`). -/
def isNullish : JVal → Bool
  | undefined => true
  | null => true
  | _ => false

/-- First binding of a key in a property list. -/
def lookup (k : String) : List (String × JVal) → JVal
  | [] => undefined
  | (k', v) :: rest => if k' = k then v else lookup k rest

/-- Property read `v.k` for the data keys the widget reads, on a value that is
neither `null` nor `undefined`: primitives and arrays have no such property. -/
def get (v : JVal) (k : String) : JVal :=
  match v with
  | obj kvs => lookup k kvs
  | _ => undefined

/-- Optional chaining `v?.k`. -/
def getOpt (v : JVal) (k : String) : JVal :=
  if v.isNullish then undefined else v.get k

/-- The expression `a || b`. -/
def or (a b : JVal) : JVal := if a.truthy then a else b

/-- The test `v === s` against a string literal. -/
def isStr (v : JVal) (s : String) : Bool :=
  match v with
  | str s' => s' = s
  | _ => false

/-- The test `Object.keys(v).length > 0` for a truthy value. -/
def hasKeys : JVal → Bool
  | obj kvs => !kvs.isEmpty
  | arr xs => !xs.isEmpty
  | str s => s != ""
  | _ => false

end JVal

/-! ## Strings -/

/-- WhiteSpace and LineTerminator code points of ECMAScript (what `trim`
removes and what the regular-expression class `\s` matches). -/
def jsIsSpace (c : Char) : Bool :=
  c.toNat = 0x09 || c.toNat = 0x0A || c.toNat = 0x0B || c.toNat = 0x0C || c.toNat = 0x0D ||
  c.toNat = 0x20 || c.toNat = 0xA0 || c.toNat = 0x1680 ||
  (0x2000 ≤ c.toNat && c.toNat ≤ 0x200A) ||
  c.toNat = 0x2028 || c.toNat = 0x2029 || c.toNat = 0x202F || c.toNat = 0x205F ||
  c.toNat = 0x3000 || c.toNat = 0xFEFF

/-- The function `String.prototype.trim` on character lists. -/
def trimChars (cs : List Char) : List Char :=
  ((cs.dropWhile jsIsSpace).reverse.dropWhile jsIsSpace).reverse

/-- The function `String.prototype.trim`. -/
def jsTrim (s : String) : String := String.mk (trimChars s.data)

/-- The test `!s.trim()`: the string is empty or only white space. -/
def isBlank (s : String) : Bool := jsTrim s = ""

/-- The expression `a || b` on strings. -/
def strOr (a b : String) : String := if a = "" then b else a

/-! ## Messages, requests, state -/

inductive Role where
  | user
  | bot
deriving DecidableEq, Repr

/-- An entry of `messages`.  `text` and `htmlContent` are JavaScript values
because the response text is copied from the payload unchecked;
`htmlContent` is `undefined` for user messages, which have no such key. -/
structure Message where
  role : Role
  text : JVal
  isHtml : Bool
  htmlContent : JVal

/-- The JSON body of the POST to `/chatbot/chat`. -/
structure Request where
  message : String
  session_id : JVal
  timezone : String
  id : Option String
  chatbot_id : Option String

/-- A `{ lat, lng, address }` record (`selectedLocation`, `appointmentLocation`). -/
structure Location where
  lat : JVal
  lng : JVal
  address : JVal

/-- The record `savedAddressDetails`. -/
structure AddressDetails where
  houseNumber : JVal
  sector : JVal
  city : JVal
  state : JVal

/-- The record `fieldErrors`. -/
structure FieldErrors where
  name : String
  phone : String
  email : String
  requirement : String
  date : String
  time : String
  address : String
deriving DecidableEq

/-- What the component reads from outside its own state: the translation
lookup `t` of the current language, the runtime time zone name, the value of
`getChatbotIdFromUrl()` for the page location, whether the host passed
`onAppointmentCreated`, the clock (`now`, milliseconds since the epoch), the
offset of local time from UTC in minutes (less than a day either way), and the
runtime's `Date` parser (`none` is an invalid date; a parsed date is a time
value, at most 8.64e15 milliseconds from the epoch, as `TimeClip` leaves it). -/
structure Env where
  t : String → String
  timezone : String
  urlChatbotId : Option String
  hasOnAppointmentCreated : Bool
  now : Int
  tzOffsetMin : Int
  dateParse : String → Option Int
  tzBounded : -1440 < tzOffsetMin ∧ tzOffsetMin < 1440
  dateParseClipped :
    ∀ s t, dateParse s = some t → -8640000000000000 ≤ t ∧ t ≤ 8640000000000000

/-- The `useState` cells of `ChatbotWidget`. -/
structure State where
  isOpen : Bool
  sessionId : JVal
  confirmation : Bool
  messages : List Message
  input : String
  isTyping : Bool
  chatbotId : Option String
  currentAppointmentDetails : JVal
  lastUserMessageIndex : Int
  needsConfirmation : Bool
  showConfirmationDialog : Bool
  confirmationAppointmentDetails : JVal
  showMapDialog : Bool
  searchAddress : String
  selectedLocation : Location
  showAppointmentDialog : Bool
  selectedDate : String
  selectedTime : String
  selectedHour : String
  selectedMinute : String
  selectedAmPm : String
  timeError : String
  appointmentLocation : Location
  appointmentSearchAddress : String
  editableFullAddress : String
  customerLeadData : JVal
  editableCustomerName : String
  editableCustomerPhone : String
  selectedCountryCode : String
  editableCustomerEmail : String
  editableCustomerRequirement : String
  editableHouseNumber : String
  editableSector : String
  editableCity : String
  editableState : String
  isEditMode : Bool
  savedAddressDetails : AddressDetails
  fieldErrors : FieldErrors
  viabilityError : String

/-- The empty `{ lat: null, lng: null, address: '' }` record. -/
def emptyLocation : Location := ⟨.null, .null, .str ""⟩

/-- The all-empty `fieldErrors` record. -/
def noFieldErrors : FieldErrors := ⟨"", "", "", "", "", "", ""⟩

/-- The greeting message the conversation starts with. -/
def greetingMessage (env : Env) : Message :=
  ⟨.bot, .str (env.t "chatbot.greeting"), false, .null⟩

/-- The state after the first render: the `useState` initial values, with
`chatbotId` resolved from the props or the page location. -/
def initialState (env : Env) (chatbotId : Option String) : State where
  isOpen := false
  sessionId := .str ""
  confirmation := false
  messages := [⟨.bot, .str (env.t "chatbot.greeting"), false, .undefined⟩]
  input := ""
  isTyping := false
  chatbotId := chatbotId
  currentAppointmentDetails := .null
  lastUserMessageIndex := -1
  needsConfirmation := false
  showConfirmationDialog := false
  confirmationAppointmentDetails := .null
  showMapDialog := false
  searchAddress := ""
  selectedLocation := emptyLocation
  showAppointmentDialog := false
  selectedDate := ""
  selectedTime := ""
  selectedHour := ""
  selectedMinute := ""
  selectedAmPm := "AM"
  timeError := ""
  appointmentLocation := emptyLocation
  appointmentSearchAddress := ""
  editableFullAddress := ""
  customerLeadData := .null
  editableCustomerName := ""
  editableCustomerPhone := ""
  selectedCountryCode := "+58"
  editableCustomerEmail := ""
  editableCustomerRequirement := ""
  editableHouseNumber := ""
  editableSector := ""
  editableCity := ""
  editableState := ""
  isEditMode := false
  savedAddressDetails := ⟨.str "", .str "", .str "", .str ""⟩
  fieldErrors := noFieldErrors
  viabilityError := ""

/-! ## The conversation engine -/

/-- The helper `cleanValue`: falsy values and the text `N/A` become `''`. -/
def cleanValue (value : JVal) : JVal :=
  if !value.truthy || value.isStr "N/A" then .str "" else value

/-- The predicate `isAddressMissing`.  `none` is a raised `TypeError`: the
call `customer.address.trim()` on a truthy value that is not a string. -/
def isAddressMissing (appointmentDetails : JVal) : Option Bool :=
  if !appointmentDetails.truthy then some true
  else if !(appointmentDetails.get "customer").truthy then some true
  else
    let customer := appointmentDetails.get "customer"
    let hasAddress : Option Bool :=
      if !(customer.get "address").truthy then some false
      else
        match customer.get "address" with
        | .str a => some (jsTrim a != "")
        | _ => none
    let hasLat : Bool :=
      match customer.get "latitude" with
      | .null => false
      | .undefined => false
      | _ => true
    let hasLng : Bool :=
      match customer.get "longitude" with
      | .null => false
      | .undefined => false
      | _ => true
    match hasAddress with
    | none => none
    | some a => some (!a || !hasLat || !hasLng)

/-- The text a `sendMessage` call sends: its argument, or the trimmed input
box when it is called without one (`initialMessage = none`). -/
def messageToSend (s : State) (initialMessage : Option String) : String :=
  match initialMessage with
  | some m => m
  | none => jsTrim s.input

/-- The early return of `sendMessage`:
`!isInitialization && (!messageToSend || isTyping)`. -/
def sendReturnsEarly (s : State) (initialMessage : Option String) (isInitialization : Bool) : Bool :=
  !isInitialization && (messageToSend s initialMessage = "" || s.isTyping)

/-- The value `chatbotId || getChatbotIdFromUrl()`. -/
def activeChatbotId (env : Env) (s : State) : Option String :=
  match s.chatbotId.filter (fun c => c != "") with
  | some c => some c
  | none => env.urlChatbotId

/-- The state `sendMessage` leaves when it does not return early: the user
message (unless initializing), the closed map dialog, the typing flag, and the
chatbot id taken from the page location when none was stored. -/
def sendState (env : Env) (s : State) (text : String) (isInitialization : Bool) : State :=
  let s1 : State :=
    if !isInitialization then
      { s with
        messages := s.messages ++ [⟨.user, .str text, false, .undefined⟩]
        lastUserMessageIndex := ((s.messages.length + 1 : Nat) : Int) - 1
        input := ""
        showMapDialog := false }
    else s
  let s2 : State := { s1 with isTyping := true }
  if (s.chatbotId.filter (fun c => c != "")).isNone
      && (activeChatbotId env s).any (fun c => c != "") then
    { s2 with chatbotId := activeChatbotId env s }
  else s2

/-- The synchronous prefix of `sendMessage`: the guard, the user message, the
typing flag and the request handed to `fetch` (`none` when nothing is sent). -/
def sendMessage (env : Env) (s : State) (initialMessage : Option String)
    (isInitialization : Bool) (isAddressUpdate : Bool) : State × Option Request :=
  if sendReturnsEarly s initialMessage isInitialization then (s, none)
  else
    (sendState env s (messageToSend s initialMessage) isInitialization,
      some
        { message := messageToSend s initialMessage
          session_id := s.sessionId
          timezone := env.timezone
          id := activeChatbotId env s
          chatbot_id := activeChatbotId env s })

/-- What the timer callback of the success path leaves behind: the state
after the `setState` calls it reached, the arguments of the calls it made to
`onAppointmentCreated`, and whether it raised before reaching its end. -/
structure Outcome where
  st : State
  hostCalls : List JVal
  threw : Bool

/-- The `if (appointmentDetails && Object.keys(...).length > 0)` block of the
response handler.  The second component is `true` when `isAddressMissing`
raised inside it. -/
def storeAppointmentDetails (s : State) (appointmentDetails : JVal)
    (responseNeedsConfirmation : Bool) : State × Bool :=
  if appointmentDetails.truthy && appointmentDetails.hasKeys then
    let cust := (appointmentDetails.get "customer").or (.obj [])
    let s1 : State :=
      { s with
        currentAppointmentDetails := appointmentDetails
        savedAddressDetails :=
          { houseNumber := cleanValue (cust.get "house_number")
            sector := cleanValue (cust.get "sector")
            city := cleanValue (cust.get "city")
            state := cleanValue (cust.get "state") } }
    let customer := appointmentDetails.get "customer"
    let lat := customer.getOpt "latitude"
    let lng := customer.getOpt "longitude"
    let s2 : State :=
      if lat.truthy && lng.truthy then
        { s1 with selectedLocation := ⟨lat, lng, customer.get "address"⟩ }
      else s1
    if responseNeedsConfirmation && !(appointmentDetails.get "intent").isStr "booking_confirmed" then
      ({ s2 with
          confirmationAppointmentDetails := appointmentDetails
          showConfirmationDialog := true }, false)
    else
      match isAddressMissing appointmentDetails with
      | none => (s2, true)
      | some missing =>
        if !missing then ({ s2 with needsConfirmation := false }, false) else (s2, false)
  else (s, false)

/-- The test that chooses the first bot message:
`htmlSummary != null && htmlSummary !== 'null' && htmlSummary.trim() !== '' && intent !== 'error'`.
`none` is a raised `TypeError` (`trim` on a value that is not a string). -/
def htmlSummaryShown (htmlSummary intent : JVal) : Option Bool :=
  match htmlSummary with
  | .undefined => some false
  | .null => some false
  | .str h => some (h != "null" && jsTrim h != "" && !intent.isStr "error")
  | _ => none

/-- The bot messages the response handler builds (`newMessages`). -/
def newBotMessages (env : Env) (isInitialization : Bool) (data : JVal)
    (htmlSummary intent : JVal) (shown : Bool) : List Message :=
  let first : Message :=
    if shown then ⟨.bot, .str "", true, htmlSummary⟩
    else
      ⟨.bot,
        (data.get "response").or
          (.str (if isInitialization then env.t "chatbot.greeting"
                 else env.t "chatbot.somethingWentWrong")),
        false, .null⟩
  if intent.isStr "ready_for_confirmation" then
    [first, ⟨.bot, (data.get "response").or (.str (env.t "chatbot.confirmMessage")), false, .null⟩]
  else [first]

/-- The rest of the response handler once the first-message test has been
evaluated to `shown`: the new messages, the session token, the typing flag and
the booking-confirmed block. -/
def finishResponse (env : Env) (s : State) (isInitialization : Bool) (data : JVal)
    (appointmentDetails : JVal) (shown : Bool) : Outcome :=
  let intent := appointmentDetails.get "intent"
  let htmlSummary := appointmentDetails.get "html_summary"
  let newMessages := newBotMessages env isInitialization data htmlSummary intent shown
  let s3 : State :=
    if (data.get "session_id").truthy then { s with sessionId := data.get "session_id" }
    else s
  let s4 : State := { s3 with messages := s3.messages ++ newMessages, isTyping := false }
  if intent.isStr "booking_confirmed" && (appointmentDetails.get "appointment_id").truthy then
    ⟨{ s4 with confirmation := true, needsConfirmation := false },
      if env.hasOnAppointmentCreated then [appointmentDetails] else [], false⟩
  else ⟨s4, [], false⟩

/-- The value `data.appointmentDetails || {}` of the response handler. -/
def responseDetails (data : JVal) : JVal := (data.get "appointmentDetails").or (.obj [])

/-- The timer callback of the success path of `sendMessage`, run on the parsed
body `data`.  A raised error ends the callback; the `setState` calls made
before it stay in effect. -/
def handleResponse (env : Env) (s : State) (isInitialization : Bool) (data : JVal) : Outcome :=
  if data.isNullish then ⟨s, [], true⟩
  else
    let appointmentDetails := responseDetails data
    let intent := appointmentDetails.get "intent"
    let htmlSummary := appointmentDetails.get "html_summary"
    let responseNeedsConfirmation := intent.isStr "confirm_appointment"
    let s1 : State := { s with needsConfirmation := responseNeedsConfirmation }
    let stored := storeAppointmentDetails s1 appointmentDetails responseNeedsConfirmation
    if stored.2 then ⟨stored.1, [], true⟩
    else
      match htmlSummaryShown htmlSummary intent with
      | none => ⟨stored.1, [], true⟩
      | some shown => finishResponse env stored.1 isInitialization data appointmentDetails shown

/-- The timer callback of the `catch` path of `sendMessage` (the request
failed or the body did not parse). -/
def handleFailure (env : Env) (s : State) : State :=
  { s with
    messages := s.messages ++ [⟨.bot, .str (env.t "chatbot.connectionError"), false, .null⟩]
    isTyping := false }

/-- The handler `startNewConversation`.  `minDate` is the day after the
current UTC day as `YYYY-MM-DD` (`tomorrow.toISOString().split('T')[0]`). -/
def startNewConversation (env : Env) (minDate : String) (s : State) : State :=
  { s with
    messages := [greetingMessage env]
    sessionId := .str ""
    input := ""
    confirmation := false
    currentAppointmentDetails := .null
    lastUserMessageIndex := -1
    needsConfirmation := false
    showMapDialog := false
    selectedLocation := emptyLocation
    editableCustomerName := ""
    editableCustomerPhone := ""
    selectedCountryCode := "+58"
    editableCustomerEmail := ""
    editableCustomerRequirement := ""
    editableHouseNumber := ""
    editableSector := ""
    editableCity := ""
    editableState := ""
    isEditMode := false
    selectedDate := minDate
    showAppointmentDialog := true }

/-- What the input area at the bottom of the chat window renders. -/
inductive InputArea where
  | textBoxAndSend
  | startNewConversationButton
deriving DecidableEq, Repr

/-- The conditional `{!confirmation ? (input and send button) : (start new
conversation button)}` of the render function. -/
def inputArea (s : State) : InputArea :=
  if !s.confirmation then .textBoxAndSend else .startNewConversationButton

/-! ## Numbers, time strings and dates

A `JNum` is a JavaScript number whose value is an integer, or `NaN`, or an
infinity; arithmetic and the reading of numerals round to the nearest double,
ties to even, as IEEE 754 does.  Numbers with a fraction and the sign of zero
are not modelled: the time texts of the widget are built from printed integers
and runs of digits.  Local time is UTC plus a fixed offset
(`Env.tzOffsetMin`); daylight-saving changes are not modelled. -/

/-- The regular-expression class `\d` (ASCII digits). -/
def isDigit (c : Char) : Bool := 48 ≤ c.toNat && c.toNat ≤ 57

/-- The value of a list of decimal digits. -/
def digitsToNat (cs : List Char) : Nat :=
  cs.foldl (fun n c => 10 * n + (c.toNat - 48)) 0

/-- A JavaScript number whose value is an integer, or `NaN`, or an infinity.
`fin n` stands for the double with value `n`; the operations below round what
they compute to a double, so the values they build are doubles. -/
inductive JNum where
  | nan
  | inf (negative : Bool)
  | fin (n : Int)
deriving DecidableEq

/-- How often `n` is halved until it is below `2 ^ 53`; `fuel` bounds the
number of halvings. -/
def shiftCount : Nat → Nat → Nat
  | 0, _ => 0
  | fuel + 1, n => if n < 2 ^ 53 then 0 else shiftCount fuel (n / 2) + 1

/-- The 53-bit significand of the double nearest to `n`, for `n` of at least
`2 ^ 53`: the quotient by the power of two that leaves 53 bits, rounded to the
nearest integer, a tie going to the even one (`2 ^ 53` when rounding carries). -/
def significand (n : Nat) : Nat :=
  if 2 ^ shiftCount n n < 2 * (n % 2 ^ shiftCount n n)
      || (2 * (n % 2 ^ shiftCount n n) = 2 ^ shiftCount n n && n / 2 ^ shiftCount n n % 2 = 1) then
    n / 2 ^ shiftCount n n + 1
  else n / 2 ^ shiftCount n n

/-- The double nearest to a natural number, ties going to the even
significand; `none` when the number rounds beyond the largest double,
`(2 ^ 53 - 1) * 2 ^ 971`. -/
def roundNat (n : Nat) : Option Nat :=
  if n < 2 ^ 53 then some n
  else if shiftCount n n < 971 || (shiftCount n n = 971 && significand n < 2 ^ 53) then
    some (significand n * 2 ^ shiftCount n n)
  else none

/-- The Number value for a natural number. -/
def JNum.ofNat (n : Nat) : JNum :=
  match roundNat n with
  | some y => .fin (y : Int)
  | none => .inf false

/-- The Number value for an integer. -/
def JNum.ofInt : Int → JNum
  | .ofNat n => JNum.ofNat n
  | .negSucc n =>
    match roundNat (n + 1) with
    | some y => .fin (-(y : Int))
    | none => .inf true

/-- Unary minus. -/
def JNum.neg : JNum → JNum
  | .nan => .nan
  | .inf negative => .inf (!negative)
  | .fin n => .fin (-n)

/-- The operator `+` on numbers. -/
def JNum.add : JNum → JNum → JNum
  | .fin a, .fin b => JNum.ofInt (a + b)
  | .nan, _ => .nan
  | _, .nan => .nan
  | .inf s, .inf t => if s = t then .inf s else .nan
  | .inf s, .fin _ => .inf s
  | .fin _, .inf t => .inf t

/-- The operator `-` on numbers. -/
def JNum.sub (a b : JNum) : JNum := a.add b.neg

/-- The operator `*` on numbers. -/
def JNum.mul : JNum → JNum → JNum
  | .fin a, .fin b => JNum.ofInt (a * b)
  | .nan, _ => .nan
  | _, .nan => .nan
  | .inf s, .inf t => .inf (s != t)
  | .inf s, .fin b => if b = 0 then .nan else .inf (s != decide (b < 0))
  | .fin a, .inf t => if a = 0 then .nan else .inf (t != decide (a < 0))

/-- The operator `<` on numbers (false when either is `NaN`). -/
def JNum.lt : JNum → JNum → Bool
  | .fin a, .fin b => decide (a < b)
  | .nan, _ => false
  | _, .nan => false
  | .inf s, .inf t => s && !t
  | .inf s, .fin _ => s
  | .fin _, .inf t => !t

/-- The operator `<=` on numbers (false when either is `NaN`). -/
def JNum.le : JNum → JNum → Bool
  | .nan, _ => false
  | _, .nan => false
  | a, b => !(JNum.lt b a)

/-- The decimal digits of a natural number, most significant first; `fuel`
bounds the number of digits. -/
def natDigitsAux : Nat → Nat → List Char → List Char
  | 0, _, acc => acc
  | fuel + 1, n, acc =>
    if n / 10 = 0 then Char.ofNat (48 + n % 10) :: acc
    else natDigitsAux fuel (n / 10) (Char.ofNat (48 + n % 10) :: acc)

/-- The decimal digits of a natural number. -/
def natDigits (n : Nat) : List Char := natDigitsAux (n + 1) n []

/-- The decimal rendering of an integer. -/
def intToString : Int → String
  | .ofNat n => String.mk (natDigits n)
  | .negSucc n => String.mk ('-' :: natDigits (n + 1))

/-- A decimal numeral that ends in `z` zeros and rounds to the double `y`: of
the two multiples of `10 ^ z` around `y`, the one nearer to `y` among those
that round to `y` (the even one when both are as near). -/
def digitsAt (y z : Nat) : Option Nat :=
  let lo := y / 10 ^ z * 10 ^ z
  let hi := lo + 10 ^ z
  let okLo : Bool := lo != 0 && roundNat lo == some y
  let okHi : Bool := roundNat hi == some y
  if okLo && okHi then
    (if y - lo < hi - y then some lo
     else if hi - y < y - lo then some hi
     else if (y / 10 ^ z) % 2 = 0 then some lo else some hi)
  else if okLo then some lo
  else if okHi then some hi
  else none

/-- The numeral with the most trailing zeros, at most `z`, that rounds to `y`. -/
def shortestAux : Nat → Nat → Nat
  | 0, y => y
  | z + 1, y =>
    match digitsAt y (z + 1) with
    | some c => c
    | none => shortestAux z y

/-- The numeral with the fewest significant digits that rounds to the double
`y`: the digits `Number.prototype.toString` prints for it. -/
def shortest (y : Nat) : Nat := shortestAux (natDigits y).length y

/-- A list of digits without its trailing zeros. -/
def dropTrailingZeros (ds : List Char) : List Char :=
  (ds.reverse.dropWhile (fun c => c = '0')).reverse

/-- The text of a double with natural value `y`: its digits below `2 ^ 53`;
the shortest numeral that rounds to it below `10 ^ 21`; from there on one
digit, the other significant digits as a fraction, and the exponent. -/
def natToText (y : Nat) : List Char :=
  if y < 2 ^ 53 then natDigits y
  else if shortest y < 10 ^ 21 then natDigits (shortest y)
  else
    match dropTrailingZeros (natDigits (shortest y)) with
    | [] => []
    | d :: rest =>
      (if rest.isEmpty then [d] else d :: '.' :: rest) ++
        'e' :: '+' :: natDigits ((natDigits (shortest y)).length - 1)

/-- The conversion `n.toString()` of a number. -/
def numToString : JNum → String
  | .nan => "NaN"
  | .inf false => "Infinity"
  | .inf true => "-Infinity"
  | .fin (.ofNat n) => String.mk (natToText n)
  | .fin (.negSucc n) => String.mk ('-' :: natToText (n + 1))

/-- The call `parseInt(s, 10)`: leading white space, an optional sign, then
the longest run of digits, read as a double; `NaN` when there is no digit. -/
def parseInt10 (s : String) : JNum :=
  let cs := s.data.dropWhile jsIsSpace
  let neg : Bool := cs.head? = some '-'
  let rest : List Char := if cs.head? = some '-' || cs.head? = some '+' then cs.tail else cs
  let ds := rest.takeWhile isDigit
  if ds.isEmpty then .nan
  else if neg then (JNum.ofNat (digitsToNat ds)).neg else JNum.ofNat (digitsToNat ds)

/-- The value of a hexadecimal digit. -/
def radixDigit (c : Char) : Option Nat :=
  if 48 ≤ c.toNat && c.toNat ≤ 57 then some (c.toNat - 48)
  else if 97 ≤ c.toNat && c.toNat ≤ 102 then some (c.toNat - 87)
  else if 65 ≤ c.toNat && c.toNat ≤ 70 then some (c.toNat - 55)
  else none

/-- The base a numeric text announces with `0x`, `0o` or `0b`. -/
def radixOf (cs : List Char) : Option Nat :=
  match cs with
  | '0' :: m :: _ =>
    if m = 'x' || m = 'X' then some 16
    else if m = 'o' || m = 'O' then some 8
    else if m = 'b' || m = 'B' then some 2
    else none
  | _ => none

/-- The value of the digits of a numeral in a base (`NaN` when there is none
or one is not a digit of the base). -/
def radixValue (base : Nat) (cs : List Char) : JNum :=
  if cs.isEmpty || !cs.all (fun c => (radixDigit c).any (fun d => decide (d < base))) then .nan
  else JNum.ofNat (cs.foldl (fun n c => base * n + (radixDigit c).getD 0) 0)

/-- The number `mantissa * 10 ^ exponent` as a double, when it is an integer;
a value with a fraction is outside `JNum` and comes out as `NaN`. -/
def scaledValue (mantissa : Nat) (exponent : Int) : JNum :=
  if 0 ≤ exponent then JNum.ofNat (mantissa * 10 ^ exponent.toNat)
  else if mantissa % 10 ^ (-exponent).toNat = 0 then
    JNum.ofNat (mantissa / 10 ^ (-exponent).toNat)
  else .nan

/-- The value of an unsigned decimal literal: `Infinity`, or digits with an
optional fraction and an optional exponent; `NaN` for any other text. -/
def unsignedDecimal (cs : List Char) : JNum :=
  if cs = "Infinity".data then .inf false
  else
    let whole := cs.takeWhile isDigit
    let afterWhole := cs.dropWhile isDigit
    let fraction : List Char :=
      match afterWhole with
      | '.' :: t => t.takeWhile isDigit
      | _ => []
    let afterFraction : List Char :=
      match afterWhole with
      | '.' :: t => t.dropWhile isDigit
      | _ => afterWhole
    if whole.isEmpty && fraction.isEmpty then .nan
    else
      match afterFraction with
      | [] => scaledValue (digitsToNat (whole ++ fraction)) (-(fraction.length : Int))
      | e :: t =>
        if e = 'e' || e = 'E' then
          let ds : List Char := if t.head? = some '-' || t.head? = some '+' then t.tail else t
          if ds.isEmpty || !ds.all isDigit then .nan
          else
            scaledValue (digitsToNat (whole ++ fraction))
              ((if t.head? = some '-' then -(digitsToNat ds : Int) else (digitsToNat ds : Int))
                - (fraction.length : Int))
        else .nan

/-- The conversion `Number(s)`: white space around the text is dropped, the
empty text is `0`; then a numeral in base 16, 8 or 2 behind its prefix, or an
optionally signed decimal literal; `NaN` for any other text.  The value is
rounded to a double.  A literal whose value has a fraction is outside `JNum`
and comes out as `NaN`. -/
def jsNumber (s : String) : JNum :=
  let cs := trimChars s.data
  if cs.isEmpty then .fin 0
  else
    match radixOf cs with
    | some base => radixValue base (cs.drop 2)
    | none =>
      if cs.head? = some '-' then (unsignedDecimal cs.tail).neg
      else if cs.head? = some '+' then unsignedDecimal cs.tail
      else unsignedDecimal cs

/-- The call `s.padStart(2, '0')`. -/
def padStart2 (s : String) : String :=
  String.mk (List.replicate (2 - s.data.length) '0' ++ s.data)

/-- The call `s.split(':')` on character lists. -/
def splitColon : List Char → List (List Char)
  | [] => [[]]
  | c :: cs =>
    if c = ':' then [] :: splitColon cs
    else
      match splitColon cs with
      | [] => [[c]]
      | p :: ps => (c :: p) :: ps

/-- The destructuring `[hours, minutes] = timeString.split(':').map(Number)`;
a missing second piece leaves `minutes` undefined, which behaves as `NaN`. -/
def parseTime (timeString : String) : JNum × JNum :=
  match splitColon timeString.data with
  | [] => (.nan, .nan)
  | [h] => (jsNumber (String.mk h), .nan)
  | h :: m :: _ => (jsNumber (String.mk h), jsNumber (String.mk m))

/-- The expression `hours * 60 + minutes` of a parsed time. -/
def totalMinutes (timeString : String) : JNum :=
  ((parseTime timeString).1.mul (.fin 60)).add (parseTime timeString).2

/-- The step from the 12-hour to the 24-hour clock, written out both in
`convert12To24Hour` and in the time pre-fill:
`if (ampm === 'PM' && hour !== 12) hour += 12; else if (ampm === 'AM' && hour === 12) hour = 0`. -/
def hourTo24 (hour : JNum) (ampm : String) : JNum :=
  if ampm = "PM" && hour != .fin 12 then hour.add (.fin 12)
  else if ampm = "AM" && hour == .fin 12 then .fin 0
  else hour

/-- The function `convert12To24Hour`. -/
def convert12To24Hour (hour12 minute ampm : String) : String :=
  if hour12 = "" || minute = "" then ""
  else padStart2 (numToString (hourTo24 (parseInt10 hour12) ampm)) ++ ":" ++ minute

/-- The function `isTimeInAllowedRange` (09:00 to 18:00). -/
def isTimeInAllowedRange (hour minute ampm : String) : Bool :=
  if hour = "" || minute = "" then false
  else
    let time24 := convert12To24Hour hour minute ampm
    if time24 = "" then false
    else
      JNum.le (.fin (9 * 60)) (totalMinutes time24) && JNum.le (totalMinutes time24) (.fin (18 * 60))

/-- Milliseconds in a day. -/
def msPerDay : Int := 86400000

/-- The local calendar day (days since the epoch) an instant falls on. -/
def localDay (env : Env) (ms : Int) : Int := (ms + env.tzOffsetMin * 60000) / msPerDay

/-- The call `d.setHours(h, m, 0, 0)`: the instant at local time `h:m` of the
local day of `ms`. -/
def setHours (env : Env) (ms : Int) (h m : Int) : Int :=
  localDay env ms * msPerDay + h * 3600000 + m * 60000 - env.tzOffsetMin * 60000

/-- The function `isFutureDate`. -/
def isFutureDate (env : Env) (dateString : String) : Bool :=
  if dateString = "" then false
  else
    match env.dateParse dateString with
    | none => false
    | some selected => decide (setHours env selected 0 0 > setHours env env.now 0 0)

/-- The abstract operation `TimeClip`: a time value more than 8.64e15
milliseconds from the epoch, or not finite, is no time value (`none`). -/
def timeClip : JNum → Option Int
  | .fin t => if -8640000000000000 ≤ t ∧ t ≤ 8640000000000000 then some t else none
  | _ => none

/-- The abstract operation `MakeTime(hour, min, 0, 0)`:
`hour * msPerHour + min * msPerMinute` in double arithmetic, `NaN` when an
argument is not finite. -/
def makeTime (hour min : JNum) : JNum :=
  match hour, min with
  | .fin h, .fin m => ((JNum.fin h).mul (.fin 3600000)).add ((JNum.fin m).mul (.fin 60000))
  | _, _ => .nan

/-- The call `d.setHours(h, m, 0, 0)` for any two numbers, on a date with time
value `ms`: `MakeDate` of the local day of `ms` and `MakeTime(h, m, 0, 0)`,
taken back to UTC and put through `TimeClip`; `none` is an invalid date. -/
def setHoursAt (env : Env) (ms : Int) (h m : JNum) : Option Int :=
  match makeTime h m with
  | .fin time =>
    timeClip
      (((JNum.ofInt (localDay env ms * msPerDay)).add (.fin time)).sub
        (JNum.ofInt (env.tzOffsetMin * 60000)))
  | _ => none

/-- The function `isFutureDateTime`. -/
def isFutureDateTime (env : Env) (dateString timeString : String) : Bool :=
  if dateString = "" || timeString = "" then false
  else
    match env.dateParse dateString with
    | none => false
    | some selectedDate =>
      match setHoursAt env selectedDate (parseTime timeString).1 (parseTime timeString).2 with
      | none => false
      | some t => decide (t > env.now)

/-- Year, month (1 to 12) and day of month of a day number, in the proleptic
Gregorian calendar (what `getFullYear`, `getMonth() + 1`, `getDate` return). -/
def civilFromDays (day : Int) : Int × Int × Int :=
  let z := day + 719468
  let era := z / 146097
  let doe := z - era * 146097
  let yoe := (doe - doe / 1460 + doe / 36524 - doe / 146096) / 365
  let doy := doe - (365 * yoe + yoe / 4 - yoe / 100)
  let mp := (5 * doy + 2) / 153
  let d := doy - (153 * mp + 2) / 5 + 1
  let m := if mp < 10 then mp + 3 else mp - 9
  (if m ≤ 2 then yoe + era * 400 + 1 else yoe + era * 400, m, d)

/-- The day number of a calendar date (inverse of `civilFromDays`). -/
def daysFromCivil (y m d : Int) : Int :=
  let y' := if m ≤ 2 then y - 1 else y
  let era := y' / 400
  let yoe := y' - era * 400
  let doy := (153 * (if m > 2 then m - 3 else m + 9) + 2) / 5 + d - 1
  let doe := yoe * 365 + yoe / 4 - yoe / 100 + doy
  era * 146097 + doe - 719468

/-- The date-only ISO form `YYYY-MM-DD` read as UTC midnight, as
`new Date(s)` does; any other text is an invalid date here. -/
def isoDateParse (s : String) : Option Int :=
  match s.data with
  | [y1, y2, y3, y4, '-', m1, m2, '-', d1, d2] =>
    if [y1, y2, y3, y4, m1, m2, d1, d2].all isDigit then
      let y : Int := digitsToNat [y1, y2, y3, y4]
      let m : Int := digitsToNat [m1, m2]
      let d : Int := digitsToNat [d1, d2]
      if 1 ≤ m && m ≤ 12 && 1 ≤ d &&
          d ≤ daysFromCivil (if m = 12 then y + 1 else y) (if m = 12 then 1 else m + 1) 1
            - daysFromCivil y m 1 then
        some (daysFromCivil y m d * msPerDay)
      else none
    else none
  | _ => none

/-! ## Regular expressions -/

/-- Regular expressions over characters (anchored matching). -/
inductive Rx where
  | none
  | eps
  | cls (p : Char → Bool)
  | seq (a b : Rx)
  | alt (a b : Rx)
  | star (a : Rx)

namespace Rx

/-- Whether the expression matches the empty text. -/
def nullable : Rx → Bool
  | none => false
  | eps => true
  | cls _ => false
  | seq a b => a.nullable && b.nullable
  | alt a b => a.nullable || b.nullable
  | star _ => true

/-- The derivative of an expression by one character. -/
def deriv (c : Char) : Rx → Rx
  | none => none
  | eps => none
  | cls p => if p c then eps else none
  | seq a b => if a.nullable then alt (seq (a.deriv c) b) (b.deriv c) else seq (a.deriv c) b
  | alt a b => alt (a.deriv c) (b.deriv c)
  | star a => seq (a.deriv c) (star a)

/-- The test `/^r$/.test(text)`. -/
def test (r : Rx) (cs : List Char) : Bool := (cs.foldl (fun r c => r.deriv c) r).nullable

/-- The expression `r+`. -/
def plus (r : Rx) : Rx := seq r (star r)

/-- A single given character. -/
def chr (c : Char) : Rx := cls (fun x => x = c)

end Rx

/-- The pattern `/^[^\s@]+@[^\s@]+\.[^\s@]+$/` of `isValidEmail`. -/
def emailRegex : Rx :=
  let part := Rx.plus (.cls (fun c => !(jsIsSpace c || c = '@')))
  .seq part (.seq (.chr '@') (.seq part (.seq (.chr '.') part)))

/-- The function `isValidEmail`: an empty or blank text is valid. -/
def isValidEmail (email : String) : Bool :=
  if email = "" || jsTrim email = "" then true
  else emailRegex.test (trimChars email.data)

/-- The function `isValidPhoneNumber`. -/
def isValidPhoneNumber (phone countryCode : String) : Bool :=
  if phone = "" || jsTrim phone = "" then false
  else
    let digitsOnly := phone.data.filter isDigit
    if countryCode = "+58" then 10 ≤ digitsOnly.length && digitsOnly.length ≤ 11
    else 7 ≤ digitsOnly.length && digitsOnly.length ≤ 15

/-! ## The appointment form -/

mutual
/-- The conversion of a value to text in a template literal. -/
def JVal.toStr : JVal → String
  | .undefined => "undefined"
  | .null => "null"
  | .bool b => if b then "true" else "false"
  | .num n => numToString (JNum.ofInt n)
  | .str s => s
  | .arr xs => JVal.joinStr xs
  | .obj _ => "[object Object]"
/-- The elements of an array joined by commas (`null` and `undefined`
elements give the empty text). -/
def JVal.joinStr : List JVal → String
  | [] => ""
  | [x] => if x.isNullish then "" else x.toStr
  | x :: y :: rest => (if x.isNullish then "" else x.toStr) ++ "," ++ JVal.joinStr (y :: rest)
end

/-- The expression `t(key) || fallback`. -/
def tOr (env : Env) (key fallback : String) : String := strOr (env.t key) fallback

/-- The function `updateTimeFrom12Hour`. -/
def updateTimeFrom12Hour (env : Env) (hour minute ampm : String) (s : State) : State :=
  if hour = "" || minute = "" then { s with selectedTime := "", timeError := "" }
  else
    { s with
      selectedTime := convert12To24Hour hour minute ampm
      timeError :=
        if !isTimeInAllowedRange hour minute ampm then
          tOr env "chatbot.timeRangeError" "Time must be between 9 AM and 6 PM"
        else "" }

/-- The `onChange` handler of the hour dropdown. -/
def selectHour (env : Env) (hour : String) (s : State) : State :=
  updateTimeFrom12Hour env hour s.selectedMinute s.selectedAmPm { s with selectedHour := hour }

/-- The `onChange` handler of the minute dropdown. -/
def selectMinute (env : Env) (minute : String) (s : State) : State :=
  updateTimeFrom12Hour env s.selectedHour minute s.selectedAmPm { s with selectedMinute := minute }

/-- The `onChange` handler of the AM/PM dropdown. -/
def selectAmPm (env : Env) (ampm : String) (s : State) : State :=
  if s.selectedHour != "" && s.selectedMinute != "" then
    updateTimeFrom12Hour env s.selectedHour s.selectedMinute ampm { s with selectedAmPm := ampm }
  else { s with selectedAmPm := ampm, timeError := "" }

/-- The values the hour dropdown offers: the placeholder and `01` to `12`. -/
def hourOptions : List String :=
  "" :: (List.range 12).map (fun i => padStart2 (intToString ((i + 1 : Nat) : Int)))

/-- The values the minute dropdown offers: the placeholder and `00` to `59`. -/
def minuteOptions : List String :=
  "" :: (List.range 60).map (fun i => padStart2 (intToString ((i : Nat) : Int)))

/-- The values the AM/PM dropdown offers. -/
def amPmOptions : List String := ["AM", "PM"]

/-- The call `s.toUpperCase()` on ASCII letters. -/
def upperAscii (s : String) : String :=
  String.mk (s.data.map (fun c => if 97 ≤ c.toNat && c.toNat ≤ 122 then Char.ofNat (c.toNat - 32) else c))

/-- The time pre-fill of `openEditAppointmentDialog`, given the three groups
of a match of `/(\d+):(\d+)\s*(AM|PM)/i` against `service.time`. -/
def prefillTime (hourGroup minuteGroup ampmGroup : String) (s : State) : State :=
  { s with
    selectedHour := padStart2 (numToString (parseInt10 hourGroup))
    selectedMinute := minuteGroup
    selectedAmPm := upperAscii ampmGroup
    selectedTime :=
      padStart2 (numToString (hourTo24 (parseInt10 hourGroup) (upperAscii ampmGroup))) ++ ":"
        ++ minuteGroup }

/-- The handler `closeAppointmentDialog`. -/
def closeAppointmentDialog (s : State) : State :=
  { s with
    showAppointmentDialog := false
    appointmentSearchAddress := ""
    timeError := ""
    selectedHour := ""
    selectedMinute := ""
    selectedAmPm := "AM"
    isOpen := true
    appointmentLocation := emptyLocation
    editableFullAddress := ""
    viabilityError := ""
    fieldErrors := noFieldErrors
    editableHouseNumber := ""
    editableSector := ""
    editableCity := ""
    editableState := "" }

/-- The reset at the end of `submitAppointmentBooking`, run when the awaited
`sendMessage` call has returned. -/
def resetAppointmentForm (s : State) : State :=
  { s with
    selectedDate := ""
    selectedTime := ""
    selectedHour := ""
    selectedMinute := ""
    selectedAmPm := "AM"
    timeError := ""
    appointmentLocation := emptyLocation
    appointmentSearchAddress := ""
    editableFullAddress := ""
    viabilityError := ""
    editableCustomerName := ""
    editableCustomerPhone := ""
    selectedCountryCode := "+58"
    editableCustomerEmail := ""
    editableCustomerRequirement := ""
    savedAddressDetails := ⟨.str "", .str "", .str "", .str ""⟩ }

/-- The function `getFullPhoneNumber`. -/
def getFullPhoneNumber (s : State) : String :=
  if jsTrim s.editableCustomerPhone = "" then ""
  else s.selectedCountryCode ++ s.editableCustomerPhone

/-- The errors record `validateEditModeFields` builds (and stores with
`setFieldErrors`); all empty outside edit mode. -/
def editModeErrors (env : Env) (s : State) : FieldErrors :=
  if s.isEditMode then
    { name :=
        if jsTrim s.editableCustomerName = "" then tOr env "chatbot.fieldRequired" "This field is required"
        else ""
      phone :=
        if jsTrim s.editableCustomerPhone = "" then
          tOr env "chatbot.fieldRequired" "This field is required"
        else if !isValidPhoneNumber s.editableCustomerPhone s.selectedCountryCode then
          if s.selectedCountryCode = "+58" then
            tOr env "chatbot.phoneValidationError" "Phone number must be exactly 10 digits"
          else
            tOr env "chatbot.phoneValidationErrorInternational"
              "Phone number must be between 7 and 15 digits"
        else ""
      email :=
        if jsTrim s.editableCustomerEmail = "" then
          tOr env "chatbot.fieldRequired" "This field is required"
        else if !isValidEmail s.editableCustomerEmail then
          tOr env "chatbot.emailValidationError" "Please enter a valid email address"
        else ""
      requirement :=
        if jsTrim s.editableCustomerRequirement = "" then
          tOr env "chatbot.fieldRequired" "This field is required"
        else ""
      date :=
        if s.selectedDate = "" then tOr env "chatbot.fieldRequired" "This field is required"
        else if !isFutureDate env s.selectedDate then env.t "chatbot.pleaseSelectFutureDate"
        else ""
      time :=
        if s.selectedTime = "" && (s.selectedHour = "" || s.selectedMinute = "") then
          tOr env "chatbot.fieldRequired" "This field is required"
        else if s.selectedHour != "" && s.selectedMinute != ""
            && !isTimeInAllowedRange s.selectedHour s.selectedMinute s.selectedAmPm then
          tOr env "chatbot.timeRangeError" "Time must be between 9 AM and 6 PM"
        else ""
      address :=
        if !s.appointmentLocation.lat.truthy || !s.appointmentLocation.lng.truthy then
          tOr env "chatbot.fieldRequired" "This field is required"
        else "" }
  else noFieldErrors

/-- The value `Object.values(errors).every(error => error === "")`. -/
def FieldErrors.allEmpty (e : FieldErrors) : Bool :=
  e.name = "" && e.phone = "" && e.email = "" && e.requirement = "" && e.date = "" &&
    e.time = "" && e.address = ""

/-- The function `validateEditModeFields`: the state with the errors stored,
and whether there is none. -/
def validateEditModeFields (env : Env) (s : State) : State × Bool :=
  ({ s with fieldErrors := editModeErrors env s }, (editModeErrors env s).allEmpty)

/-- The first non-empty entry of a `fieldErrors` record, in key order. -/
def FieldErrors.first (e : FieldErrors) : Option String :=
  [e.name, e.phone, e.email, e.requirement, e.date, e.time, e.address].find? (fun v => v != "")

/-- The date line of the booking message: `new Date(selectedDate)` rendered
from its local `getDate()`, `getMonth() + 1` and `getFullYear()`. -/
def formattedDate (env : Env) (selectedDate : String) : String :=
  match env.dateParse selectedDate with
  | none => "NaN/NaN/NaN"
  | some t =>
    match civilFromDays (localDay env t) with
    | (y, m, d) =>
      padStart2 (intToString d) ++ "/" ++ padStart2 (intToString m) ++ "/" ++ intToString y

/-- The time label of the booking message. -/
def timeLabel (s : State) : String :=
  if s.selectedTime != "" then
    match parseTime s.selectedTime with
    | (hours, minutes) =>
      let hour12 : JNum :=
        if JNum.lt (.fin 12) hours then hours.sub (.fin 12)
        else if hours == .fin 0 then .fin 12
        else hours
      let ampm : String := if JNum.le (.fin 12) hours then "PM" else "AM"
      numToString hour12 ++ ":" ++ padStart2 (numToString minutes) ++ " " ++ ampm
  else if s.selectedHour != "" && s.selectedMinute != "" then
    s.selectedHour ++ ":" ++ s.selectedMinute ++ " " ++ s.selectedAmPm
  else ""

/-- The customer name of the booking message (`none`: reading a property of
an absent `customerLeadData.customer` raised). -/
def bookingCustomerName (s : State) : Option String :=
  if jsTrim s.editableCustomerName != "" then some (jsTrim s.editableCustomerName)
  else if s.customerLeadData.truthy then
    let customer := s.customerLeadData.get "customer"
    if customer.isNullish then none
    else
      some (jsTrim (((customer.get "first_name").or (.str "")).toStr ++ " "
        ++ ((customer.get "last_name").or (.str "")).toStr))
  else some ""

/-- The customer phone of the booking message (`none`: raised). -/
def bookingCustomerPhone (s : State) : Option String :=
  if jsTrim s.editableCustomerPhone != "" then some (getFullPhoneNumber s)
  else if s.customerLeadData.truthy then
    let customer := s.customerLeadData.get "customer"
    if customer.isNullish then none
    else
      match (customer.get "phone").or (.str "") with
      | .str phone =>
        if phone.data.head? = some '+' then some phone
        else
          let digits := phone.data.filter isDigit
          let capped :=
            if s.selectedCountryCode = "+58" then
              (if digits.length > 11 then digits.take 11 else digits)
            else (if digits.length > 15 then digits.take 15 else digits)
          some (s.selectedCountryCode ++ String.mk capped)
      | _ => none
  else some ""

/-- The customer email of the booking message, before it is trimmed. -/
def bookingCustomerEmail (s : State) : JVal :=
  if jsTrim s.editableCustomerEmail != "" then .str (jsTrim s.editableCustomerEmail)
  else if s.customerLeadData.truthy then
    ((s.customerLeadData.get "customer").getOpt "email").or (.str "")
  else if ((s.currentAppointmentDetails.getOpt "customer").getOpt "email").truthy then
    (s.currentAppointmentDetails.getOpt "customer").getOpt "email"
  else .str ""

/-- The requirement text of the booking message, before it is trimmed. -/
def bookingInstallationNotes (s : State) : JVal :=
  if jsTrim s.editableCustomerRequirement != "" then .str (jsTrim s.editableCustomerRequirement)
  else if s.customerLeadData.truthy then
    ((s.customerLeadData.get "contract").getOpt "installation_notes").or (.str "")
  else .str ""

/-- A labelled line `label: value.trim()` pushed when `value && value.trim()`
holds; `none` when `trim` is called on a truthy value that is not a string. -/
def labelledLine (label : String) (value : JVal) : Option (List String) :=
  if !value.truthy then some []
  else
    match value with
    | .str v => some (if jsTrim v != "" then [label ++ ": " ++ jsTrim v] else [])
    | _ => none

/-- A line `label: value.trim()` pushed when the trimmed form field is not empty. -/
def fieldLine (label value : String) : List String :=
  if jsTrim value != "" then [label ++ ": " ++ jsTrim value] else []

/-- The text `submitAppointmentBooking` composes (`none`: composing raised). -/
def bookingMessage (env : Env) (s : State) : Option String :=
  match bookingCustomerName s, bookingCustomerPhone s,
    labelledLine (tOr env "chatbot.customerEmail" "Email") (bookingCustomerEmail s),
    labelledLine (tOr env "chatbot.customerRequirement" "Customer Requirements")
      (bookingInstallationNotes s) with
  | some customerName, some customerPhone, some emailLine, some notesLine =>
    let fullAddress : JVal :=
      ((JVal.str (jsTrim s.editableFullAddress)).or s.appointmentLocation.address).or (.str "")
    let coordinates : String :=
      if s.appointmentLocation.lat.truthy && s.appointmentLocation.lng.truthy then
        " (" ++ env.t "chatbot.coordinates" ++ " " ++ s.appointmentLocation.lat.toStr ++ ", "
          ++ s.appointmentLocation.lng.toStr ++ ")"
      else ""
    some (String.intercalate "\n"
      (fieldLine (tOr env "chatbot.customerName" "Customer Name") customerName
        ++ fieldLine (tOr env "appointments.contactNumber" "Contact Number") customerPhone
        ++ emailLine ++ notesLine
        ++ [tOr env "appointments.address" "Address" ++ ": " ++ fullAddress.toStr ++ coordinates]
        ++ fieldLine "House Number" s.editableHouseNumber
        ++ fieldLine "Sector" s.editableSector
        ++ fieldLine "City" s.editableCity
        ++ fieldLine "State" s.editableState
        ++ [tOr env "appointments.date" "Date" ++ ": " ++ formattedDate env s.selectedDate
              ++ " (DD/MM/YYYY)",
            tOr env "appointments.time" "Time" ++ ": " ++ timeLabel s]))
  | _, _, _, _ => none

/-- The time-range test of `submitAppointmentBooking`: on the hour, minute and
AM/PM selection when hour and minute are set, else on `selectedTime`. -/
def timeOutOfRange (s : State) : Bool :=
  if s.selectedHour != "" && s.selectedMinute != "" then
    !isTimeInAllowedRange s.selectedHour s.selectedMinute s.selectedAmPm
  else if s.selectedTime != "" then
    JNum.lt (totalMinutes s.selectedTime) (.fin (9 * 60))
      || JNum.lt (.fin (18 * 60)) (totalMinutes s.selectedTime)
  else false

/-- What a call of `submitAppointmentBooking` does before its reset: the
state it leaves, the alert it shows, the text it passes to `sendMessage`, the
request that call hands to `fetch`, and whether composing the text raised. -/
structure SubmitOutcome where
  st : State
  alert : Option String
  sent : Option String
  request : Option Request
  raised : Bool

/-- A submit attempt stopped by a validation alert. -/
def blockedWith (st : State) (alert : String) : SubmitOutcome := ⟨st, some alert, none, none, false⟩

/-- The handler `submitAppointmentBooking`, up to and including the
synchronous prefix of the `sendMessage` call it awaits. -/
def submitAppointmentBooking (env : Env) (s : State) : SubmitOutcome :=
  if s.isEditMode && !(validateEditModeFields env s).2 then
    blockedWith (validateEditModeFields env s).1
      (match s.fieldErrors.first with
       | some e => e
       | none => tOr env "chatbot.fieldRequired" "Please fill in all required fields")
  else
    let s0 : State := if s.isEditMode then (validateEditModeFields env s).1 else s
    if jsTrim s.editableCustomerRequirement = "" then
      blockedWith
        { s0 with
          fieldErrors :=
            { s0.fieldErrors with
              requirement := tOr env "chatbot.fieldRequired" "This field is required" } }
        (tOr env "chatbot.fieldRequired" "Please select a customer requirement")
    else if s.selectedDate = "" || !isFutureDate env s.selectedDate then
      blockedWith s0 (env.t "chatbot.pleaseSelectFutureDate")
    else if s.selectedTime = "" && (s.selectedHour = "" || s.selectedMinute = "") then
      blockedWith s0 (env.t "chatbot.pleaseSelectTimeSlot")
    else if strOr s.selectedTime
          (convert12To24Hour s.selectedHour s.selectedMinute s.selectedAmPm) != ""
        && !isFutureDateTime env s.selectedDate
          (strOr s.selectedTime
            (convert12To24Hour s.selectedHour s.selectedMinute s.selectedAmPm)) then
      blockedWith s0
        (tOr env "chatbot.pastDateTimeNotAllowed"
          "Past date and time are not allowed. Please select a future date and time.")
    else if timeOutOfRange s then
      blockedWith s0 (tOr env "chatbot.timeRangeError" "Time must be between 9 AM and 6 PM")
    else if !s.appointmentLocation.lat.truthy || !s.appointmentLocation.lng.truthy then
      blockedWith s0 (env.t "chatbot.pleaseSelectAddressOnMap")
    else if jsTrim s.editableCustomerEmail != "" && !isValidEmail s.editableCustomerEmail then
      blockedWith s0 (tOr env "chatbot.emailValidationError" "Please enter a valid email address")
    else
      match bookingMessage env s with
      | none => ⟨s0, none, none, none, true⟩
      | some appointmentMessage =>
        let s1 : State :=
          { s0 with
            savedAddressDetails :=
              ⟨.str (jsTrim s.editableHouseNumber), .str (jsTrim s.editableSector),
                .str (jsTrim s.editableCity), .str (jsTrim s.editableState)⟩
            showAppointmentDialog := false
            isOpen := true }
        ⟨(sendMessage env s1 (some appointmentMessage) false false).1, none,
          some appointmentMessage,
          (sendMessage env s1 (some appointmentMessage) false false).2, false⟩

/-- The selected time agrees with the hour, minute and AM/PM selection
whenever hour and minute are both set. -/
def TimeConsistent (s : State) : Prop :=
  s.selectedHour ≠ "" → s.selectedMinute ≠ "" →
    s.selectedTime = convert12To24Hour s.selectedHour s.selectedMinute s.selectedAmPm

/-- A number that is not negative: `NaN`, `Infinity`, or a double with a
natural value. -/
def JNum.NonNeg (x : JNum) : Prop :=
  x = .nan ∨ x = .inf false ∨ ∃ y : Nat, x = .fin (y : Int) ∧ roundNat y = some y

/-- The shape of the time fields: the minute is empty or a run of digits; the
hour is empty or a text that `parseInt` reads as a number that is not
negative; the stored time is empty or a printed number that is not negative,
a colon, and a run of digits. -/
def TimeShaped (s : State) : Prop :=
  (s.selectedMinute = "" ∨ s.selectedMinute.data.all isDigit = true) ∧
  (s.selectedHour = "" ∨ (parseInt10 s.selectedHour).NonNeg) ∧
  (s.selectedTime = "" ∨
    ∃ (x : JNum) (m : String), x.NonNeg ∧ m.data ≠ [] ∧ m.data.all isDigit = true ∧
      s.selectedTime = padStart2 (numToString x) ++ ":" ++ m)

/-- Whenever hour and minute are both set, a time is stored and it agrees
with the hour, minute and AM/PM selection, unless the hour is stored in a form
that is not a run of digits (the exponent form of a number from `1e21` on, or
`Infinity`) and `isFutureDateTime` rejects the stored time for every date. -/
def TimeAgrees (env : Env) (s : State) : Prop :=
  s.selectedHour ≠ "" → s.selectedMinute ≠ "" →
    s.selectedTime ≠ "" ∧
    (s.selectedTime = convert12To24Hour s.selectedHour s.selectedMinute s.selectedAmPm ∨
      (s.selectedHour.data.all isDigit = false ∧
        ∀ dateString, isFutureDateTime env dateString s.selectedTime = false))

/-- One operation on the appointment form, as far as the time fields go: the
three dropdowns with the values they offer, the time pre-fill of the edit
dialog with the groups of a match of its pattern, closing the dialog, the
reset after a submit, and any other handler, none of which writes
`selectedTime`, `selectedHour`, `selectedMinute` or `selectedAmPm`. -/
inductive FormStep (env : Env) : State → State → Prop where
  | hour (s : State) (v : String) (hv : v ∈ hourOptions) : FormStep env s (selectHour env v s)
  | minute (s : State) (v : String) (hv : v ∈ minuteOptions) :
      FormStep env s (selectMinute env v s)
  | amPm (s : State) (v : String) (hv : v ∈ amPmOptions) : FormStep env s (selectAmPm env v s)
  | prefill (s : State) (h m a : String)
      (hh : h.data ≠ [] ∧ h.data.all isDigit = true)
      (hm : m.data ≠ [] ∧ m.data.all isDigit = true)
      (ha : upperAscii a ∈ amPmOptions) : FormStep env s (prefillTime h m a s)
  | close (s : State) : FormStep env s (closeAppointmentDialog s)
  | reset (s : State) : FormStep env s (resetAppointmentForm s)
  | other (s s' : State)
      (hTime : s'.selectedTime = s.selectedTime)
      (hHour : s'.selectedHour = s.selectedHour)
      (hMinute : s'.selectedMinute = s.selectedMinute)
      (hAmPm : s'.selectedAmPm = s.selectedAmPm) : FormStep env s s'

/-- The form states reachable from the freshly mounted widget. -/
inductive FormReachable (env : Env) : State → Prop where
  | init (chatbotId : Option String) : FormReachable env (initialState env chatbotId)
  | step (s s' : State) (hs : FormReachable env s) (h : FormStep env s s') : FormReachable env s'

/-! ## Sequences of sends and responses -/

/-- Whether the `isAddressMissing` call inside the storing block of the
response handler is reached and raises. -/
def storeRaises (appointmentDetails : JVal) (responseNeedsConfirmation : Bool) : Bool :=
  appointmentDetails.truthy && appointmentDetails.hasKeys &&
    !(responseNeedsConfirmation && !(appointmentDetails.get "intent").isStr "booking_confirmed") &&
    (isAddressMissing appointmentDetails).isNone

/-- Whether the response handler raises on a payload.  It raises when the
body is `null`, when `isAddressMissing` raises on the stored details, and when
`html_summary` is neither absent, `null` nor a string. -/
def responseRaises (data : JVal) : Bool :=
  if data.isNullish then true
  else
    let appointmentDetails := responseDetails data
    let intent := appointmentDetails.get "intent"
    storeRaises appointmentDetails (intent.isStr "confirm_appointment") ||
      (htmlSummaryShown (appointmentDetails.get "html_summary") intent).isNone

/-- What an observer of the widget sees of a conversation: a request handed
to `fetch`, or a parsed response body given to the response handler. -/
inductive Obs where
  | request (q : Request)
  | responded (data : JVal)

/-- The widget together with the requests whose outcome is still awaited (for
each, the `isInitialization` flag its callback closes over) and the
observations so far. -/
structure Sys where
  st : State
  inFlight : List Bool
  log : List Obs

/-- One event of a conversation: a call of `sendMessage`, the arrival of the
parsed body of the `i`-th awaited request, or the failure of that request. -/
inductive Event where
  | send (initialMessage : Option String) (isInitialization : Bool) (isAddressUpdate : Bool)
  | deliver (i : Nat) (data : JVal)
  | fail (i : Nat)

/-- Whether an event is a `sendMessage` call with `isInitialization = true`. -/
def Event.isInitSend : Event → Bool
  | .send _ i _ => i
  | _ => false

/-- Whether an event delivers a payload on which the response handler raises. -/
def Event.deliversRaising : Event → Bool
  | .deliver _ data => responseRaises data
  | _ => false

/-- One step of a conversation.  An outcome for a request that is not awaited
does nothing. -/
def step (env : Env) (y : Sys) : Event → Sys
  | .send m i a =>
    match (sendMessage env y.st m i a).2 with
    | some q => ⟨(sendMessage env y.st m i a).1, y.inFlight ++ [i], y.log ++ [.request q]⟩
    | none => ⟨(sendMessage env y.st m i a).1, y.inFlight, y.log⟩
  | .deliver i data =>
    match y.inFlight.get? i with
    | some f => ⟨(handleResponse env y.st f data).st, y.inFlight.eraseIdx i, y.log ++ [.responded data]⟩
    | none => y
  | .fail i =>
    match y.inFlight.get? i with
    | some _ => ⟨handleFailure env y.st, y.inFlight.eraseIdx i, y.log⟩
    | none => y

/-- A conversation: the events applied in order. -/
def run (env : Env) (y : Sys) (evs : List Event) : Sys := evs.foldl (step env) y

/-- The freshly mounted widget with nothing awaited and nothing observed. -/
def initSys (env : Env) (chatbotId : Option String) : Sys :=
  ⟨initialState env chatbotId, [], []⟩

/-- The effect of one observation on the stored token: a response with a
truthy `session_id` replaces it, everything else keeps it. -/
def nextToken (tok : JVal) : Obs → JVal
  | .request _ => tok
  | .responded data => if (data.get "session_id").truthy then data.get "session_id" else tok

/-- The session token carried by the most recent response in a log that
supplied a truthy `session_id`; the empty string when there is none. -/
def lastToken (log : List Obs) : JVal := log.foldl nextToken (.str "")

/-- Every request of a log carries the token of the most recent response
before it that supplied one (the empty string if none did). -/
def RequestsEchoToken (log : List Obs) : Prop :=
  ∀ pre q post, log = pre ++ Obs.request q :: post → q.session_id = lastToken pre

/-- Invariant of a conversation without raising responses: the stored token
is the one the log determines, and every request so far carried it. -/
def Synced (y : Sys) : Prop :=
  RequestsEchoToken y.log ∧ y.st.sessionId = lastToken y.log

/-- Invariant of a conversation without initialization sends: as `Synced`,
with at most one request awaited and the typing flag set while it is; or a
response handler has raised, the typing flag stays set and nothing is awaited. -/
def SyncedOrStuck (y : Sys) : Prop :=
  RequestsEchoToken y.log ∧
    ((y.st.sessionId = lastToken y.log ∧ y.inFlight.length ≤ 1 ∧
        (y.inFlight ≠ [] → y.st.isTyping = true)) ∨
      (y.st.isTyping = true ∧ y.inFlight = []))

/-! ## What the specification says, and examples -/

/-- The messages a handler appended: what follows the messages there were. -/
def appended (before after : State) : List Message :=
  after.messages.drop before.messages.length

/-- The first bot message as the specification words it: the summary as
structured content when it is a string, non-empty after trimming, not the
text `null`, and the intent is not `error`; otherwise a plain message with the
response text, or `fallback` when there is none. -/
def specFirstMessage (fallback : String) (data : JVal) : Message :=
  let plain : Message := ⟨.bot, (data.get "response").or (.str fallback), false, .null⟩
  match (responseDetails data).get "html_summary" with
  | .str summary =>
    if jsTrim summary ≠ "" ∧ summary ≠ "null" ∧ ((responseDetails data).get "intent").isStr "error" = false
    then ⟨.bot, .str "", true, .str summary⟩
    else plain
  | _ => plain

/-- The first-message rule with the fixed "something went wrong" fallback. -/
def FirstMessageAsSpecified (env : Env) (s : State) (isInitialization : Bool) (data : JVal) : Prop :=
  (appended s (handleResponse env s isInitialization data).st).head? =
    some (specFirstMessage (env.t "chatbot.somethingWentWrong") data)

/-- A snapshot that is the field-wise merge of a previous snapshot with the
details of a response: fields of the response win, all others are kept. -/
def MergedSnapshot (previous details merged : JVal) : Prop :=
  ∀ k : String,
    ((details.get k).isNullish = false → merged.get k = details.get k) ∧
    ((details.get k).isNullish = true → merged.get k = previous.get k)

/-- A field of `d.customer`, absent when `d` or `d.customer` is. -/
def customerField (d : JVal) (k : String) : JVal := (d.get "customer").get k

/-- The address predicate as the specification words it: the address is
absent, `null` or the empty string, or a coordinate is `null` or undefined. -/
def specAddressMissing (d : JVal) : Bool :=
  let emptyAddress : Bool :=
    match customerField d "address" with
    | .undefined => true
    | .null => true
    | .str a => a = ""
    | _ => false
  emptyAddress || (customerField d "latitude").isNullish || (customerField d "longitude").isNullish

/-- An address value that counts as no address: a falsy value, or a string
that is empty after trimming. -/
def blankAddress : JVal → Bool
  | .str a => jsTrim a = ""
  | v => !v.truthy

/-- The address predicate as a function of the three customer fields alone
(`none`: the address is a truthy value that is not a string). -/
def missingFromFields (address latitude longitude : JVal) : Option Bool :=
  match address with
  | .str a => some (decide (jsTrim a = "") || latitude.isNullish || longitude.isNullish)
  | v => if v.truthy then none else some true

/-- An environment for the examples: no translation table entry is found,
so `t` gives back its key; local time is four hours behind UTC; the clock
reads noon UTC on 5 November 2026. -/
def exampleEnv : Env where
  t := fun key => key
  timezone := "America/Caracas"
  urlChatbotId := none
  hasOnAppointmentCreated := true
  now := 20762 * 86400000 + 12 * 3600000
  tzOffsetMin := -240
  dateParse := isoDateParse
  tzBounded := by decide
  dateParseClipped := by
    intro s t h
    unfold isoDateParse at h
    split at h
    · rename_i y1 y2 y3 y4 m1 m2 d1 d2 _
      split at h
      · rename_i hd
        simp only [List.all_cons, List.all_nil, Bool.and_true, Bool.and_eq_true, isDigit,
          decide_eq_true_eq] at hd
        simp only [digitsToNat, List.foldl_cons, List.foldl_nil] at h
        split_ifs at h
        all_goals simp only [Option.some.injEq] at h
        all_goals subst h
        all_goals simp only [daysFromCivil, msPerDay]
        all_goals split_ifs <;> omega
      · cases h
    · cases h

/-- A conversation of two sends around one response that carries a token. -/
def exampleEvents : List Event :=
  [.send (some "I need installation on Tuesday") false false,
   .deliver 0 (.obj [("response", .str "Sure"), ("session_id", .str "s-1")]),
   .send (some "Tomorrow morning") false false]

/-- A state in which a reply is awaited. -/
def exampleAwaiting : State :=
  (sendMessage exampleEnv (initialState exampleEnv none) (some "hello") false false).1

/-- A response that confirms a booking. -/
def exampleConfirmed : JVal :=
  .obj [("response", .str "Booked"),
        ("appointmentDetails",
          .obj [("intent", .str "booking_confirmed"), ("appointment_id", .str "A-17")])]

/-- The state after a send and the response that confirms the booking. -/
def exampleConfirmedState : State :=
  (run exampleEnv (initSys exampleEnv none)
    [.send (some "confirm") false false, .deliver 0 exampleConfirmed]).st

/-- A response whose `html_summary` is a number. -/
def exampleNumericSummary : JVal :=
  .obj [("response", .str "Here it is"), ("session_id", .str "s-2"),
        ("appointmentDetails", .obj [("html_summary", .num 5)])]

/-- A stored snapshot with a customer. -/
def examplePrevious : JVal :=
  .obj [("intent", .str "collecting"),
        ("customer", .obj [("name", .str "Ana"), ("address", .str "Plaza Venezuela")])]

/-- Response details that carry only an intent. -/
def exampleIntentOnly : JVal := .obj [("intent", .str "ready_for_confirmation")]

/-- A widget whose stored snapshot is `examplePrevious`. -/
def exampleWithSnapshot : State :=
  { initialState exampleEnv none with currentAppointmentDetails := examplePrevious }

/-- A response whose details are `exampleIntentOnly`. -/
def exampleIntentOnlyResponse : JVal :=
  .obj [("response", .str "Almost done"), ("appointmentDetails", exampleIntentOnly)]

/-- Details whose address is only white space, with both coordinates. -/
def exampleBlankAddress : JVal :=
  .obj [("customer",
    .obj [("address", .str "   "), ("latitude", .num 10), ("longitude", .num (-66))])]

/-- Details with an address and both coordinates equal to zero. -/
def exampleZeroCoordinates : JVal :=
  .obj [("customer",
    .obj [("address", .str "Null Island"), ("latitude", .num 0), ("longitude", .num 0)])]

/-- A filled appointment form: requirement, date and location set by other
handlers, then ten o'clock and thirty minutes chosen from the dropdowns. -/
def exampleFormState : State :=
  selectMinute exampleEnv "30" (selectHour exampleEnv "10"
    { initialState exampleEnv none with
      editableCustomerRequirement := "Installation"
      selectedDate := "2026-11-07"
      appointmentLocation := ⟨.num 10, .num (-66), .str "Plaza Venezuela, Caracas"⟩ })

/-- The text the example form sends. -/
def exampleFormMessage : String :=
  "chatbot.customerRequirement: Installation\nappointments.address: Plaza Venezuela, Caracas (chatbot.coordinates 10, -66)\nappointments.date: 06/11/2026 (DD/MM/YYYY)\nappointments.time: 10:30 AM"

/-! ## Country codes -/

/-- An entry of `countryCodes` (the flag, which no handler reads, is left out). -/
structure CountryCode where
  code : String
  country : String

/-- The list `countryCodes` of the component, in source order. -/
def countryCodes : List CountryCode :=
  [⟨"+58", "Venezuela"⟩, ⟨"+1", "USA/Canada"⟩, ⟨"+52", "Mexico"⟩, ⟨"+57", "Colombia"⟩,
   ⟨"+51", "Peru"⟩, ⟨"+56", "Chile"⟩, ⟨"+54", "Argentina"⟩, ⟨"+55", "Brazil"⟩,
   ⟨"+34", "Spain"⟩, ⟨"+44", "UK"⟩, ⟨"+33", "France"⟩, ⟨"+49", "Germany"⟩,
   ⟨"+39", "Italy"⟩, ⟨"+86", "China"⟩, ⟨"+91", "India"⟩, ⟨"+81", "Japan"⟩,
   ⟨"+82", "South Korea"⟩, ⟨"+61", "Australia"⟩, ⟨"+27", "South Africa"⟩, ⟨"+971", "UAE"⟩,
   ⟨"+31", "Netherlands"⟩, ⟨"+32", "Belgium"⟩, ⟨"+47", "Norway"⟩, ⟨"+45", "Denmark"⟩,
   ⟨"+46", "Sweden"⟩, ⟨"+41", "Switzerland"⟩, ⟨"+43", "Austria"⟩, ⟨"+48", "Poland"⟩,
   ⟨"+420", "Czech Republic"⟩, ⟨"+421", "Slovakia"⟩, ⟨"+36", "Hungary"⟩, ⟨"+40", "Romania"⟩,
   ⟨"+30", "Greece"⟩, ⟨"+90", "Turkey"⟩, ⟨"+971", "UAE"⟩, ⟨"+973", "Bahrain"⟩,
   ⟨"+974", "Qatar"⟩, ⟨"+965", "Kuwait"⟩, ⟨"+966", "Saudi Arabia"⟩, ⟨"+968", "Oman"⟩,
   ⟨"+92", "Pakistan"⟩, ⟨"+880", "Bangladesh"⟩, ⟨"+94", "Sri Lanka"⟩, ⟨"+66", "Thailand"⟩,
   ⟨"+65", "Singapore"⟩, ⟨"+60", "Malaysia"⟩, ⟨"+62", "Indonesia"⟩, ⟨"+63", "Philippines"⟩,
   ⟨"+64", "New Zealand"⟩, ⟨"+353", "Ireland"⟩, ⟨"+370", "Lithuania"⟩, ⟨"+371", "Latvia"⟩,
   ⟨"+372", "Estonia"⟩, ⟨"+373", "Moldova"⟩, ⟨"+375", "Belarus"⟩, ⟨"+380", "Ukraine"⟩,
   ⟨"+7", "Russia"⟩, ⟨"+98", "Iran"⟩, ⟨"+20", "Egypt"⟩, ⟨"+212", "Morocco"⟩,
   ⟨"+234", "Nigeria"⟩, ⟨"+254", "Kenya"⟩, ⟨"+255", "Tanzania"⟩, ⟨"+251", "Ethiopia"⟩]

/-- Insertion of an entry into a list sorted by falling code length, in front
of the entries that are not longer (the entry came earlier in the source list,
so the sort is stable). -/
def insertByLength (x : CountryCode) : List CountryCode → List CountryCode
  | [] => [x]
  | y :: ys =>
    if y.code.data.length ≤ x.code.data.length then x :: y :: ys
    else y :: insertByLength x ys

/-- The call `[...codes].sort((a, b) => b.code.length - a.code.length)`:
a stable sort by falling code length. -/
def sortByLength : List CountryCode → List CountryCode
  | [] => []
  | x :: xs => insertByLength x (sortByLength xs)

/-- The fallback pattern `/^(\+\d{1,3})/`: a plus sign and the first one to
three digits after it. -/
def fallbackCode (cs : List Char) : Option (List Char) :=
  match cs with
  | '+' :: rest =>
    if ((rest.takeWhile isDigit).take 3).isEmpty then none
    else some ('+' :: (rest.takeWhile isDigit).take 3)
  | _ => none

/-- The split a `detectCountryCode` call returns. -/
structure PhoneSplit where
  countryCode : String
  localNumber : String
deriving DecidableEq, Repr

/-- A list of codes in which no code is followed by a longer one. -/
def FallingLength (l : List CountryCode) : Prop :=
  l.Pairwise (fun a b => b.code.data.length ≤ a.code.data.length)

/-- The function `detectCountryCode`, with the code list it searches as a
parameter. -/
def detectCountryCodeIn (codes : List CountryCode) (phone : String) : PhoneSplit :=
  if phone = "" then ⟨"+58", ""⟩
  else
    match (sortByLength codes).find? (fun c => c.code.data.isPrefixOf phone.data) with
    | some matched =>
      ⟨matched.code, String.mk (trimChars (phone.data.drop matched.code.data.length))⟩
    | none =>
      match fallbackCode phone.data with
      | some code => ⟨String.mk code, String.mk (trimChars (phone.data.drop code.length))⟩
      | none => ⟨"+58", jsTrim phone⟩

/-- The function `detectCountryCode` of the component. -/
def detectCountryCode (phone : String) : PhoneSplit := detectCountryCodeIn countryCodes phone

/-! ## Dates offered by the form -/

/-- The text `YYYY-MM-DD` of the local calendar day with the given day
number (`getFullYear()`, `getMonth() + 1` and `getDate()`, the last two
padded to two digits). -/
def dayString (day : Int) : String :=
  match civilFromDays day with
  | (y, m, d) => intToString y ++ "-" ++ padStart2 (intToString m) ++ "-" ++ padStart2 (intToString d)

/-- The text `YYYY-MM-DD` of the current local calendar day. -/
def todayString (env : Env) : String := dayString (localDay env env.now)

/-- The function `getMinDate`: the local calendar day after today. -/
def getMinDate (env : Env) : String := dayString (localDay env (env.now + msPerDay))

/-! ## The language of a regular expression -/

/-- The texts a regular expression matches as a whole. -/
def Rx.Lang : Rx → List Char → Prop
  | .none, _ => False
  | .eps, cs => cs = []
  | .cls p, cs => ∃ c, cs = [c] ∧ p c = true
  | .seq a b, cs => ∃ u v, cs = u ++ v ∧ a.Lang u ∧ b.Lang v
  | .alt a b, cs => a.Lang cs ∨ b.Lang cs
  | .star a, cs => ∃ parts : List (List Char), cs = parts.flatten ∧ ∀ p ∈ parts, p ≠ [] ∧ a.Lang p

/-- The form `local@domain.tld` in words: no white space, exactly one `@`
with a non-empty part before it, and after it a part that contains a `.`
which is neither its first nor its last character. -/
def EmailShape (cs : List Char) : Prop :=
  (∀ c ∈ cs, jsIsSpace c = false) ∧
  ∃ before after, cs = before ++ '@' :: after ∧ '@' ∉ before ∧ '@' ∉ after ∧ before ≠ [] ∧
    ∃ front back, after = front ++ '.' :: back ∧ front ≠ [] ∧ back ≠ []

/-- The time of day, in minutes, that an hour of the 12-hour clock with its
minute and AM/PM marker stands for. -/
def clock24Minutes (hour minute : Nat) (pm : Bool) : Nat :=
  (hour % 12 + (if pm then 12 else 0)) * 60 + minute

/-! ## The address sub-flow and the viability check -/

/-- The arguments of one `sendMessage` call. -/
structure SendCall where
  text : String
  isInitialization : Bool
  isAddressUpdate : Bool
deriving DecidableEq, Repr

/-- What a call of `submitAddressFromMap` does before the reset that follows
its awaited `sendMessage`: the state it leaves, the alert it shows, the
`sendMessage` calls it makes, and the request handed to `fetch`. -/
structure AddressSubmit where
  st : State
  alert : Option String
  calls : List SendCall
  request : Option Request

/-- The text `submitAddressFromMap` composes. -/
def addressMessage (env : Env) (s : State) : String :=
  env.t "chatbot.myAddressIs" ++ " " ++ s.selectedLocation.address.toStr ++ ". "
    ++ env.t "chatbot.coordinates" ++ " " ++ s.selectedLocation.lat.toStr ++ ", "
    ++ s.selectedLocation.lng.toStr

/-- The handler `submitAddressFromMap`, up to and including the synchronous
prefix of the `sendMessage` call it awaits. -/
def submitAddressFromMap (env : Env) (s : State) : AddressSubmit :=
  if !s.selectedLocation.lat.truthy || !s.selectedLocation.lng.truthy then
    ⟨s, some (env.t "chatbot.selectLocationAlert"), [], none⟩
  else
    ⟨(sendMessage env { s with showMapDialog := false } (some (addressMessage env s)) false true).1,
      none, [⟨addressMessage env s, false, true⟩],
      (sendMessage env { s with showMapDialog := false } (some (addressMessage env s)) false true).2⟩

/-- The end of `submitAddressFromMap`, run when the awaited call has returned. -/
def finishAddressSubmit (s : State) : State := { s with selectedLocation := emptyLocation }

/-- The outcome of a `fetch` followed by `json()`: it failed, or a body was
parsed. -/
inductive Fetched where
  | failed
  | body (data : JVal)

/-- The text stored by a `setState` call of a text field. -/
def JVal.asText : JVal → String
  | .str s => s
  | v => v.toStr

/-- The function `checkAddressViability` on the outcome of its request: the
state with the viability notice set, and whether the address is installable. -/
def checkAddressViability (env : Env) (response : Fetched) (s : State) : State × Bool :=
  let onError : State × Bool :=
    ({ s with
        viabilityError :=
          tOr env "chatbot.viabilityCheckError"
            "Unable to verify address availability. Please try again." }, false)
  match response with
  | .failed => onError
  | .body responseData =>
    if responseData.isNullish then onError
    else
      let viabilityData := (responseData.get "data").or responseData
      if (responseData.get "success").truthy && (viabilityData.getOpt "isInstallable").truthy then
        ({ s with viabilityError := "" }, true)
      else
        ({ s with
            viabilityError :=
              (((viabilityData.getOpt "detail").or (.str (env.t "chatbot.addressNotInstallable"))).or
                (.str "This address is not available for installation service.")).asText },
          false)

/-- The helper `extractCityState` of a geocoding feature. -/
def extractCityState (feature : JVal) : JVal × JVal :=
  let properties := feature.getOpt "properties"
  let ctx := (properties.getOpt "context").or (.obj [])
  let city :=
    (((cleanValue ((ctx.get "locality").getOpt "name")).or
      (cleanValue (properties.getOpt "locality"))).or
      (cleanValue ((ctx.get "place").getOpt "name"))).or
      (cleanValue (properties.getOpt "place"))
  let state :=
    (cleanValue ((ctx.get "region").getOpt "name")).or (cleanValue (properties.getOpt "region"))
  (city, state)

/-- The writes `if (city) setEditableCity(city); if (state) setEditableState(state)`. -/
def storeCityState (feature : JVal) (s : State) : State :=
  let s1 : State :=
    if (extractCityState feature).1.truthy then
      { s with editableCity := (extractCityState feature).1.asText }
    else s
  if (extractCityState feature).2.truthy then
    { s1 with editableState := (extractCityState feature).2.asText }
  else s1

/-- What the reverse geocoding request of `reverseGeocodeAppointment` came to:
an error was raised (the request failed, or reading the body raised), no
feature was returned, or the first feature. -/
inductive GeoOutcome where
  | raised
  | noFeature
  | feature (f : JVal)

/-- The first feature of a geocoding body, as `data.features &&
data.features.length > 0` and `data.features[0]` give it for a body whose
`features` is an array (any other `features` value counts as no feature). -/
def geoOutcome : Fetched → GeoOutcome
  | .failed => .raised
  | .body data =>
    if data.isNullish then .raised
    else
      match data.get "features" with
      | .arr (f :: _) => if f.isNullish then .raised else .feature f
      | _ => .noFeature

/-- The label `reverseGeocodeAppointment` takes from a feature, or the
coordinate pair when the feature has none. -/
def featureLabel (feature : JVal) (fallback : String) : JVal :=
  ((((feature.get "properties").getOpt "full_address").or
    ((feature.get "properties").getOpt "place_name")).or (feature.get "place_name")).or
    (.str fallback)

/-- The last step of the address handlers of the form: the viability check
on the point, then the location cleared when it is not installable and
committed with its label when it is. -/
def commitIfViable (env : Env) (lat lng label : JVal) (viability : Fetched) (s : State) : State :=
  if (checkAddressViability env viability s).2 then
    { (checkAddressViability env viability s).1 with appointmentLocation := ⟨lat, lng, label⟩ }
  else
    { (checkAddressViability env viability s).1 with
      appointmentLocation := emptyLocation
      editableFullAddress := "" }

/-- The handler `reverseGeocodeAppointment` (map click and marker drag) for a
point, on the outcomes of its geocoding and viability requests. -/
def reverseGeocodeAppointment (env : Env) (lat lng : JVal) (geo : GeoOutcome)
    (viability : Fetched) (s : State) : State :=
  let pair : String := lat.toStr ++ ", " ++ lng.toStr
  match geo with
  | .raised =>
    commitIfViable env lat lng (.str pair) viability
      { s with appointmentSearchAddress := pair, editableFullAddress := pair }
  | .noFeature =>
    commitIfViable env lat lng (.str pair) viability
      { s with appointmentSearchAddress := pair, editableFullAddress := pair }
  | .feature f =>
    if f.isNullish then
      commitIfViable env lat lng (.str pair) viability
        { s with appointmentSearchAddress := pair, editableFullAddress := pair }
    else
      commitIfViable env lat lng (featureLabel f pair) viability
        (storeCityState f
          { s with
            appointmentSearchAddress := (featureLabel f pair).asText
            editableFullAddress := (featureLabel f pair).asText })

/-- The point of a search-box result: the first feature and the first two
entries of its `geometry.coordinates` (longitude first; the entries of an
array, or the characters of a non-empty text); `none` when the result has no
feature or no coordinates, or when reading them raises. -/
def searchBoxPoint (result : JVal) : Option (JVal × JVal × JVal) :=
  match result.getOpt "features" with
  | .arr (feature :: _) =>
    if feature.isNullish then none
    else
      match (feature.get "geometry").getOpt "coordinates" with
      | .arr xs => some (feature, xs.head?.getD .undefined, (xs.drop 1).head?.getD .undefined)
      | .str cs =>
        if cs = "" then none
        else
          some (feature, ((cs.data.head?).map (fun c => JVal.str (String.mk [c]))).getD .undefined,
            (((cs.data.drop 1).head?).map (fun c => JVal.str (String.mk [c]))).getD .undefined)
      | _ => none
  | _ => none

/-- The handler `handleSearchBoxRetrieve` on a result and the outcome of its
viability request. -/
def handleSearchBoxRetrieve (env : Env) (result : JVal) (viability : Fetched) (s : State) : State :=
  match searchBoxPoint result with
  | none => s
  | some (feature, lng, lat) =>
    commitIfViable env lat lng (featureLabel feature "") viability
      (storeCityState feature
        { s with
          appointmentSearchAddress := (featureLabel feature "").asText
          editableFullAddress := (featureLabel feature "").asText })

/-- The effect that keeps the full-address field in step with the label of
the appointment location: `setEditableFullAddress(appointmentLocation.address || "")`. -/
def syncFullAddress (s : State) : State :=
  { s with editableFullAddress := (s.appointmentLocation.address.or (.str "")).asText }

/-- The `disabled` predicate of the submit button of the appointment form. -/
def submitDisabled (env : Env) (s : State) : Bool :=
  let hasDate : Bool := s.selectedDate != "" && isFutureDate env s.selectedDate
  let hasTime : Bool := s.selectedTime != "" || (s.selectedHour != "" && s.selectedMinute != "")
  let hasAddress : Bool := s.appointmentLocation.lat.truthy && s.appointmentLocation.lng.truthy
  let hasRequirement : Bool := jsTrim s.editableCustomerRequirement != ""
  if !hasDate || !hasTime || !hasAddress || !hasRequirement then true
  else if strOr s.selectedTime
        (convert12To24Hour s.selectedHour s.selectedMinute s.selectedAmPm) != ""
      && !isFutureDateTime env s.selectedDate
        (strOr s.selectedTime
          (convert12To24Hour s.selectedHour s.selectedMinute s.selectedAmPm)) then true
  else if timeOutOfRange s then true
  else if jsTrim s.editableCustomerPhone != ""
      && !isValidPhoneNumber s.editableCustomerPhone s.selectedCountryCode then true
  else false

/-! ## The page location -/

/-- The parts of `window.location` the widget reads. -/
structure PageLocation where
  search : String
  hash : String
  pathname : String

/-- The lookup `new URLSearchParams(query).get(name)` of the runtime: the
decoded value of the first parameter of that name in a query text, `none`
(JavaScript `null`) when there is none. -/
abbrev ParamLookup := String → String → Option String

/-- The call `s.split(sep)` for a separator of one character, on character
lists. -/
def splitChar (sep : Char) : List Char → List (List Char)
  | [] => [[]]
  | c :: cs =>
    if c = sep then [] :: splitChar sep cs
    else
      match splitChar sep cs with
      | [] => [[c]]
      | p :: ps => (c :: p) :: ps

/-- A parameter lookup for query texts without percent escapes and plus
signs, where decoding changes nothing: an optional leading `?` is dropped, the
text is cut at every `&`, and each non-empty piece is a name, or a name and a
value around its first `=`. -/
def plainParamLookup : ParamLookup := fun query name =>
  let q := if query.data.head? = some '?' then query.data.tail else query.data
  match ((splitChar '&' q).filter (fun p => !p.isEmpty)).find?
      (fun p => p.takeWhile (fun c => c != '=') = name.data) with
  | some p => some (String.mk ((p.dropWhile (fun c => c != '=')).drop 1))
  | none => none

/-- The query part of a hash fragment, `hash.substring(hash.indexOf("?") + 1)`,
when the fragment has a `?`. -/
def hashQuery (hash : String) : Option String :=
  if hash.data.contains '?' then
    some (String.mk ((hash.data.dropWhile (fun c => c != '?')).drop 1))
  else none

/-- The value `pathname.split("/").filter(Boolean)`. -/
def pathSegments (pathname : String) : List String :=
  ((splitChar '/' pathname.data).filter (fun p => !p.isEmpty)).map String.mk

/-- The function `getChatbotIdFromUrl` in a browser (`none` is `null`). -/
def getChatbotIdFromUrl (get : ParamLookup) (loc : PageLocation) : Option String :=
  match (get loc.search "id").filter (fun v => v != "") with
  | some searchId => some searchId
  | none =>
    match (hashQuery loc.hash).bind (fun q => (get q "id").filter (fun v => v != "")) with
    | some hashId => some hashId
    | none =>
      if (pathSegments loc.pathname).length > 1 then
        match (pathSegments loc.pathname).getLast? with
        | some lastSegment =>
          if lastSegment != "" && lastSegment != "chatbot" then some lastSegment else none
        | none => none
      else none

/-- The function `getTokenFromUrl` in a browser (`none` is `null`). -/
def getTokenFromUrl (get : ParamLookup) (loc : PageLocation) : Option String :=
  match (get loc.search "token").filter (fun v => v != "") with
  | some token => some token
  | none =>
    match (hashQuery loc.hash).bind (fun q => (get q "token").filter (fun v => v != "")) with
    | some hashToken => some hashToken
    | none =>
      if (pathSegments loc.pathname).length > 1 then
        match (pathSegments loc.pathname).getLast? with
        | some lastSegment =>
          if lastSegment != "" && lastSegment != "chatbot" then some lastSegment else none
        | none => none
      else none

/-- The function `resolveInitialChatbotId`; `explicitId` is the prop the host
passed, if any. -/
def resolveInitialChatbotId (get : ParamLookup) (loc : PageLocation)
    (explicitId : Option String) : Option String :=
  match explicitId.filter (fun v => v != "") with
  | some v => some v
  | none => getChatbotIdFromUrl get loc

/-! ## The date the form displays -/

/-- The local day number of `new Date(year, monthIndex, day)`: months beyond
the year carry into the year, days beyond the month into the following
months, and a year from 0 to 99 stands for 1900 plus that year.  Dates beyond
the range of `Date` are not modelled. -/
def makeDay (year monthIndex day : Int) : Int :=
  daysFromCivil ((if 0 ≤ year ∧ year ≤ 99 then 1900 + year else year) + monthIndex / 12)
    (monthIndex % 12 + 1) 1 + day - 1

/-- The function `formatDateDDMMYYYY`: the text is cut at every `-`, the
pieces are read as numbers, and the local date built from them is rendered. -/
def formatDateDDMMYYYY (dateString : String) : String :=
  if dateString = "" then ""
  else
    match (splitChar '-' dateString.data).map (fun p => jsNumber (String.mk p)) with
    | .fin year :: .fin month :: .fin day :: _ =>
      match civilFromDays (makeDay year (month - 1) day) with
      | (y, m, d) =>
        padStart2 (intToString d) ++ "/" ++ padStart2 (intToString m) ++ "/" ++ intToString y
    | _ => "NaN/NaN/NaN"

/-! ## Opening the form with stored data -/

/-- A match of `(\d+):(\d+)\s*(AM|PM)`, letters in either case, that starts
at the head of the text: the three groups.  Each repetition takes all it can;
giving back a digit or a space never helps, because what follows would then
have to start with that digit or space. -/
def matchTimeAt (cs : List Char) : Option (List Char × List Char × List Char) :=
  if (cs.takeWhile isDigit).isEmpty then none
  else
    match cs.dropWhile isDigit with
    | ':' :: rest =>
      if (rest.takeWhile isDigit).isEmpty then none
      else
        match (rest.dropWhile isDigit).dropWhile jsIsSpace with
        | a :: m :: _ =>
          if (a = 'A' || a = 'a' || a = 'P' || a = 'p') && (m = 'M' || m = 'm') then
            some (cs.takeWhile isDigit, rest.takeWhile isDigit, [a, m])
          else none
        | _ => none
    | _ => none

/-- The call `text.match(/(\d+):(\d+)\s*(AM|PM)/i)`: the groups of the match
that starts earliest, `none` when there is no match. -/
def matchTime : List Char → Option (List Char × List Char × List Char)
  | [] => none
  | c :: cs =>
    match matchTimeAt (c :: cs) with
    | some groups => some groups
    | none => matchTime cs

/-- The time block of `openEditAppointmentDialog` (`if (service?.time)`), run
on the stored details.  A time that is not a string has no `match` method:
the handler ends there, with the time fields as they were. -/
def openEditTime (s : State) : State :=
  match (s.currentAppointmentDetails.get "service").getOpt "time" with
  | .str time =>
    match matchTime time.data with
    | some (hour, minute, ampm) =>
      prefillTime (String.mk hour) (String.mk minute) (String.mk ampm) s
    | none => s
  | _ => s

/-- The address block of `openEditAppointmentDialog` (`if (customer?.address)`),
run on the stored details. -/
def openEditAddress (s : State) : State :=
  if ((s.currentAppointmentDetails.get "customer").getOpt "address").truthy then
    { s with
      appointmentSearchAddress := ((s.currentAppointmentDetails.get "customer").get "address").asText
      appointmentLocation :=
        ⟨((s.currentAppointmentDetails.get "customer").get "latitude").or .null,
          ((s.currentAppointmentDetails.get "customer").get "longitude").or .null,
          (s.currentAppointmentDetails.get "customer").get "address"⟩ }
  else s

/-- The address block of `fetchCustomerLeadData` for a verified lead record
(`data.data`); `none` when the record has no `address` and reading
`address.fiscal_address` raises. -/
def leadAddressPrefill (lead : JVal) (s : State) : Option State :=
  if (lead.get "address").isNullish then none
  else
    let address := lead.get "address"
    let fullAddress : String :=
      if (address.get "fiscal_address").truthy then (address.get "fiscal_address").toStr else ""
    if (address.get "latitude").truthy && (address.get "longitude").truthy then
      some
        { s with
          appointmentLocation := ⟨address.get "latitude", address.get "longitude", .str fullAddress⟩
          appointmentSearchAddress := fullAddress
          editableHouseNumber := (cleanValue (address.get "house_number")).asText
          editableSector := (cleanValue (address.get "sector")).asText
          editableCity := (cleanValue (address.get "city")).asText
          editableState := (cleanValue (address.get "state")).asText
          savedAddressDetails :=
            ⟨cleanValue (address.get "house_number"), cleanValue (address.get "sector"),
              cleanValue (address.get "city"), cleanValue (address.get "state")⟩ }
    else some s

/-! ## Handlers of the confirmation dialog and the map dialog -/

/-- The handler `handleConfirmBooking`; `english` is `language === 'en'`.  The
second component is the request its `sendMessage` call hands to `fetch`. -/
def handleConfirmBooking (env : Env) (english : Bool) (s : State) : State × Option Request :=
  sendMessage env
    { s with
      showConfirmationDialog := false
      confirmationAppointmentDetails := .null
      needsConfirmation := false }
    (some (if english then "confirm" else "confirmar")) false false

/-- The handler `handleCancelBooking`. -/
def handleCancelBooking (env : Env) (s : State) : State × Option Request :=
  sendMessage env
    { s with
      showConfirmationDialog := false
      confirmationAppointmentDetails := .null
      needsConfirmation := false }
    (some "No, I don't want to proceed with this booking") false false

/-- The handler `handleCloseConfirmationDialog`. -/
def handleCloseConfirmationDialog (s : State) : State :=
  { s with
    showConfirmationDialog := false
    confirmationAppointmentDetails := .null
    needsConfirmation := false }

/-- The handler `closeMapDialog`. -/
def closeMapDialog (s : State) : State :=
  { s with showMapDialog := false, searchAddress := "", selectedLocation := emptyLocation }

/-! ## Handler runs -/

/-- One run of a handler of the widget: the handlers modelled here, and any
other handler, none of which calls `setConfirmation` (its only call sites are
the response handler and `startNewConversation`). -/
inductive Action where
  | send (initialMessage : Option String) (isInitialization isAddressUpdate : Bool)
  | respond (isInitialization : Bool) (data : JVal)
  | fail
  | startNew (minDate : String)
  | hour (value : String)
  | minute (value : String)
  | amPm (value : String)
  | openEditTime
  | openEditAddress
  | closeForm
  | submitForm
  | resetForm
  | validate
  | submitAddress
  | finishAddress
  | closeMap
  | mapPoint (lat lng : JVal) (geo : GeoOutcome) (viability : Fetched)
  | searchBox (result : JVal) (viability : Fetched)
  | syncAddress
  | leadPrefill (lead : JVal)
  | confirmBooking (english : Bool)
  | cancelBooking
  | closeConfirmation
  | other (handler : State → State) (frame : ∀ s, (handler s).confirmation = s.confirmation)

/-- Whether an action is a run of `startNewConversation`. -/
def Action.isStartNew : Action → Bool
  | .startNew _ => true
  | _ => false

/-- The state a handler run leaves. -/
def act (env : Env) (s : State) : Action → State
  | .send m i a => (sendMessage env s m i a).1
  | .respond f data => (handleResponse env s f data).st
  | .fail => handleFailure env s
  | .startNew minDate => startNewConversation env minDate s
  | .hour v => selectHour env v s
  | .minute v => selectMinute env v s
  | .amPm v => selectAmPm env v s
  | .openEditTime => openEditTime s
  | .openEditAddress => openEditAddress s
  | .closeForm => closeAppointmentDialog s
  | .submitForm => (submitAppointmentBooking env s).st
  | .resetForm => resetAppointmentForm s
  | .validate => (validateEditModeFields env s).1
  | .submitAddress => (submitAddressFromMap env s).st
  | .finishAddress => finishAddressSubmit s
  | .closeMap => closeMapDialog s
  | .mapPoint lat lng geo viability => reverseGeocodeAppointment env lat lng geo viability s
  | .searchBox result viability => handleSearchBoxRetrieve env result viability s
  | .syncAddress => syncFullAddress s
  | .leadPrefill lead => (leadAddressPrefill lead s).getD s
  | .confirmBooking english => (handleConfirmBooking env english s).1
  | .cancelBooking => (handleCancelBooking env s).1
  | .closeConfirmation => handleCloseConfirmationDialog s
  | .other handler _ => handler s

/-- The state after a sequence of handler runs. -/
def runActions (env : Env) (s : State) (acts : List Action) : State := acts.foldl (act env) s

/-! ## More examples -/

/-- A form in edit mode whose hour and minute dropdowns are empty while the
stored time is 20:00: eight o'clock in the evening was chosen, the dialog was
closed, and the form was filled again without choosing a time. -/
def exampleStaleTimeState : State :=
  { closeAppointmentDialog
      (selectAmPm exampleEnv "PM"
        (selectMinute exampleEnv "00" (selectHour exampleEnv "08" (initialState exampleEnv none)))) with
    isEditMode := true
    editableCustomerName := "Ana Perez"
    editableCustomerPhone := "4121234567"
    editableCustomerEmail := "ana@example.com"
    editableCustomerRequirement := "Installation"
    selectedDate := "2026-11-07"
    appointmentLocation := ⟨.num 10, .num (-66), .str "Plaza Venezuela, Caracas"⟩ }

/-- A map selection on the equator. -/
def exampleEquatorSelection : State :=
  { initialState exampleEnv none with
    showMapDialog := true
    selectedLocation := ⟨.num 0, .num (-66), .str "Rio Negro"⟩ }

/-- A widget whose last response asked for confirmation and whose stored
details have no address. -/
def exampleNeedsAddress : State :=
  { initialState exampleEnv none with
    needsConfirmation := true
    currentAppointmentDetails :=
      .obj [("intent", .str "confirm_appointment"), ("customer", .obj [("name", .str "Ana")])] }

/-- A geocoding feature with a label. -/
def exampleFeature : JVal :=
  .obj [("properties", .obj [("full_address", .str "Plaza Venezuela, Caracas, Venezuela")])]

/-- A viability answer that says the point is not installable. -/
def exampleNotInstallable : Fetched :=
  .body (.obj [("success", .bool true),
    ("data", .obj [("isInstallable", .bool false), ("detail", .str "Out of coverage")])])

/-- A viability answer that says the point is installable. -/
def exampleInstallable : Fetched :=
  .body (.obj [("success", .bool true), ("data", .obj [("isInstallable", .bool true)])])

/-- A search-box result with one feature at longitude -66, latitude 10. -/
def exampleSearchResult : JVal :=
  .obj [("features",
    .arr [.obj [("geometry", .obj [("coordinates", .arr [.num (-66), .num 10])]),
      ("properties", .obj [("full_address", .str "Plaza Venezuela, Caracas, Venezuela")])]])]

/-- A verified lead record with an address and coordinates. -/
def exampleLead : JVal :=
  .obj [("id", .str "lead-7"),
    ("address", .obj [("fiscal_address", .str "Av. Bolivar 12"), ("latitude", .num 10),
      ("longitude", .num (-66))])]

/-- A widget whose stored details carry a customer address with coordinates. -/
def exampleEditable : State :=
  { initialState exampleEnv none with
    currentAppointmentDetails :=
      .obj [("customer", .obj [("address", .str "Av. Bolivar 12"), ("latitude", .num 10),
        ("longitude", .num (-66))])] }

/-- A response with a text whose intent is `ready_for_confirmation`. -/
def exampleReadyResponse : JVal :=
  .obj [("response", .str "Please review the details"),
    ("appointmentDetails", .obj [("intent", .str "ready_for_confirmation")])]

/-- A page whose path has one segment and whose query and fragment are empty. -/
def exampleOneSegmentPage : PageLocation := ⟨"", "", "/abc123"⟩

/-- A page in the path style `/chatbot/<id>`. -/
def examplePathPage : PageLocation := ⟨"", "", "/chatbot/abc123"⟩

/-- The filled form of the examples with a text in the email field that is
not an email address. -/
def exampleBadEmailForm : State :=
  { exampleFormState with editableCustomerEmail := "ana.example.com" }

/-- A form whose stored time is five past one in the afternoon. -/
def exampleAfternoon : State := { initialState exampleEnv none with selectedTime := "13:05" }

/-- A widget whose stored details carry the service time `1:05 PM`. -/
def exampleStoredTime : State :=
  { initialState exampleEnv none with
    currentAppointmentDetails := .obj [("service", .obj [("time", .str "1:05 PM")])] }

/-- The filled form of the examples with a house number and a city. -/
def exampleHouseForm : State :=
  { exampleFormState with editableHouseNumber := "12", editableCity := "Caracas" }

/-- A response that confirms a booking and whose `html_summary` is a number. -/
def exampleConfirmedNumeric : JVal :=
  .obj [("response", .str "Booked"),
        ("appointmentDetails",
          .obj [("intent", .str "booking_confirmed"), ("appointment_id", .str "A-17"),
                ("html_summary", .num 5)])]

/-- A send, a response with a token and a numeric `html_summary`, then an
initialization send. -/
def exampleRaiseThenInit : List Event :=
  [.send (some "hello") false false, .deliver 0 exampleNumericSummary, .send (some "") true false]

/-- Handler runs after a confirmation: a send from the form, the dialog
closed, a response without a booking. -/
def exampleAfterConfirmation : List Action :=
  [.send (some "hola") false false, .closeForm, .respond false (.obj [("response", .str "Hi")])]

/-- The filled form of the examples when the stored lead record has no
`customer`. -/
def exampleLeadWithoutCustomer : State :=
  { exampleFormState with customerLeadData := .obj [("id", .num 7)] }

/-- A form with requirement, date and location set whose stored details carry
the service time `8:100 AM`. -/
def exampleLongMinuteStored : State :=
  { initialState exampleEnv none with
    editableCustomerRequirement := "Installation"
    selectedDate := "2026-11-07"
    appointmentLocation := ⟨.num 10, .num (-66), .str "Plaza Venezuela, Caracas"⟩
    currentAppointmentDetails := .obj [("service", .obj [("time", .str "8:100 AM")])] }

/-- The form after the time pre-fill has read the service time `8:100 AM`. -/
def exampleLongMinuteForm : State := openEditTime exampleLongMinuteStored

/-- The text the form pre-filled from `8:100 AM` sends. -/
def exampleLongMinuteMessage : String :=
  "chatbot.customerRequirement: Installation\nappointments.address: Plaza Venezuela, Caracas (chatbot.coordinates 10, -66)\nappointments.date: 06/11/2026 (DD/MM/YYYY)\nappointments.time: 8:100 AM"

/-- A widget whose stored details carry a service time with an hour of
twenty-two digits. -/
def exampleHugeHourStored : State :=
  { initialState exampleEnv none with
    currentAppointmentDetails :=
      .obj [("service", .obj [("time", .str "1000000000000000000000:30 PM")])] }

/-- The form after the time pre-fill has read that service time. -/
def exampleHugeHourForm : State := openEditTime exampleHugeHourStored

/-! ## Lemmas -/

theorem lastToken_snoc (log : List Obs) (o : Obs) :
    lastToken (log ++ [o]) = nextToken (lastToken log) o := by
  simp [lastToken, List.foldl_append]

theorem sendState_sessionId (env : Env) (s : State) (text : String) (i : Bool) :
    (sendState env s text i).sessionId = s.sessionId := by
  unfold sendState
  cases i <;> simp <;> split <;> rfl

theorem sendState_isTyping (env : Env) (s : State) (text : String) (i : Bool) :
    (sendState env s text i).isTyping = true := by
  unfold sendState
  cases i <;> simp <;> split <;> rfl

theorem sendMessage_request (env : Env) (s : State) (m : Option String) (i a : Bool) (q : Request)
    (h : (sendMessage env s m i a).2 = some q) : q.session_id = s.sessionId := by
  unfold sendMessage at h
  split at h
  · simp at h
  · simp at h
    rw [← h]



theorem store_frame (s : State) (ad : JVal) (r : Bool) :
    (storeAppointmentDetails s ad r).1.sessionId = s.sessionId ∧
    (storeAppointmentDetails s ad r).1.isTyping = s.isTyping ∧
    (storeAppointmentDetails s ad r).1.messages = s.messages ∧
    (storeAppointmentDetails s ad r).1.confirmation = s.confirmation := by
  unfold storeAppointmentDetails
  simp only []
  split
  · split
    · split <;> simp
    · split
      · split <;> simp
      · split <;> split <;> simp
  · simp

theorem store_raises (s : State) (ad : JVal) (r : Bool) :
    (storeAppointmentDetails s ad r).2 = storeRaises ad r := by
  unfold storeAppointmentDetails storeRaises
  simp only []
  split
  · rename_i h1
    split
    · rename_i h2
      simp [h2]
    · rename_i h2
      simp only [h1, h2]
      cases h3 : isAddressMissing ad with
      | none => simp
      | some m => simp; split <;> rfl
  · rename_i h1
    simp at h1
    cases h : ad.truthy <;> simp_all



theorem finishResponse_facts (env : Env) (s : State) (f : Bool) (data ad : JVal) (shown : Bool) :
    (finishResponse env s f data ad shown).threw = false ∧
    (finishResponse env s f data ad shown).st.isTyping = false ∧
    (finishResponse env s f data ad shown).st.sessionId = nextToken s.sessionId (.responded data) := by
  unfold finishResponse nextToken
  simp only []
  split <;> split <;> simp_all

theorem handleResponse_threw (env : Env) (s : State) (f : Bool) (data : JVal) :
    (handleResponse env s f data).threw = responseRaises data := by
  unfold handleResponse responseRaises
  by_cases hn : data.isNullish = true
  · simp [hn]
  · simp only [hn, store_raises]
    generalize storeRaises _ _ = b
    generalize htmlSummaryShown _ _ = o
    cases b <;> cases o <;> simp [(finishResponse_facts _ _ _ _ _ _).1]

theorem handleResponse_complete (env : Env) (s : State) (f : Bool) (data : JVal)
    (h : responseRaises data = false) :
    (handleResponse env s f data).st.sessionId = nextToken s.sessionId (.responded data) ∧
    (handleResponse env s f data).st.isTyping = false := by
  unfold responseRaises at h
  unfold handleResponse
  by_cases hn : data.isNullish = true
  · simp [hn] at h
  · simp only [hn, store_raises] at h ⊢
    simp only [Bool.false_eq_true, if_false, Bool.or_eq_false_iff] at h ⊢
    rw [h.1]
    cases ho : htmlSummaryShown ((responseDetails data).get "html_summary")
        ((responseDetails data).get "intent") with
    | none => rw [ho] at h; simp at h
    | some sh =>
      simp only [Bool.false_eq_true, if_false]
      refine ⟨?_, (finishResponse_facts _ _ _ _ _ _).2.1⟩
      rw [(finishResponse_facts _ _ _ _ _ _).2.2, (store_frame _ _ _).1]

theorem handleResponse_raise (env : Env) (s : State) (f : Bool) (data : JVal)
    (h : responseRaises data = true) :
    (handleResponse env s f data).st.isTyping = s.isTyping ∧
    (handleResponse env s f data).st.sessionId = s.sessionId := by
  unfold responseRaises at h
  unfold handleResponse
  by_cases hn : data.isNullish = true
  · simp [hn]
  · simp only [hn, store_raises] at h ⊢
    simp only [Bool.false_eq_true, if_false] at h ⊢
    cases hb : storeRaises (responseDetails data)
        (((responseDetails data).get "intent").isStr "confirm_appointment") with
    | true => simp only [if_true]; exact ⟨(store_frame _ _ _).2.1, (store_frame _ _ _).1⟩
    | false =>
      rw [hb] at h
      cases ho : htmlSummaryShown ((responseDetails data).get "html_summary")
          ((responseDetails data).get "intent") with
      | none =>
        simp only [Bool.false_eq_true, if_false]
        exact ⟨(store_frame _ _ _).2.1, (store_frame _ _ _).1⟩
      | some sh => rw [ho] at h; simp at h

theorem requestsEchoToken_snoc (log : List Obs) (o : Obs) (h : RequestsEchoToken log)
    (ho : ∀ q, o = .request q → q.session_id = lastToken log) :
    RequestsEchoToken (log ++ [o]) := by
  intro pre q post heq
  rcases List.eq_nil_or_concat post with hp | ⟨post', z, hp⟩
  · subst hp
    have := List.append_inj' heq rfl
    obtain ⟨h1, h2⟩ := this
    subst h1
    simp at h2
    exact ho q h2
  · subst hp
    have heq' : log ++ [o] = (pre ++ Obs.request q :: post') ++ [z] := by
      simpa using heq
    have := List.append_inj' heq' rfl
    exact h pre q post' this.1

theorem sendMessage_early (env : Env) (s : State) (m : Option String) (i a : Bool)
    (h : sendReturnsEarly s m i = true) : sendMessage env s m i a = (s, none) := by
  simp [sendMessage, h]

theorem sendMessage_sent (env : Env) (s : State) (m : Option String) (i a : Bool)
    (h : sendReturnsEarly s m i = false) :
    sendMessage env s m i a =
      (sendState env s (messageToSend s m) i,
        some ⟨messageToSend s m, s.sessionId, env.timezone, activeChatbotId env s,
          activeChatbotId env s⟩) := by
  simp [sendMessage, h]

theorem step_synced (env : Env) (y : Sys) (e : Event) (hy : Synced y)
    (he : e.deliversRaising = false) : Synced (step env y e) := by
  obtain ⟨h1, h2⟩ := hy
  cases e with
  | send m i a =>
    cases hc : sendReturnsEarly y.st m i with
    | true =>
      simp only [step, sendMessage_early env y.st m i a hc]
      exact ⟨h1, h2⟩
    | false =>
      simp only [step, sendMessage_sent env y.st m i a hc]
      refine ⟨requestsEchoToken_snoc _ _ h1 ?_, ?_⟩
      · intro q hq
        cases hq
        exact h2
      · simp only [lastToken_snoc, sendState_sessionId, nextToken]; exact h2
  | deliver i data =>
    simp only [Event.deliversRaising] at he
    cases hg : y.inFlight.get? i with
    | none => simp only [step, hg]; exact ⟨h1, h2⟩
    | some f =>
      simp only [step, hg]
      refine ⟨requestsEchoToken_snoc _ _ h1 (by intro q hq; cases hq), ?_⟩
      simp only [lastToken_snoc, (handleResponse_complete env y.st f data he).1, h2]
  | fail i =>
    cases hg : y.inFlight.get? i with
    | none => simp only [step, hg]; exact ⟨h1, h2⟩
    | some f => simp only [step, hg]; exact ⟨h1, h2⟩

theorem eraseIdx_singleton (l : List Bool) (i : Nat) (f : Bool) (hl : l.length ≤ 1)
    (hg : l.get? i = some f) : l.eraseIdx i = [] := by
  have hi : i < l.length := by
    rcases List.get?_eq_some.mp hg with ⟨hi, _⟩
    exact hi
  have : (l.eraseIdx i).length = l.length - 1 := by
    rw [List.length_eraseIdx, if_pos hi]
  apply List.eq_nil_of_length_eq_zero
  omega

theorem step_syncedOrStuck (env : Env) (y : Sys) (e : Event) (hy : SyncedOrStuck y)
    (he : e.isInitSend = false) : SyncedOrStuck (step env y e) := by
  obtain ⟨h1, h2⟩ := hy
  cases e with
  | send m i a =>
    simp only [Event.isInitSend] at he
    subst he
    cases hc : sendReturnsEarly y.st m false with
    | true =>
      simp only [step, sendMessage_early env y.st m false a hc]
      exact ⟨h1, h2⟩
    | false =>
      simp only [step, sendMessage_sent env y.st m false a hc]
      have hty : y.st.isTyping = false := by
        simp [sendReturnsEarly] at hc
        exact hc.2
      rcases h2 with ⟨h3, h4, h5⟩ | ⟨h3, h4⟩
      · have hnil : y.inFlight = [] := by
          by_contra hne
          rw [h5 hne] at hty
          cases hty
        refine ⟨requestsEchoToken_snoc _ _ h1 ?_, Or.inl ⟨?_, ?_, ?_⟩⟩
        · intro q hq
          cases hq
          exact h3
        · simp only [lastToken_snoc, sendState_sessionId, nextToken]; exact h3
        · simp [hnil]
        · intro _; exact sendState_isTyping _ _ _ _
      · rw [h3] at hty; cases hty
  | deliver i data =>
    cases hg : y.inFlight.get? i with
    | none => simp only [step, hg]; exact ⟨h1, h2⟩
    | some f =>
      simp only [step, hg]
      refine ⟨requestsEchoToken_snoc _ _ h1 (by intro q hq; cases hq), ?_⟩
      rcases h2 with ⟨h3, h4, h5⟩ | ⟨h3, h4⟩
      · have hne : y.inFlight ≠ [] := by
          intro hnil; rw [hnil] at hg; simp at hg
        have hlen := eraseIdx_singleton _ _ _ h4 hg
        cases hr : responseRaises data with
        | true =>
          right
          exact ⟨by rw [(handleResponse_raise env y.st f data hr).1]; exact h5 hne, hlen⟩
        | false =>
          left
          refine ⟨?_, ?_, ?_⟩
          · simp only [lastToken_snoc, (handleResponse_complete env y.st f data hr).1, h3]
          · simp [hlen]
          · intro hx; exact absurd hlen hx
      · rw [h4] at hg; simp at hg
  | fail i =>
    cases hg : y.inFlight.get? i with
    | none => simp only [step, hg]; exact ⟨h1, h2⟩
    | some f =>
      simp only [step, hg]
      refine ⟨h1, ?_⟩
      rcases h2 with ⟨h3, h4, h5⟩ | ⟨h3, h4⟩
      · have hlen := eraseIdx_singleton _ _ _ h4 hg
        left
        exact ⟨h3, by simp [hlen], fun hx => absurd hlen hx⟩
      · rw [h4] at hg; simp at hg

theorem run_synced (env : Env) (evs : List Event) (y : Sys) (hy : Synced y)
    (he : ∀ e ∈ evs, e.deliversRaising = false) : Synced (run env y evs) := by
  induction evs generalizing y with
  | nil => exact hy
  | cons e rest ih =>
    simp only [run, List.foldl_cons]
    exact ih _ (step_synced env y e hy (he e (List.mem_cons_self _ _)))
      (fun e' h' => he e' (List.mem_cons_of_mem _ h'))

theorem run_syncedOrStuck (env : Env) (evs : List Event) (y : Sys) (hy : SyncedOrStuck y)
    (he : ∀ e ∈ evs, e.isInitSend = false) : SyncedOrStuck (run env y evs) := by
  induction evs generalizing y with
  | nil => exact hy
  | cons e rest ih =>
    simp only [run, List.foldl_cons]
    exact ih _ (step_syncedOrStuck env y e hy (he e (List.mem_cons_self _ _)))
      (fun e' h' => he e' (List.mem_cons_of_mem _ h'))

theorem requestsEchoToken_nil : RequestsEchoToken [] := by
  intro pre q post h
  simp at h

theorem handleResponse_keeps_token (env : Env) (s : State) (f : Bool) (data : JVal)
    (h : (data.get "session_id").truthy = false) :
    (handleResponse env s f data).st.sessionId = s.sessionId := by
  cases hr : responseRaises data with
  | true => exact (handleResponse_raise env s f data hr).2
  | false =>
    rw [(handleResponse_complete env s f data hr).1]
    simp [nextToken, h]

theorem digitChar_val (d : Nat) (h : d < 10) : (Char.ofNat (48 + d)).toNat = 48 + d := by
  interval_cases d <;> rfl

theorem digitChar_isDigit (d : Nat) (h : d < 10) : isDigit (Char.ofNat (48 + d)) = true := by
  interval_cases d <;> rfl

theorem digitChar_notSpace (d : Nat) (h : d < 10) : jsIsSpace (Char.ofNat (48 + d)) = false := by
  interval_cases d <;> rfl

theorem digitsToNat_foldl (l : List Char) (a : Nat) :
    l.foldl (fun n c => 10 * n + (c.toNat - 48)) a = a * 10 ^ l.length + digitsToNat l := by
  induction l generalizing a with
  | nil => simp [digitsToNat]
  | cons c l ih =>
    simp only [List.foldl_cons, List.length_cons, digitsToNat]
    rw [ih, ih (10 * 0 + (c.toNat - 48))]
    ring

theorem digitsToNat_cons (c : Char) (l : List Char) :
    digitsToNat (c :: l) = (c.toNat - 48) * 10 ^ l.length + digitsToNat l := by
  simp only [digitsToNat, List.foldl_cons]
  rw [digitsToNat_foldl]
  simp [digitsToNat]

theorem natDigitsAux_spec (fuel : Nat) : ∀ (n : Nat) (acc : List Char), n < fuel →
    digitsToNat (natDigitsAux fuel n acc) = n * 10 ^ acc.length + digitsToNat acc ∧
    (acc.all isDigit = true → (natDigitsAux fuel n acc).all isDigit = true) ∧
    natDigitsAux fuel n acc ≠ [] ∧
    (∀ c, (natDigitsAux fuel n acc).head? = some c → isDigit c = true ∨ acc.head? = some c) := by
  induction fuel with
  | zero => intro n acc h; omega
  | succ fuel ih =>
    intro n acc h
    have hd : n % 10 < 10 := Nat.mod_lt _ (by decide)
    simp only [natDigitsAux]
    by_cases h0 : n / 10 = 0
    · simp only [h0, if_true]
      refine ⟨?_, ?_, by simp, ?_⟩
      · rw [digitsToNat_cons, digitChar_val _ hd]
        have : n % 10 = n := by omega
        simp [this]
      · intro hacc
        simp [List.all_cons, digitChar_isDigit _ hd, hacc]
      · intro c hc
        simp at hc
        left; rw [← hc]; exact digitChar_isDigit _ hd
    · simp only [h0, if_false]
      have hlt : n / 10 < fuel := by omega
      obtain ⟨e1, e2, e3, e4⟩ := ih (n / 10) (Char.ofNat (48 + n % 10) :: acc) hlt
      refine ⟨?_, ?_, e3, ?_⟩
      · rw [e1, digitsToNat_cons, digitChar_val _ hd]
        simp only [List.length_cons, Nat.add_sub_cancel_left]
        have : n = n / 10 * 10 + n % 10 := by omega
        conv_rhs => rw [this]
        ring
      · intro hacc
        apply e2
        simp [List.all_cons, digitChar_isDigit _ hd, hacc]
      · intro c hc
        rcases e4 c hc with h1 | h1
        · left; exact h1
        · simp at h1
          left; rw [← h1]; exact digitChar_isDigit _ hd

theorem natDigits_spec (n : Nat) :
    digitsToNat (natDigits n) = n ∧ (natDigits n).all isDigit = true ∧ natDigits n ≠ [] := by
  obtain ⟨e1, e2, e3, _⟩ := natDigitsAux_spec (n + 1) n [] (by omega)
  exact ⟨by simpa [natDigits, digitsToNat] using e1, e2 (by simp), e3⟩

theorem isDigit_notSpace (c : Char) (h : isDigit c = true) : jsIsSpace c = false := by
  simp only [isDigit, Bool.and_eq_true, decide_eq_true_eq] at h
  simp only [jsIsSpace, Bool.or_eq_false_iff, Bool.and_eq_false_imp, decide_eq_false_iff_not,
    decide_eq_true_eq]
  omega

theorem isDigit_notSign (c : Char) (h : isDigit c = true) : c ≠ '-' ∧ c ≠ '+' := by
  constructor <;> (intro hc; subst hc; revert h; decide)

theorem digitsToNat_zeros (k : Nat) (l : List Char) :
    digitsToNat (List.replicate k '0' ++ l) = digitsToNat l := by
  induction k with
  | zero => simp
  | succ k ih =>
    simp only [List.replicate_succ, List.cons_append]
    rw [digitsToNat_cons, ih]
    simp

theorem trimChars_noSpace (l : List Char) (h : ∀ c ∈ l, jsIsSpace c = false) : trimChars l = l := by
  have h1 : ∀ l : List Char, (∀ c ∈ l, jsIsSpace c = false) → l.dropWhile jsIsSpace = l := by
    intro l hl
    cases l with
    | nil => rfl
    | cons a t => simp [List.dropWhile_cons, hl a (List.mem_cons_self _ _)]
  unfold trimChars
  rw [h1 l h, h1 l.reverse (fun c hc => h c (List.mem_reverse.mp hc)), List.reverse_reverse]

theorem takeWhile_all (p : Char → Bool) (l : List Char) : (l.takeWhile p).all p = true := by
  rw [List.all_eq_true]
  intro x hx
  exact List.mem_takeWhile_imp hx

theorem shiftCount_spec (fuel : Nat) : ∀ n : Nat, n < 2 ^ 53 * 2 ^ fuel →
    n / 2 ^ shiftCount fuel n < 2 ^ 53 ∧
    (2 ^ 53 ≤ n → 0 < shiftCount fuel n ∧ 2 ^ 52 ≤ n / 2 ^ shiftCount fuel n) := by
  induction fuel with
  | zero =>
    intro n h
    simp only [shiftCount, pow_zero, Nat.div_one]
    constructor
    · omega
    · intro h2; omega
  | succ fuel ih =>
    intro n h
    simp only [shiftCount]
    by_cases hn : n < 2 ^ 53
    · rw [if_pos hn]
      simp only [pow_zero, Nat.div_one]
      exact ⟨hn, fun h2 => by omega⟩
    · rw [if_neg hn]
      have h2 : n / 2 < 2 ^ 53 * 2 ^ fuel := by
        rw [pow_succ] at h
        omega
      obtain ⟨i1, i2⟩ := ih (n / 2) h2
      have hd : n / 2 ^ (shiftCount fuel (n / 2) + 1) = n / 2 / 2 ^ shiftCount fuel (n / 2) := by
        rw [pow_succ, Nat.mul_comm, Nat.div_div_eq_div_mul]
      rw [hd]
      refine ⟨i1, fun _ => ⟨Nat.succ_pos _, ?_⟩⟩
      by_cases h3 : 2 ^ 53 ≤ n / 2
      · exact (i2 h3).2
      · have h4 : n / 2 < 2 ^ 53 := by omega
        have h5 : shiftCount fuel (n / 2) = 0 := by
          cases fuel with
          | zero => rfl
          | succ f => rw [shiftCount, if_pos h4]
        rw [h5]
        simp only [pow_zero, Nat.div_one]
        omega

theorem lt_two_pow_self' (n : Nat) : n < 2 ^ 53 * 2 ^ n := by
  have h1 : n < 2 ^ n := Nat.lt_two_pow n
  have h2 : 2 ^ n ≤ 2 ^ 53 * 2 ^ n := Nat.le_mul_of_pos_left _ (by positivity)
  omega

/-- The exponent and the significand `roundNat` works with. -/
theorem shift_bounds (n : Nat) (h : 2 ^ 53 ≤ n) :
    0 < shiftCount n n ∧ 2 ^ 52 * 2 ^ shiftCount n n ≤ n ∧ n < 2 ^ 53 * 2 ^ shiftCount n n ∧
    2 ^ 52 ≤ n / 2 ^ shiftCount n n ∧ n / 2 ^ shiftCount n n < 2 ^ 53 := by
  obtain ⟨h1, h2⟩ := shiftCount_spec n n (lt_two_pow_self' n)
  obtain ⟨h3, h4⟩ := h2 h
  have hp : 0 < 2 ^ shiftCount n n := by positivity
  refine ⟨h3, ?_, ?_, h4, h1⟩
  · calc 2 ^ 52 * 2 ^ shiftCount n n ≤ n / 2 ^ shiftCount n n * 2 ^ shiftCount n n :=
        Nat.mul_le_mul_right _ h4
      _ ≤ n := Nat.div_mul_le_self _ _
  · exact (Nat.div_lt_iff_lt_mul hp).mp h1

theorem shift_unique (n e : Nat) (h1 : 2 ^ 52 * 2 ^ e ≤ n) (h2 : n < 2 ^ 53 * 2 ^ e)
    (he : 0 < e) : shiftCount n n = e := by
  have hn : 2 ^ 53 ≤ n := by
    have : 2 ^ 1 ≤ 2 ^ e := Nat.pow_le_pow_right (by decide) he
    calc 2 ^ 53 = 2 ^ 52 * 2 ^ 1 := by norm_num
      _ ≤ 2 ^ 52 * 2 ^ e := Nat.mul_le_mul_left _ this
      _ ≤ n := h1
  obtain ⟨_, b1, b2, _, _⟩ := shift_bounds n hn
  by_contra hne
  rcases Nat.lt_or_gt_of_ne hne with hlt | hgt
  · have : 2 ^ (shiftCount n n + 1) ≤ 2 ^ e := Nat.pow_le_pow_right (by decide) hlt
    have h3 : 2 ^ 53 * 2 ^ shiftCount n n ≤ 2 ^ 52 * 2 ^ e := by
      calc 2 ^ 53 * 2 ^ shiftCount n n = 2 ^ 52 * 2 ^ (shiftCount n n + 1) := by
            rw [pow_succ]; ring
        _ ≤ 2 ^ 52 * 2 ^ e := Nat.mul_le_mul_left _ this
    omega
  · have : 2 ^ (e + 1) ≤ 2 ^ shiftCount n n := Nat.pow_le_pow_right (by decide) hgt
    have h3 : 2 ^ 53 * 2 ^ e ≤ 2 ^ 52 * 2 ^ shiftCount n n := by
      calc 2 ^ 53 * 2 ^ e = 2 ^ 52 * 2 ^ (e + 1) := by rw [pow_succ]; ring
        _ ≤ 2 ^ 52 * 2 ^ shiftCount n n := Nat.mul_le_mul_left _ this
    omega

theorem roundNat_small (n : Nat) (h : n < 2 ^ 53) : roundNat n = some n := by
  unfold roundNat
  rw [if_pos h]

/-- What `roundNat` gives for a number of at least `2 ^ 53`: a significand
between `2 ^ 52` and `2 ^ 53` times a power of two, at most half a step away. -/
theorem significand_bounds (n : Nat) (h : 2 ^ 53 ≤ n) :
    2 ^ 52 ≤ significand n ∧ significand n ≤ 2 ^ 53 ∧
    n / 2 ^ shiftCount n n ≤ significand n ∧ significand n ≤ n / 2 ^ shiftCount n n + 1 := by
  obtain ⟨b0, b1, b2, b3, b4⟩ := shift_bounds n h
  unfold significand
  split <;> omega

theorem roundNat_big (n y : Nat) (h : 2 ^ 53 ≤ n) (hy : roundNat n = some y) :
    ∃ e q, 0 < e ∧ y = q * 2 ^ e ∧ 2 ^ 52 ≤ q ∧ q ≤ 2 ^ 53 ∧ n / 2 ^ e ≤ q ∧
      (e < 971 ∨ (e = 971 ∧ q < 2 ^ 53)) := by
  have hn : ¬ n < 2 ^ 53 := by omega
  obtain ⟨b0, b1, b2, b3, b4⟩ := shift_bounds n h
  obtain ⟨s1, s2, s3, s4⟩ := significand_bounds n h
  unfold roundNat at hy
  rw [if_neg hn] at hy
  split at hy
  · rename_i hc
    simp only [Option.some.injEq] at hy
    simp only [Bool.or_eq_true, decide_eq_true_eq, Bool.and_eq_true] at hc
    exact ⟨shiftCount n n, significand n, b0, hy.symm, s1, s2, s3, hc⟩
  · cases hy

theorem roundNat_lower (k n y : Nat) (h : 2 ^ k ≤ n) (hy : roundNat n = some y) : 2 ^ k ≤ y := by
  by_cases hn : n < 2 ^ 53
  · rw [roundNat_small n hn] at hy
    cases hy
    exact h
  · obtain ⟨e, q, he, rfl, hq1, hq2, hq3, _⟩ := roundNat_big n y (by omega) hy
    have hpe : 0 < 2 ^ e := by positivity
    by_contra hc
    have hc : q * 2 ^ e < 2 ^ k := by omega
    have h6 : n < (q + 1) * 2 ^ e := by
      have h7 : n / 2 ^ e < q + 1 := by omega
      exact (Nat.div_lt_iff_lt_mul hpe).mp h7
    by_cases hke : e ≤ k
    · obtain ⟨d, rfl⟩ := Nat.exists_eq_add_of_le hke
      rw [pow_add] at hc h
      have h8 : q < 2 ^ d := by
        rw [Nat.mul_comm (2 ^ e)] at hc
        exact Nat.lt_of_mul_lt_mul_right hc
      have h9 : 2 ^ e * 2 ^ d < (q + 1) * 2 ^ e := lt_of_le_of_lt h h6
      have h10 : 2 ^ d < q + 1 := by
        rw [Nat.mul_comm (2 ^ e)] at h9
        exact Nat.lt_of_mul_lt_mul_right h9
      omega
    · have h8 : 2 ^ k ≤ 2 ^ e := Nat.pow_le_pow_right (by decide) (by omega)
      have h9 : 1 * 2 ^ e ≤ q * 2 ^ e := Nat.mul_le_mul_right _ (by omega)
      omega

theorem roundNat_exact (q e : Nat) (he : 0 < e) (hq1 : 2 ^ 52 ≤ q) (hq : q < 2 ^ 53)
    (hov : e ≤ 971) : roundNat (q * 2 ^ e) = some (q * 2 ^ e) := by
  have hpe : 0 < 2 ^ e := by positivity
  have hs : shiftCount (q * 2 ^ e) (q * 2 ^ e) = e :=
    shift_unique _ e (Nat.mul_le_mul_right _ hq1) (Nat.mul_lt_mul_of_pos_right hq hpe) he
  have hbig : ¬ q * 2 ^ e < 2 ^ 53 := by
    have h1 : 2 ^ 1 ≤ 2 ^ e := Nat.pow_le_pow_right (by decide) he
    have h2 : 2 ^ 52 * 2 ^ 1 ≤ q * 2 ^ e := Nat.mul_le_mul hq1 h1
    have h3 : (2 : Nat) ^ 52 * 2 ^ 1 = 2 ^ 53 := by norm_num
    omega
  have hsig : significand (q * 2 ^ e) = q := by
    unfold significand
    rw [hs, Nat.mul_div_cancel _ hpe, Nat.mul_mod_left]
    have h0 : ¬ (2 ^ e < 2 * 0) := by omega
    have h1 : ¬ (2 * 0 = 2 ^ e) := by omega
    simp only [h0, h1, decide_False, Bool.false_and, Bool.or_self, Bool.false_eq_true, if_false]
  unfold roundNat
  rw [if_neg hbig, hsig, hs]
  have : (decide (e < 971) || (decide (e = 971) && decide (q < 2 ^ 53))) = true := by
    by_cases h : e < 971
    · rw [decide_eq_true h]; rfl
    · have h' : e = 971 := by omega
      rw [decide_eq_true h', decide_eq_true hq, decide_eq_false h]; rfl
  rw [if_pos this]

theorem roundNat_idem (n y : Nat) (hy : roundNat n = some y) : roundNat y = some y := by
  by_cases hn : n < 2 ^ 53
  · rw [roundNat_small n hn] at hy
    cases hy
    exact roundNat_small n hn
  · obtain ⟨e, q, he, rfl, hq1, hq2, hq3, hov⟩ := roundNat_big n y (by omega) hy
    by_cases hq : q < 2 ^ 53
    · exact roundNat_exact q e he hq1 hq (by omega)
    · have hq' : q = 2 ^ 53 := by omega
      subst hq'
      have he' : e < 971 := by
        rcases hov with h | ⟨_, h⟩
        · exact h
        · omega
      have hy : 2 ^ 53 * 2 ^ e = 2 ^ 52 * 2 ^ (e + 1) := by rw [pow_succ]; ring
      rw [hy]
      exact roundNat_exact (2 ^ 52) (e + 1) (Nat.succ_pos _) (le_refl _) (by norm_num) (by omega)

theorem digitsAt_round (y z c : Nat) (h : digitsAt y z = some c) : roundNat c = some y := by
  simp only [digitsAt] at h
  split_ifs at h with h1 h2 h3 h4 h5 h6
  all_goals simp only [Option.some.injEq] at h
  all_goals subst h
  all_goals simp only [Bool.and_eq_true, bne_iff_ne, ne_eq, beq_iff_eq] at *
  all_goals first
    | exact h1.1.2
    | exact h1.2
    | exact h5.2
    | exact h6

theorem shortestAux_round (z y : Nat) (hy : roundNat y = some y) :
    roundNat (shortestAux z y) = some y := by
  induction z with
  | zero => exact hy
  | succ z ih =>
    simp only [shortestAux]
    cases hd : digitsAt y (z + 1) with
    | none => exact ih
    | some c => exact digitsAt_round y (z + 1) c hd

theorem shortest_round (y : Nat) (hy : roundNat y = some y) : roundNat (shortest y) = some y :=
  shortestAux_round _ y hy

theorem digitsToNat_append (l r : List Char) :
    digitsToNat (l ++ r) = digitsToNat l * 10 ^ r.length + digitsToNat r := by
  simp only [digitsToNat, List.foldl_append]
  rw [digitsToNat_foldl]
  simp [digitsToNat]

theorem digitsToNat_trailing (l : List Char) (j : Nat) :
    digitsToNat (l ++ List.replicate j '0') = digitsToNat l * 10 ^ j := by
  rw [digitsToNat_append]
  have h := digitsToNat_zeros j []
  simp only [List.append_nil] at h
  have h0 : digitsToNat [] = 0 := rfl
  rw [h, h0]
  simp

theorem dropTrailingZeros_spec (ds : List Char) :
    ∃ j, ds = dropTrailingZeros ds ++ List.replicate j '0' := by
  refine ⟨(ds.reverse.takeWhile (fun c => c = '0')).length, ?_⟩
  have h1 : ds.reverse.takeWhile (fun c => decide (c = '0'))
      = List.replicate (ds.reverse.takeWhile (fun c => decide (c = '0'))).length '0' := by
    rw [List.eq_replicate_iff]
    refine ⟨rfl, fun b hb => ?_⟩
    have := List.mem_takeWhile_imp hb
    simpa using this
  have h2 := List.takeWhile_append_dropWhile (fun c => decide (c = '0')) ds.reverse
  have h3 : ds = (ds.reverse.dropWhile (fun c => decide (c = '0'))).reverse
      ++ (ds.reverse.takeWhile (fun c => decide (c = '0'))).reverse := by
    rw [← List.reverse_append, h2, List.reverse_reverse]
  unfold dropTrailingZeros
  conv_lhs => rw [h3]
  congr 1
  conv_lhs => rw [h1]
  rw [List.reverse_replicate]

theorem dropTrailingZeros_sublist (ds : List Char) (c : Char) (h : c ∈ dropTrailingZeros ds) :
    c ∈ ds := by
  unfold dropTrailingZeros at h
  rw [List.mem_reverse] at h
  exact List.mem_reverse.mp ((List.dropWhile_sublist _).subset h)

/-- The characters of the text of a number: digits and the letters and signs
of the exponent form, of `Infinity` and of `NaN`. -/
theorem numChar_facts (c : Char)
    (h : isDigit c = true ∨ c ∈ ['.', 'e', '+', '-', 'I', 'n', 'f', 'i', 't', 'y', 'N', 'a']) :
    c ≠ ':' ∧ jsIsSpace c = false ∧
    c ≠ 'x' ∧ c ≠ 'X' ∧ c ≠ 'o' ∧ c ≠ 'O' ∧ c ≠ 'b' ∧ c ≠ 'B' := by
  rcases h with h | h
  · refine ⟨?_, isDigit_notSpace c h, ?_, ?_, ?_, ?_, ?_, ?_⟩ <;>
      (intro hc; subst hc; revert h; decide)
  · simp only [List.mem_cons, List.mem_singleton, List.not_mem_nil, or_false] at h
    rcases h with h | h | h | h | h | h | h | h | h | h | h | h <;> subst h <;> decide

theorem takeWhile_digits_append (l r : List Char) (hl : l.all isDigit = true)
    (hr : ∀ c, r.head? = some c → isDigit c = false) :
    (l ++ r).takeWhile isDigit = l ∧ (l ++ r).dropWhile isDigit = r := by
  induction l with
  | nil =>
    cases r with
    | nil => simp
    | cons c t =>
      have := hr c rfl
      simp [List.takeWhile_cons, List.dropWhile_cons, this]
  | cons a l ih =>
    simp only [List.all_cons, Bool.and_eq_true] at hl
    simp only [List.cons_append, List.takeWhile_cons, List.dropWhile_cons, hl.1, if_true]
    obtain ⟨i1, i2⟩ := ih hl.2
    exact ⟨by rw [i1], i2⟩

theorem ofNat_small (n : Nat) (h : n < 2 ^ 53) : JNum.ofNat n = .fin (n : Int) := by
  simp only [JNum.ofNat, roundNat_small n h]

theorem ofNat_of_round (n y : Nat) (h : roundNat n = some y) : JNum.ofNat n = .fin (y : Int) := by
  simp only [JNum.ofNat, h]

theorem radixOf_digits (c : Char) (l : List Char)
    (h : ∀ m, l.head? = some m → m ≠ 'x' ∧ m ≠ 'X' ∧ m ≠ 'o' ∧ m ≠ 'O' ∧ m ≠ 'b' ∧ m ≠ 'B') :
    radixOf (c :: l) = none := by
  cases l with
  | nil => unfold radixOf; split <;> simp_all
  | cons m t =>
    obtain ⟨h1, h2, h3, h4, h5, h6⟩ := h m rfl
    unfold radixOf
    split
    · rename_i heq
      simp only [List.cons.injEq] at heq
      obtain ⟨_, hm, _⟩ := heq
      subst hm
      simp [h1, h2, h3, h4, h5, h6]
    · rfl

theorem parseInt10_digits (l : List Char) (hne : l ≠ []) (hd : l.all isDigit = true) :
    parseInt10 (String.mk l) = JNum.ofNat (digitsToNat l) := by
  obtain ⟨c, l', rfl⟩ := List.exists_cons_of_ne_nil hne
  have hc : isDigit c = true := by
    simp only [List.all_cons, Bool.and_eq_true] at hd
    exact hd.1
  have hs := isDigit_notSpace c hc
  obtain ⟨h1, h2⟩ := isDigit_notSign c hc
  have htw : List.takeWhile isDigit (c :: l') = c :: l' := by
    rw [List.takeWhile_eq_self_iff]
    intro x hx
    exact (List.all_eq_true.mp hd) x hx
  simp only [parseInt10, List.dropWhile_cons, hs, List.head?_cons, Option.some.injEq, h1, h2]
  simp [htw, h1, h2]

theorem unsignedDecimal_digits (l : List Char) (hne : l ≠ []) (hd : l.all isDigit = true) :
    unsignedDecimal l = JNum.ofNat (digitsToNat l) := by
  have hinf : l ≠ "Infinity".data := by
    intro h
    rw [h] at hd
    revert hd
    decide
  have h1 := takeWhile_digits_append l [] hd (by simp)
  simp only [List.append_nil] at h1
  have hne' : l.isEmpty = false := by
    cases l with
    | nil => exact absurd rfl hne
    | cons _ _ => rfl
  simp only [unsignedDecimal, hinf, if_false, h1.1, h1.2, hne', Bool.false_and, Bool.false_eq_true,
    List.append_nil, List.length_nil, Nat.cast_zero, neg_zero, scaledValue, le_refl, if_true,
    Int.toNat_zero, pow_zero, Nat.mul_one]

theorem jsNumber_digits (l : List Char) (hne : l ≠ []) (hd : l.all isDigit = true) :
    jsNumber (String.mk l) = JNum.ofNat (digitsToNat l) := by
  have hsp : ∀ c ∈ l, jsIsSpace c = false := fun c hc =>
    isDigit_notSpace c ((List.all_eq_true.mp hd) c hc)
  obtain ⟨c, l', rfl⟩ := List.exists_cons_of_ne_nil hne
  have hc : isDigit c = true := by
    simp only [List.all_cons, Bool.and_eq_true] at hd
    exact hd.1
  obtain ⟨h1, h2⟩ := isDigit_notSign c hc
  have hr : radixOf (c :: l') = none := by
    apply radixOf_digits
    intro m hm
    have hm' : m ∈ c :: l' := List.mem_cons_of_mem _ (List.mem_of_mem_head? hm)
    have := numChar_facts m (Or.inl ((List.all_eq_true.mp hd) m hm'))
    exact this.2.2
  simp only [jsNumber, trimChars_noSpace _ hsp, List.isEmpty_cons, Bool.false_eq_true, if_false, hr,
    List.head?_cons, Option.some.injEq, h1, h2]
  exact unsignedDecimal_digits _ hne hd

theorem natToText_cases (y : Nat) (hy : roundNat y = some y) :
    (∃ c, natToText y = natDigits c ∧ roundNat c = some y) ∨
    (2 ^ 53 ≤ y ∧ ∃ d rest k,
      natToText y = (if rest.isEmpty then [d] else d :: '.' :: rest) ++ 'e' :: '+' :: natDigits k ∧
      isDigit d = true ∧ rest.all isDigit = true ∧ rest.length ≤ k ∧
      roundNat (digitsToNat (d :: rest) * 10 ^ (k - rest.length)) = some y) := by
  unfold natToText
  split
  · exact Or.inl ⟨y, rfl, hy⟩
  · rename_i h1
    split
    · exact Or.inl ⟨shortest y, rfl, shortest_round y hy⟩
    · rename_i h2
      right
      refine ⟨by omega, ?_⟩
      obtain ⟨e1, e2, e3⟩ := natDigits_spec (shortest y)
      obtain ⟨j, hj⟩ := dropTrailingZeros_spec (natDigits (shortest y))
      cases hs : dropTrailingZeros (natDigits (shortest y)) with
      | nil =>
        rw [hs] at hj
        simp only [List.nil_append] at hj
        rw [hj] at e1
        have h0 := digitsToNat_zeros j []
        simp only [List.append_nil] at h0
        have h00 : digitsToNat [] = 0 := rfl
        rw [h0, h00] at e1
        have : (0 : Nat) < 10 ^ 21 := by norm_num
        omega
      | cons d rest =>
        have hmem : ∀ c ∈ d :: rest, isDigit c = true := by
          intro c hc
          rw [← hs] at hc
          exact (List.all_eq_true.mp e2) c (dropTrailingZeros_sublist _ c hc)
        have hlen : (natDigits (shortest y)).length = rest.length + 1 + j := by
          conv_lhs => rw [hj, hs]
          simp only [List.length_append, List.length_cons, List.length_replicate]
        refine ⟨d, rest, (natDigits (shortest y)).length - 1, rfl,
          hmem d (List.mem_cons_self _ _), ?_, by omega, ?_⟩
        · rw [List.all_eq_true]
          exact fun c hc => hmem c (List.mem_cons_of_mem _ hc)
        · have hk : (natDigits (shortest y)).length - 1 - rest.length = j := by omega
          rw [hk, ← digitsToNat_trailing, ← hs, ← hj, e1]
          exact shortest_round y hy

theorem natDigits_chars (n : Nat) (c : Char) (h : c ∈ natDigits n) : isDigit c = true :=
  (List.all_eq_true.mp (natDigits_spec n).2.1) c h

theorem natToText_chars (y : Nat) (hy : roundNat y = some y) (c : Char) (h : c ∈ natToText y) :
    isDigit c = true ∨ c ∈ ['.', 'e', '+', '-', 'I', 'n', 'f', 'i', 't', 'y', 'N', 'a'] := by
  rcases natToText_cases y hy with ⟨n, hn, _⟩ | ⟨_, d, rest, k, hn, hd, hr, _, _⟩
  · rw [hn] at h
    exact Or.inl (natDigits_chars n c h)
  · rw [hn] at h
    simp only [List.mem_append, List.mem_cons] at h
    rcases h with h | h | h | h
    · split at h
      · simp only [List.mem_singleton] at h
        subst h
        exact Or.inl hd
      · simp only [List.mem_cons] at h
        rcases h with h | h | h
        · subst h; exact Or.inl hd
        · subst h; right; decide
        · exact Or.inl ((List.all_eq_true.mp hr) c h)
    · subst h; right; decide
    · subst h; right; decide
    · exact Or.inl (natDigits_chars k c h)

theorem numToString_chars (x : JNum)
    (hx : x = .nan ∨ x = .inf false ∨ ∃ y : Nat, x = .fin (y : Int) ∧ roundNat y = some y)
    (c : Char) (h : c ∈ (numToString x).data) :
    isDigit c = true ∨ c ∈ ['.', 'e', '+', '-', 'I', 'n', 'f', 'i', 't', 'y', 'N', 'a'] := by
  rcases hx with rfl | rfl | ⟨y, rfl, hy⟩
  · right
    have : (numToString .nan).data = ['N', 'a', 'N'] := rfl
    rw [this] at h
    simp only [List.mem_cons, List.mem_singleton, List.not_mem_nil, or_false] at h
    rcases h with h | h | h <;> subst h <;> decide
  · right
    have : (numToString (.inf false)).data = ['I', 'n', 'f', 'i', 'n', 'i', 't', 'y'] := rfl
    rw [this] at h
    simp only [List.mem_cons, List.mem_singleton, List.not_mem_nil, or_false] at h
    rcases h with h | h | h | h | h | h | h | h <;> subst h <;> decide
  · exact natToText_chars y hy c h

theorem unsignedDecimal_parts (cs w aw f ex : List Char) (k : Nat)
    (hinf : cs ≠ "Infinity".data) (hw : w ≠ [])
    (h1 : cs.takeWhile isDigit = w) (h2 : cs.dropWhile isDigit = aw)
    (h3 : aw = 'e' :: '+' :: ex ∧ f = [] ∨
      ∃ t, aw = '.' :: t ∧ t.takeWhile isDigit = f ∧ t.dropWhile isDigit = 'e' :: '+' :: ex)
    (hex : ex ≠ [] ∧ ex.all isDigit = true) (hk : f.length ≤ digitsToNat ex) :
    unsignedDecimal cs
      = JNum.ofNat (digitsToNat (w ++ f) * 10 ^ (digitsToNat ex - f.length)) := by
  have hwe : w.isEmpty = false := by
    cases w with
    | nil => exact absurd rfl hw
    | cons _ _ => rfl
  have hexe : ex.isEmpty = false := by
    cases ex with
    | nil => exact absurd rfl hex.1
    | cons _ _ => rfl
  have hsc : scaledValue (digitsToNat (w ++ f)) (((digitsToNat ex : Nat) : Int) - ((f.length : Nat) : Int))
      = JNum.ofNat (digitsToNat (w ++ f) * 10 ^ (digitsToNat ex - f.length)) := by
    have h1 : (0 : Int) ≤ ((digitsToNat ex : Nat) : Int) - ((f.length : Nat) : Int) := by omega
    have h2 : (((digitsToNat ex : Nat) : Int) - ((f.length : Nat) : Int)).toNat
        = digitsToNat ex - f.length := by omega
    simp only [scaledValue, h1, if_true, h2]
  unfold unsignedDecimal
  rw [if_neg hinf]
  simp only [h1, h2]
  rcases h3 with ⟨ha, hf⟩ | ⟨t, ha, ht1, ht2⟩
  · subst ha hf
    simp only [hwe, Bool.false_and, Bool.false_eq_true, if_false, decide_True, Bool.true_or,
      if_true, List.head?_cons, Option.some.injEq, Bool.or_true, List.tail_cons, hexe, hex.2,
      Bool.not_true, Bool.or_self]
    have hcond : ¬ (ex = [] ∨ ∃ x ∈ ex, isDigit x = false) := by
      push_neg
      exact ⟨hex.1, fun x hx => by simpa using (List.all_eq_true.mp hex.2) x hx⟩
    simp at hsc ⊢
    rw [if_neg hcond]
    exact hsc
  · subst ha
    simp only [ht1, ht2, hwe, Bool.false_and, Bool.false_eq_true, if_false, decide_True,
      Bool.true_or, if_true, List.head?_cons, Option.some.injEq, Bool.or_true, List.tail_cons,
      hexe, hex.2, Bool.not_true, Bool.or_self]
    have hcond : ¬ (ex = [] ∨ ∃ x ∈ ex, isDigit x = false) := by
      push_neg
      exact ⟨hex.1, fun x hx => by simpa using (List.all_eq_true.mp hex.2) x hx⟩
    exact hsc

theorem unsignedDecimal_exp (d : Char) (rest : List Char) (k : Nat) (hd : isDigit d = true)
    (hr : rest.all isDigit = true) (hk : rest.length ≤ k) :
    unsignedDecimal ((if rest.isEmpty then [d] else d :: '.' :: rest) ++ 'e' :: '+' :: natDigits k)
      = JNum.ofNat (digitsToNat (d :: rest) * 10 ^ (k - rest.length)) := by
  obtain ⟨k1, k2, k3⟩ := natDigits_spec k
  have hdI : d ≠ 'I' := by intro h; subst h; revert hd; decide
  have hinf : ∀ l : List Char, d :: l ≠ "Infinity".data := by
    intro l h
    have h' := congrArg List.head? h
    simp only [List.head?_cons, Option.some.injEq] at h'
    exact hdI h'
  cases rest with
  | nil =>
    have h1 := takeWhile_digits_append [d] ('e' :: '+' :: natDigits k) (by simp [hd])
      (by intro c hc; simp at hc; subst hc; decide)
    have h := unsignedDecimal_parts ([d] ++ 'e' :: '+' :: natDigits k) [d] _ [] (natDigits k) k
      (hinf _) (by simp) h1.1 h1.2 (Or.inl ⟨rfl, rfl⟩) ⟨k3, k2⟩ (by simp)
    rw [k1] at h
    simpa using h
  | cons r rest' =>
    have h1 := takeWhile_digits_append [d] ('.' :: ((r :: rest') ++ 'e' :: '+' :: natDigits k))
      (by simp [hd]) (by intro c hc; simp at hc; subst hc; decide)
    have h2 := takeWhile_digits_append (r :: rest') ('e' :: '+' :: natDigits k) hr
      (by intro c hc; simp at hc; subst hc; decide)
    have h := unsignedDecimal_parts ([d] ++ '.' :: ((r :: rest') ++ 'e' :: '+' :: natDigits k)) [d] _
      (r :: rest') (natDigits k) k (hinf _) (by simp) h1.1 h1.2
      (Or.inr ⟨_, rfl, h2.1, h2.2⟩) ⟨k3, k2⟩ (by rw [k1]; exact hk)
    rw [k1] at h
    simpa using h

theorem jsNumber_plain (cs : List Char) (hne : cs ≠ [])
    (hc : ∀ c ∈ cs, isDigit c = true ∨ c ∈ ['.', 'e', '+', '-', 'I', 'n', 'f', 'i', 't', 'y', 'N', 'a'])
    (hh : ∀ c, cs.head? = some c → c ≠ '-' ∧ c ≠ '+') :
    jsNumber (String.mk cs) = unsignedDecimal cs := by
  have hsp : ∀ c ∈ cs, jsIsSpace c = false := fun c h => (numChar_facts c (hc c h)).2.1
  obtain ⟨c, l, rfl⟩ := List.exists_cons_of_ne_nil hne
  have hr : radixOf (c :: l) = none := by
    apply radixOf_digits
    intro m hm
    exact (numChar_facts m (hc m (List.mem_cons_of_mem _ (List.mem_of_mem_head? hm)))).2.2
  obtain ⟨h1, h2⟩ := hh c rfl
  simp only [jsNumber, trimChars_noSpace _ hsp, List.isEmpty_cons, Bool.false_eq_true, if_false, hr,
    List.head?_cons, Option.some.injEq, h1, h2]

theorem padStart2_long (cs : List Char) (h : 2 ≤ cs.length) : padStart2 (String.mk cs) = String.mk cs := by
  have : 2 - cs.length = 0 := by omega
  simp [padStart2, this]

theorem padStart2_digits (cs : List Char) (hne : cs ≠ []) (hd : cs.all isDigit = true) :
    ∃ ds, padStart2 (String.mk cs) = String.mk ds ∧ ds ≠ [] ∧ ds.all isDigit = true ∧
      digitsToNat ds = digitsToNat cs := by
  refine ⟨List.replicate (2 - cs.length) '0' ++ cs, rfl, by simp [hne], ?_, digitsToNat_zeros _ _⟩
  simp only [List.all_append, Bool.and_eq_true]
  refine ⟨?_, hd⟩
  rw [List.all_eq_true]
  intro x hx
  rw [List.eq_of_mem_replicate hx]
  decide

/-- Printing a number and reading the text back gives the number. -/
theorem jsNumber_numToString (x : JNum)
    (hx : x = .nan ∨ x = .inf false ∨ ∃ y : Nat, x = .fin (y : Int) ∧ roundNat y = some y) :
    jsNumber (padStart2 (numToString x)) = x := by
  rcases hx with rfl | rfl | ⟨y, rfl, hy⟩
  · decide
  · decide
  · have hts : numToString (.fin (y : Int)) = String.mk (natToText y) := rfl
    rw [hts]
    rcases natToText_cases y hy with ⟨n, hn, hr⟩ | ⟨_, d, rest, k, hn, hd, hr, hk, hv⟩
    · rw [hn]
      obtain ⟨e1, e2, e3⟩ := natDigits_spec n
      obtain ⟨ds, p1, p2, p3, p4⟩ := padStart2_digits (natDigits n) e3 e2
      rw [p1, jsNumber_digits ds p2 p3, p4, e1]
      exact ofNat_of_round n y hr
    · have hchars := natToText_chars y hy
      rw [hn] at hchars ⊢
      have hlen : 2 ≤ ((if rest.isEmpty then [d] else d :: '.' :: rest)
          ++ 'e' :: '+' :: natDigits k).length := by
        simp only [List.length_append, List.length_cons]
        omega
      rw [padStart2_long _ hlen]
      rw [jsNumber_plain _ (by intro h; rw [h] at hlen; simp at hlen) hchars]
      · rw [unsignedDecimal_exp d rest k hd hr hk]
        exact ofNat_of_round _ y hv
      · intro c hc
        have : c = d := by
          split at hc <;> simpa using hc.symm
        subst this
        exact isDigit_notSign c hd

/-- A number printed as a run of digits is read back by `parseInt`. -/
theorem parseInt10_numToString (y : Nat) (hy : roundNat y = some y)
    (hd : (numToString (.fin (y : Int))).data.all isDigit = true) :
    parseInt10 (padStart2 (numToString (.fin (y : Int)))) = .fin (y : Int) := by
  have hts : numToString (.fin (y : Int)) = String.mk (natToText y) := rfl
  rw [hts] at hd ⊢
  rcases natToText_cases y hy with ⟨n, hn, hr⟩ | ⟨_, d, rest, k, hn, _, _, _, _⟩
  · rw [hn]
    obtain ⟨e1, e2, e3⟩ := natDigits_spec n
    obtain ⟨ds, p1, p2, p3, p4⟩ := padStart2_digits (natDigits n) e3 e2
    rw [p1, parseInt10_digits ds p2 p3, p4, e1]
    exact ofNat_of_round n y hr
  · rw [hn] at hd
    simp only [List.all_append, List.all_cons, Bool.and_eq_true] at hd
    have := hd.2.1
    exact absurd this (by decide)

theorem ofInt_natCast (n : Nat) : JNum.ofInt (n : Int) = JNum.ofNat n := rfl

theorem ofNat_nonneg (n : Nat) : (JNum.ofNat n).NonNeg := by
  unfold JNum.ofNat
  cases h : roundNat n with
  | none => exact Or.inr (Or.inl rfl)
  | some y => exact Or.inr (Or.inr ⟨y, rfl, roundNat_idem n y h⟩)

theorem ofNat_lower (k n : Nat) (h : 2 ^ k ≤ n) :
    JNum.ofNat n = .inf false ∨ ∃ y : Nat, JNum.ofNat n = .fin (y : Int) ∧ 2 ^ k ≤ y ∧
      roundNat y = some y := by
  unfold JNum.ofNat
  cases hr : roundNat n with
  | none => exact Or.inl rfl
  | some y => exact Or.inr ⟨y, rfl, roundNat_lower k n y h hr, roundNat_idem n y hr⟩

theorem ofInt_small (z : Int) (h1 : -(2 ^ 53) < z) (h2 : z < 2 ^ 53) : JNum.ofInt z = .fin z := by
  cases z with
  | ofNat n =>
    have hn : n < 2 ^ 53 := by
      have : ((n : Nat) : Int) < 2 ^ 53 := h2
      exact_mod_cast this
    exact ofNat_small n hn
  | negSucc n =>
    have hn : n + 1 < 2 ^ 53 := by
      have : -(2 ^ 53 : Int) < Int.negSucc n := h1
      rw [Int.negSucc_eq] at this
      have h3 : ((n : Int) + 1) < 2 ^ 53 := by omega
      exact_mod_cast h3
    simp only [JNum.ofInt, roundNat_small (n + 1) hn]
    rw [Int.negSucc_eq]
    push_cast
    rfl

theorem ofInt_exact (z : Int) (h1 : -9007199254740992 < z) (h2 : z < 9007199254740992) :
    JNum.ofInt z = .fin z :=
  ofInt_small z (by norm_num; exact h1) (by norm_num; exact h2)

theorem mul_exact (a b : Int) (h1 : -9007199254740992 < a * b) (h2 : a * b < 9007199254740992) :
    (JNum.fin a).mul (.fin b) = .fin (a * b) :=
  ofInt_exact (a * b) h1 h2

theorem add_exact (a b : Int) (h1 : -9007199254740992 < a + b) (h2 : a + b < 9007199254740992) :
    (JNum.fin a).add (.fin b) = .fin (a + b) :=
  ofInt_exact (a + b) h1 h2

theorem sub_exact (a b : Int) (h1 : -9007199254740992 < a + -b) (h2 : a + -b < 9007199254740992) :
    (JNum.fin a).sub (.fin b) = .fin (a + -b) :=
  ofInt_exact (a + -b) h1 h2

theorem nonneg_zero : (JNum.fin 0).NonNeg :=
  Or.inr (Or.inr ⟨0, rfl, roundNat_small 0 (by norm_num)⟩)

theorem hourTo24_nonneg (x : JNum) (a : String) (hx : x.NonNeg) : (hourTo24 x a).NonNeg := by
  unfold hourTo24
  split
  · rcases hx with rfl | rfl | ⟨y, rfl, _⟩
    · exact Or.inl rfl
    · exact Or.inr (Or.inl rfl)
    · have : (JNum.fin (y : Int)).add (.fin 12) = JNum.ofNat (y + 12) := by
        show JNum.ofInt ((y : Int) + 12) = _
        rw [← ofInt_natCast]
        push_cast
        rfl
      rw [this]
      exact ofNat_nonneg _
  · split
    · exact nonneg_zero
    · exact hx

theorem parseInt10_nonneg (s : String)
    (h : ∀ c, s.data.head? = some c → jsIsSpace c = false ∧ c ≠ '-' ∧ c ≠ '+') :
    (parseInt10 s).NonNeg := by
  have hcs : s.data.dropWhile jsIsSpace = s.data := by
    cases hd : s.data with
    | nil => rfl
    | cons c l =>
      have := (h c (by rw [hd]; rfl)).1
      simp [List.dropWhile_cons, this]
  have hneg : (s.data.head? = some '-') = False := by
    apply eq_false
    intro hc
    exact (h '-' hc).2.1 rfl
  have hpos : (s.data.head? = some '+') = False := by
    apply eq_false
    intro hc
    exact (h '+' hc).2.2 rfl
  unfold parseInt10
  simp only [hcs, hneg, hpos, decide_False, Bool.or_self, Bool.false_eq_true, if_false]
  by_cases he : (List.takeWhile isDigit s.data).isEmpty = true
  · rw [if_pos he]
    exact Or.inl rfl
  · rw [if_neg he]
    exact ofNat_nonneg _

theorem numToString_head (x : JNum) (hx : x.NonNeg) (c : Char)
    (h : (numToString x).data.head? = some c) : jsIsSpace c = false ∧ c ≠ '-' ∧ c ≠ '+' := by
  have hd : isDigit c = true ∨ c = 'N' ∨ c = 'I' := by
    rcases hx with rfl | rfl | ⟨y, rfl, hy⟩
    · have h1 : (numToString .nan).data.head? = some 'N' := rfl
      rw [h1] at h
      simp only [Option.some.injEq] at h
      exact Or.inr (Or.inl h.symm)
    · have h1 : (numToString (.inf false)).data.head? = some 'I' := rfl
      rw [h1] at h
      simp only [Option.some.injEq] at h
      exact Or.inr (Or.inr h.symm)
    · have hts : (numToString (.fin (y : Int))).data = natToText y := rfl
      rw [hts] at h
      left
      rcases natToText_cases y hy with ⟨n, hn, _⟩ | ⟨_, d, rest, k, hn, hd, _, _, _⟩
      · rw [hn] at h
        exact natDigits_chars n c (List.mem_of_mem_head? h)
      · rw [hn] at h
        have : c = d := by
          split at h <;> simpa using h.symm
        rw [this]
        exact hd
  rcases hd with hd | rfl | rfl
  · exact ⟨isDigit_notSpace c hd, isDigit_notSign c hd⟩
  · decide
  · decide

theorem padStart2_head (s : String) (c : Char) (h : (padStart2 s).data.head? = some c) :
    c = '0' ∨ s.data.head? = some c := by
  unfold padStart2 at h
  simp only at h
  cases hk : 2 - s.data.length with
  | zero =>
    rw [hk] at h
    simp only [List.replicate_zero, List.nil_append] at h
    exact Or.inr h
  | succ k =>
    rw [hk] at h
    simp only [List.replicate_succ, List.cons_append, List.head?_cons, Option.some.injEq] at h
    exact Or.inl h.symm

theorem parseInt10_printed (x : JNum) (hx : x.NonNeg) :
    (parseInt10 (padStart2 (numToString x))).NonNeg := by
  apply parseInt10_nonneg
  intro c hc
  rcases padStart2_head _ c hc with rfl | h
  · decide
  · exact numToString_head x hx c h

theorem splitColon_noColon (l : List Char) (h : ∀ c ∈ l, c ≠ ':') : splitColon l = [l] := by
  induction l with
  | nil => rfl
  | cons c l ih =>
    have hc : c ≠ ':' := h c (List.mem_cons_self _ _)
    simp only [splitColon, hc, if_false, ih (fun x hx => h x (List.mem_cons_of_mem _ hx))]

theorem splitColon_append (a b : List Char) (h : ∀ c ∈ a, c ≠ ':') :
    splitColon (a ++ ':' :: b) = a :: splitColon b := by
  induction a with
  | nil => simp [splitColon]
  | cons c a ih =>
    have hc : c ≠ ':' := h c (List.mem_cons_self _ _)
    show splitColon (c :: (a ++ ':' :: b)) = _
    rw [splitColon, if_neg hc, ih (fun x hx => h x (List.mem_cons_of_mem _ hx))]

theorem padStart2_chars (s : String) (c : Char) (h : c ∈ (padStart2 s).data) :
    c = '0' ∨ c ∈ s.data := by
  unfold padStart2 at h
  simp only [List.mem_append] at h
  rcases h with h | h
  · exact Or.inl (List.eq_of_mem_replicate h)
  · exact Or.inr h

/-- The two numbers read from a stored time that is a printed number, a
colon and a run of digits. -/
theorem parseTime_shaped (x : JNum) (m : String) (hx : x.NonNeg) (hm1 : m.data ≠ [])
    (hm2 : m.data.all isDigit = true) :
    parseTime (padStart2 (numToString x) ++ ":" ++ m) = (x, JNum.ofNat (digitsToNat m.data)) := by
  have hA : ∀ c ∈ (padStart2 (numToString x)).data, c ≠ ':' := by
    intro c hc
    rcases padStart2_chars _ c hc with rfl | h
    · decide
    · exact (numChar_facts c (numToString_chars x hx c h)).1
  have hM : ∀ c ∈ m.data, c ≠ ':' := by
    intro c hc
    exact (numChar_facts c (Or.inl ((List.all_eq_true.mp hm2) c hc))).1
  have hdata : (padStart2 (numToString x) ++ ":" ++ m).data
      = (padStart2 (numToString x)).data ++ ':' :: m.data := by
    simp only [String.data_append, List.append_assoc]
    rfl
  unfold parseTime
  rw [hdata, splitColon_append _ _ hA, splitColon_noColon _ hM]
  simp only []
  have h1 : jsNumber (String.mk (padStart2 (numToString x)).data) = x :=
    jsNumber_numToString x hx
  have h2 : jsNumber (String.mk m.data) = JNum.ofNat (digitsToNat m.data) :=
    jsNumber_digits m.data hm1 hm2
  rw [h1, h2]

theorem shaped_ne (x : JNum) (m : String) : padStart2 (numToString x) ++ ":" ++ m ≠ "" := by
  intro heq
  have := congrArg String.length heq
  simp only [String.length_append] at this
  have h1 : ":".length = 1 := by decide
  have h0 : "".length = 0 := by decide
  omega

theorem localDay_bound (env : Env) (t : Int) (h1 : -8640000000000000 ≤ t)
    (h2 : t ≤ 8640000000000000) :
    -8640000200000000 ≤ localDay env t * msPerDay ∧ localDay env t * msPerDay ≤ 8640000200000000 := by
  have hz := env.tzBounded
  simp only [localDay, msPerDay]
  omega

theorem add_fin_lower (k : Nat) (a : Nat) (b : Int) (ha : 2 ^ (k + 1) ≤ a) (hb : -(2 ^ k) ≤ b) :
    (JNum.fin (a : Int)).add (.fin b) = .inf false ∨
      ∃ y : Nat, (JNum.fin (a : Int)).add (.fin b) = .fin (y : Int) ∧ 2 ^ k ≤ y := by
  have h2 : (2 : Int) ^ (k + 1) = 2 * 2 ^ k := by rw [pow_succ]; ring
  have ha' : (2 : Int) ^ (k + 1) ≤ (a : Int) := by exact_mod_cast ha
  have hpos : (0 : Int) < 2 ^ k := by positivity
  have hnn : (0 : Int) ≤ (a : Int) + b := by omega
  obtain ⟨n, hn⟩ := Int.eq_ofNat_of_zero_le hnn
  have hle : 2 ^ k ≤ n := by
    have : (2 : Int) ^ k ≤ (n : Int) := by omega
    exact_mod_cast this
  show JNum.ofInt ((a : Int) + b) = _ ∨ ∃ y : Nat, JNum.ofInt ((a : Int) + b) = _ ∧ _
  rw [hn, ofInt_natCast]
  rcases ofNat_lower k n hle with h | ⟨y, hy, hy2, _⟩
  · exact Or.inl h
  · exact Or.inr ⟨y, hy, hy2⟩

/-- An hour of `2 ^ 53` or more, or one that is not finite, makes
`setHours` give an invalid date. -/
theorem setHoursAt_far (env : Env) (t : Int) (x y : JNum)
    (ht : -8640000000000000 ≤ t ∧ t ≤ 8640000000000000)
    (hx : x = .nan ∨ x = .inf false ∨ ∃ n : Nat, x = .fin (n : Int) ∧ 2 ^ 53 ≤ n)
    (hy : y.NonNeg) : setHoursAt env t x y = none := by
  rcases hx with rfl | rfl | ⟨n, rfl, hn⟩
  · rfl
  · rfl
  rcases hy with rfl | rfl | ⟨m, rfl, _⟩
  · rfl
  · rfl
  obtain ⟨d1, d2⟩ := localDay_bound env t ht.1 ht.2
  have hz := env.tzBounded
  have hmul1 : (JNum.fin (n : Int)).mul (.fin 3600000) = JNum.ofNat (n * 3600000) := by
    show JNum.ofInt ((n : Int) * 3600000) = _
    rw [← ofInt_natCast]
    push_cast
    rfl
  have hmul2 : (JNum.fin (m : Int)).mul (.fin 60000) = JNum.ofNat (m * 60000) := by
    show JNum.ofInt ((m : Int) * 60000) = _
    rw [← ofInt_natCast]
    push_cast
    rfl
  have hbig : 2 ^ 74 ≤ n * 3600000 := by
    have : (2 : Nat) ^ 74 = 2 ^ 53 * 2097152 := by norm_num
    rw [this]
    exact Nat.mul_le_mul hn (by norm_num)
  have hday : JNum.ofInt (localDay env t * msPerDay) = .fin (localDay env t * msPerDay) :=
    ofInt_exact _ (by omega) (by omega)
  have hoff : JNum.ofInt (env.tzOffsetMin * 60000) = .fin (env.tzOffsetMin * 60000) :=
    ofInt_exact _ (by omega) (by omega)
  unfold setHoursAt makeTime
  simp only [hmul1, hmul2, hday, hoff]
  rcases ofNat_lower 74 _ hbig with h1 | ⟨a, h1, ha, _⟩
  · rw [h1]
    rcases ofNat_nonneg (m * 60000) with h2 | h2 | ⟨b, h2, _⟩
    · rw [h2]; rfl
    · rw [h2]; rfl
    · rw [h2]; rfl
  · rw [h1]
    rcases ofNat_nonneg (m * 60000) with h2 | h2 | ⟨b, h2, _⟩
    · rw [h2]; rfl
    · rw [h2]; rfl
    · rw [h2]
      rcases add_fin_lower 73 a (b : Int) ha (by have : (0 : Int) ≤ (b : Int) := Int.ofNat_nonneg b
                                                 have : (0 : Int) < 2 ^ 73 := by positivity
                                                 omega) with h3 | ⟨c, h3, hc⟩
      · rw [h3]
      · rw [h3]
        simp only []
        have hcomm : (JNum.fin (localDay env t * msPerDay)).add (.fin (c : Int))
            = (JNum.fin (c : Int)).add (.fin (localDay env t * msPerDay)) := by
          show JNum.ofInt _ = JNum.ofInt _
          rw [Int.add_comm]
        rw [hcomm]
        rcases add_fin_lower 72 c (localDay env t * msPerDay) hc
            (by have : (2 : Int) ^ 72 = 4722366482869645213696 := by norm_num
                omega) with h4 | ⟨e, h4, he⟩
        · rw [h4]; rfl
        · rw [h4]
          have hsub : (JNum.fin (e : Int)).sub (.fin (env.tzOffsetMin * 60000))
              = (JNum.fin (e : Int)).add (.fin (-(env.tzOffsetMin * 60000))) := rfl
          rw [hsub]
          rcases add_fin_lower 71 e (-(env.tzOffsetMin * 60000)) he
              (by have : (2 : Int) ^ 71 = 2361183241434822606848 := by norm_num
                  omega) with h5 | ⟨f, h5, hf⟩
          · rw [h5]; rfl
          · rw [h5]
            have hf' : (2361183241434822606848 : Int) ≤ (f : Int) := by
              have : (2 : Nat) ^ 71 = 2361183241434822606848 := by norm_num
              rw [this] at hf
              exact_mod_cast hf
            simp only [timeClip]
            rw [if_neg (by omega)]

/-- With an hour up to 18 and a minute up to 1080, `setHours` computes
without rounding. -/
theorem setHoursAt_small (env : Env) (t u : Int) (hh mm : Nat)
    (ht : -8640000000000000 ≤ t ∧ t ≤ 8640000000000000) (h1 : hh ≤ 18) (h2 : mm ≤ 1080)
    (hu : setHoursAt env t (.fin (hh : Int)) (.fin (mm : Int)) = some u) :
    u = setHours env t hh mm := by
  obtain ⟨d1, d2⟩ := localDay_bound env t ht.1 ht.2
  have hz := env.tzBounded
  have hh' : ((hh : Nat) : Int) ≤ 18 := by exact_mod_cast h1
  have hm' : ((mm : Nat) : Int) ≤ 1080 := by exact_mod_cast h2
  have hh0 : (0 : Int) ≤ (hh : Int) := Int.ofNat_nonneg hh
  have hm0 : (0 : Int) ≤ (mm : Int) := Int.ofNat_nonneg mm
  have e1 : (JNum.fin (hh : Int)).mul (.fin 3600000) = .fin ((hh : Int) * 3600000) :=
    mul_exact _ _ (by omega) (by omega)
  have e2 : (JNum.fin (mm : Int)).mul (.fin 60000) = .fin ((mm : Int) * 60000) :=
    mul_exact _ _ (by omega) (by omega)
  have e3 : (JNum.fin ((hh : Int) * 3600000)).add (.fin ((mm : Int) * 60000))
      = .fin ((hh : Int) * 3600000 + (mm : Int) * 60000) :=
    add_exact _ _ (by omega) (by omega)
  have e4 : JNum.ofInt (localDay env t * msPerDay) = .fin (localDay env t * msPerDay) :=
    ofInt_exact _ (by omega) (by omega)
  have e5 : JNum.ofInt (env.tzOffsetMin * 60000) = .fin (env.tzOffsetMin * 60000) :=
    ofInt_exact _ (by omega) (by omega)
  have e6 : (JNum.fin (localDay env t * msPerDay)).add
        (.fin ((hh : Int) * 3600000 + (mm : Int) * 60000))
      = .fin (localDay env t * msPerDay + ((hh : Int) * 3600000 + (mm : Int) * 60000)) :=
    add_exact _ _ (by omega) (by omega)
  have e7 : (JNum.fin (localDay env t * msPerDay + ((hh : Int) * 3600000 + (mm : Int) * 60000))).sub
        (.fin (env.tzOffsetMin * 60000))
      = .fin (localDay env t * msPerDay + ((hh : Int) * 3600000 + (mm : Int) * 60000)
          + -(env.tzOffsetMin * 60000)) :=
    sub_exact _ _ (by omega) (by omega)
  unfold setHoursAt makeTime at hu
  simp only [e1, e2, e3, e4, e5, e6, e7, timeClip] at hu
  split at hu
  · simp only [Option.some.injEq] at hu
    rw [← hu]
    simp only [setHours]
    ring
  · cases hu

/-- A total of minutes between 540 and 1080 was computed without rounding. -/
theorem total_exact (hh mm : Nat)
    (h1 : JNum.lt (((JNum.fin (hh : Int)).mul (.fin 60)).add (.fin (mm : Int))) (.fin (9 * 60))
      = false)
    (h2 : JNum.lt (.fin (18 * 60)) (((JNum.fin (hh : Int)).mul (.fin 60)).add (.fin (mm : Int)))
      = false) :
    ((JNum.fin (hh : Int)).mul (.fin 60)).add (.fin (mm : Int)) = .fin ((hh : Int) * 60 + mm) ∧
    9 * 60 ≤ (hh : Int) * 60 + mm ∧ (hh : Int) * 60 + mm ≤ 18 * 60 := by
  have hmul : (JNum.fin (hh : Int)).mul (.fin 60) = JNum.ofNat (hh * 60) := by
    show JNum.ofInt ((hh : Int) * 60) = _
    rw [← ofInt_natCast]
    push_cast
    rfl
  have hadd : ∀ a : Nat, (JNum.fin (a : Int)).add (.fin (mm : Int)) = JNum.ofNat (a + mm) := by
    intro a
    show JNum.ofInt ((a : Int) + mm) = _
    rw [← ofInt_natCast]
    push_cast
    rfl
  have hbig : ∀ n : Nat, 2 ^ 53 ≤ n → JNum.lt (.fin (18 * 60)) (JNum.ofNat n) = true := by
    intro n hn
    rcases ofNat_lower 53 n hn with h | ⟨y, h, hy, _⟩
    · rw [h]; rfl
    · rw [h]
      have h53 : (2 : Nat) ^ 53 = 9007199254740992 := by norm_num
      have : (18 * 60 : Int) < (y : Int) := by omega
      simp only [JNum.lt, decide_eq_true_eq]
      exact this
  rw [hmul] at h1 h2 ⊢
  by_cases hs : hh * 60 < 2 ^ 53
  · rw [ofNat_small _ hs, hadd] at h1 h2 ⊢
    by_cases hs2 : hh * 60 + mm < 2 ^ 53
    · rw [ofNat_small _ hs2] at h1 h2 ⊢
      simp only [JNum.lt, decide_eq_false_iff_not, not_lt] at h1 h2
      push_cast at h1 h2 ⊢
      exact ⟨rfl, h1, h2⟩
    · rw [hbig _ (by omega)] at h2
      cases h2
  · rcases ofNat_lower 53 (hh * 60) (by omega) with h | ⟨y, h, hy, _⟩
    · rw [h] at h2
      have : JNum.lt (.fin (18 * 60)) ((JNum.inf false).add (.fin (mm : Int))) = true := rfl
      rw [this] at h2
      cases h2
    · rw [h, hadd, hbig _ (by omega)] at h2
      cases h2

theorem le_of_not_lt (a b : JNum) (h1 : a ≠ .nan) (h2 : b ≠ .nan) :
    JNum.le a b = !(JNum.lt b a) := by
  cases a <;> cases b <;> simp_all [JNum.le]

theorem updateTime_fields (env : Env) (h m a : String) (s : State) :
    (updateTimeFrom12Hour env h m a s).selectedHour = s.selectedHour ∧
    (updateTimeFrom12Hour env h m a s).selectedMinute = s.selectedMinute ∧
    (updateTimeFrom12Hour env h m a s).selectedAmPm = s.selectedAmPm ∧
    (updateTimeFrom12Hour env h m a s).selectedTime =
      (if h = "" || m = "" then "" else convert12To24Hour h m a) := by
  unfold updateTimeFrom12Hour
  split <;> simp

theorem timeConsistent_update (env : Env) (s : State) (h m a : String)
    (hh : s.selectedHour = h) (hm : s.selectedMinute = m) (ha : s.selectedAmPm = a) :
    TimeConsistent (updateTimeFrom12Hour env h m a s) := by
  obtain ⟨e1, e2, e3, e4⟩ := updateTime_fields env h m a s
  intro h1 h2
  rw [e1, hh] at h1
  rw [e2, hm] at h2
  rw [e1, e2, e3, e4, hh, hm, ha]
  simp [h1, h2]

theorem strOr_ne (a b : String) (hb : b ≠ "") : strOr a b ≠ "" := by
  unfold strOr
  split
  · exact hb
  · assumption

theorem tOr_ne (env : Env) (k b : String) (hb : b ≠ "") : tOr env k b ≠ "" :=
  strOr_ne _ _ hb

theorem convert_ne_empty (h m a : String) (hh : h ≠ "") (hm : m ≠ "") :
    convert12To24Hour h m a ≠ "" := by
  simp only [convert12To24Hour, hh, hm, decide_False, Bool.or_self, Bool.false_eq_true, if_false]
  exact shaped_ne _ _

theorem convert_eq (h m a : String) (hh : h ≠ "") (hm : m ≠ "") :
    convert12To24Hour h m a
      = padStart2 (numToString (hourTo24 (parseInt10 h) a)) ++ ":" ++ m := by
  simp only [convert12To24Hour, hh, hm, decide_False, Bool.or_self, Bool.false_eq_true, if_false]

theorem timeAgrees_of_consistent (env : Env) (s : State) (h : TimeConsistent s) :
    TimeAgrees env s := by
  intro h1 h2
  have := h h1 h2
  exact ⟨by rw [this]; exact convert_ne_empty _ _ _ h1 h2, Or.inl this⟩

/-- A pre-filled hour that is stored as a run of digits is read back as the
number it was printed from. -/
theorem timeConsistent_prefill (s : State) (h m a : String)
    (hh : h.data ≠ [] ∧ h.data.all isDigit = true)
    (hd : (padStart2 (numToString (parseInt10 h))).data.all isDigit = true) :
    TimeConsistent (prefillTime h m a s) := by
  intro h1 h2
  have hp : parseInt10 h = JNum.ofNat (digitsToNat h.data) := parseInt10_digits h.data hh.1 hh.2
  simp only [prefillTime] at h1 h2 ⊢
  rw [convert_eq _ _ _ h1 h2]
  have hd' : (numToString (parseInt10 h)).data.all isDigit = true := by
    unfold padStart2 at hd
    simp only [List.all_append, Bool.and_eq_true] at hd
    exact hd.2
  rcases ofNat_nonneg (digitsToNat h.data) with hx | hx | ⟨y, hx, hy⟩
  · rw [hp, hx] at hd'
    exact absurd hd' (by decide)
  · rw [hp, hx] at hd'
    exact absurd hd' (by decide)
  · rw [hp, hx] at hd' ⊢
    rw [parseInt10_numToString y hy hd']

theorem isFutureDateTime_far (env : Env) (x : JNum) (m : String)
    (hx : x = .nan ∨ x = .inf false ∨ ∃ n : Nat, x = .fin (n : Int) ∧ 2 ^ 53 ≤ n ∧
      roundNat n = some n)
    (hm1 : m.data ≠ []) (hm2 : m.data.all isDigit = true) (d : String) :
    isFutureDateTime env d (padStart2 (numToString x) ++ ":" ++ m) = false := by
  have hnn : x.NonNeg := by
    rcases hx with h | h | ⟨n, h, _, hr⟩
    · exact Or.inl h
    · exact Or.inr (Or.inl h)
    · exact Or.inr (Or.inr ⟨n, h, hr⟩)
  have hx' : x = .nan ∨ x = .inf false ∨ ∃ n : Nat, x = .fin (n : Int) ∧ 2 ^ 53 ≤ n := by
    rcases hx with h | h | ⟨n, h, h2, _⟩
    · exact Or.inl h
    · exact Or.inr (Or.inl h)
    · exact Or.inr (Or.inr ⟨n, h, h2⟩)
  unfold isFutureDateTime
  split
  · rfl
  · cases hp : env.dateParse d with
    | none => rfl
    | some t =>
      simp only []
      rw [parseTime_shaped x m hnn hm1 hm2]
      simp only []
      rw [setHoursAt_far env t x _ (env.dateParseClipped d t hp) hx' (ofNat_nonneg _)]

theorem timeAgrees_prefill (env : Env) (s : State) (h m a : String)
    (hh : h.data ≠ [] ∧ h.data.all isDigit = true)
    (hm : m.data ≠ [] ∧ m.data.all isDigit = true) : TimeAgrees env (prefillTime h m a s) := by
  by_cases hd : (padStart2 (numToString (parseInt10 h))).data.all isDigit = true
  · exact timeAgrees_of_consistent env _ (timeConsistent_prefill s h m a hh hd)
  · intro h1 h2
    have hp : parseInt10 h = JNum.ofNat (digitsToNat h.data) := parseInt10_digits h.data hh.1 hh.2
    simp only [prefillTime] at h1 h2 ⊢
    refine ⟨shaped_ne _ _, Or.inr ⟨by simpa using hd, fun d => ?_⟩⟩
    apply isFutureDateTime_far env _ m _ hm.1 hm.2
    rw [hp] at hd ⊢
    by_cases hs : digitsToNat h.data < 2 ^ 53
    · exfalso
      apply hd
      rw [ofNat_small _ hs]
      have hts : numToString (.fin ((digitsToNat h.data : Nat) : Int))
          = String.mk (natDigits (digitsToNat h.data)) := by
        show String.mk (natToText _) = _
        unfold natToText
        rw [if_pos hs]
      rw [hts]
      obtain ⟨e1, e2, e3⟩ := natDigits_spec (digitsToNat h.data)
      obtain ⟨ds, p1, _, p3, _⟩ := padStart2_digits _ e3 e2
      rw [p1]
      exact p3
    · rcases ofNat_lower 53 (digitsToNat h.data) (by omega) with hx | ⟨y, hx, hy, hr⟩
      · rw [hx]
        have : hourTo24 (.inf false) (upperAscii a) = .inf false := by
          unfold hourTo24
          split
          · rfl
          · split
            · rename_i hc
              simp at hc
            · rfl
        rw [this]
        exact Or.inr (Or.inl rfl)
      · rw [hx]
        have h12 : (JNum.fin (y : Int) != JNum.fin 12) = true := by
          have : (y : Int) ≠ 12 := by
            have : ((2 : Nat) ^ 53 : Int) ≤ (y : Int) := by exact_mod_cast hy
            norm_num at this
            omega
          simp [this]
        have h12' : (JNum.fin (y : Int) == JNum.fin 12) = false := by
          simpa [bne, Bool.not_eq_true'] using h12
        unfold hourTo24
        by_cases hpm : upperAscii a = "PM"
        · simp only [hpm, decide_True, h12, Bool.and_self, if_true]
          have : (JNum.fin (y : Int)).add (.fin 12) = JNum.ofNat (y + 12) := by
            show JNum.ofInt ((y : Int) + 12) = _
            rw [← ofInt_natCast]
            push_cast
            rfl
          rw [this]
          rcases ofNat_lower 53 (y + 12) (by omega) with hz | ⟨z, hz, hz2, hz3⟩
          · exact Or.inr (Or.inl hz)
          · exact Or.inr (Or.inr ⟨z, hz, hz2, hz3⟩)
        · simp only [hpm, decide_False, Bool.false_and, Bool.false_eq_true, if_false, h12',
            Bool.and_false]
          exact Or.inr (Or.inr ⟨y, rfl, hy, hr⟩)

theorem formStep_timeAgrees (env : Env) (s s' : State) (h : FormStep env s s')
    (hs : TimeAgrees env s) : TimeAgrees env s' := by
  cases h with
  | hour v hv => exact timeAgrees_of_consistent env _ (timeConsistent_update env _ _ _ _ rfl rfl rfl)
  | minute v hv =>
    exact timeAgrees_of_consistent env _ (timeConsistent_update env _ _ _ _ rfl rfl rfl)
  | amPm v hv =>
    unfold selectAmPm
    split
    · exact timeAgrees_of_consistent env _ (timeConsistent_update env _ _ _ _ rfl rfl rfl)
    · rename_i hc
      intro h1 h2
      simp only at h1 h2
      simp [h1, h2] at hc
  | prefill h m a hh hm ha => exact timeAgrees_prefill env s h m a hh hm
  | close => intro h1; simp [closeAppointmentDialog] at h1
  | reset => intro h1; simp [resetAppointmentForm] at h1
  | other _ hT hH hM hA =>
    intro h1 h2
    rw [hT, hH, hM, hA]
    rw [hH] at h1
    rw [hM] at h2
    exact hs h1 h2

theorem formReachable_timeAgrees (env : Env) (s : State) (h : FormReachable env s) :
    TimeAgrees env s := by
  induction h with
  | init c => intro h1; simp [initialState] at h1
  | step s s' _ hst ih => exact formStep_timeAgrees env s s' hst ih

theorem options_shaped :
    (∀ v ∈ hourOptions, v = "" ∨ (v.data ≠ [] ∧ v.data.all isDigit = true)) ∧
    (∀ v ∈ minuteOptions, v = "" ∨ (v.data ≠ [] ∧ v.data.all isDigit = true)) := by
  decide

theorem digits_nonneg (v : String) (h : v.data ≠ [] ∧ v.data.all isDigit = true) :
    (parseInt10 v).NonNeg := by
  have : parseInt10 v = JNum.ofNat (digitsToNat v.data) := parseInt10_digits v.data h.1 h.2
  rw [this]
  exact ofNat_nonneg _

theorem timeShaped_update (env : Env) (s : State) (h m a : String)
    (hh : s.selectedHour = h) (hm : s.selectedMinute = m)
    (h1 : m = "" ∨ m.data.all isDigit = true) (h2 : h = "" ∨ (parseInt10 h).NonNeg) :
    TimeShaped (updateTimeFrom12Hour env h m a s) := by
  obtain ⟨e1, e2, e3, e4⟩ := updateTime_fields env h m a s
  refine ⟨by rw [e2, hm]; exact h1, by rw [e1, hh]; exact h2, ?_⟩
  rw [e4]
  by_cases hc : h = "" ∨ m = ""
  · left
    rcases hc with hc | hc <;> simp [hc]
  · push_neg at hc
    right
    have hx : (parseInt10 h).NonNeg := by
      rcases h2 with h2 | h2
      · exact absurd h2 hc.1
      · exact h2
    have hmd : m.data.all isDigit = true := by
      rcases h1 with h1 | h1
      · exact absurd h1 hc.2
      · exact h1
    have hmn : m.data ≠ [] := by
      intro he
      apply hc.2
      exact String.ext he
    refine ⟨hourTo24 (parseInt10 h) a, m, hourTo24_nonneg _ _ hx, hmn, hmd, ?_⟩
    simp only [hc.1, hc.2, decide_False, Bool.or_self, Bool.false_eq_true, if_false]
    exact convert_eq h m a hc.1 hc.2

theorem formStep_timeShaped (env : Env) (s s' : State) (h : FormStep env s s')
    (hs : TimeShaped s) : TimeShaped s' := by
  obtain ⟨s1, s2, s3⟩ := hs
  cases h with
  | hour v hv =>
    refine timeShaped_update env { s with selectedHour := v } v s.selectedMinute s.selectedAmPm
      rfl rfl s1 ?_
    rcases options_shaped.1 v hv with h | h
    · exact Or.inl h
    · exact Or.inr (digits_nonneg v h)
  | minute v hv =>
    refine timeShaped_update env { s with selectedMinute := v } s.selectedHour v s.selectedAmPm
      rfl rfl ?_ s2
    rcases options_shaped.2 v hv with h | h
    · exact Or.inl h
    · exact Or.inr h.2
  | amPm v hv =>
    unfold selectAmPm
    split
    · exact timeShaped_update env { s with selectedAmPm := v } s.selectedHour s.selectedMinute v
        rfl rfl s1 s2
    · exact ⟨s1, s2, s3⟩
  | prefill h m a hh hm ha =>
    have hx : (parseInt10 h).NonNeg := digits_nonneg h hh
    refine ⟨Or.inr hm.2, Or.inr (parseInt10_printed _ hx),
      Or.inr ⟨_, m, hourTo24_nonneg _ _ hx, hm.1, hm.2, rfl⟩⟩
  | close => exact ⟨Or.inl rfl, Or.inl rfl, s3⟩
  | reset => exact ⟨Or.inl rfl, Or.inl rfl, Or.inl rfl⟩
  | other _ hT hH hM hA =>
    exact ⟨by rw [hM]; exact s1, by rw [hH]; exact s2, by rw [hT]; exact s3⟩

theorem formReachable_timeShaped (env : Env) (s : State) (h : FormReachable env s) :
    TimeShaped s := by
  induction h with
  | init c => exact ⟨Or.inl rfl, Or.inl rfl, Or.inl rfl⟩
  | step s s' _ hst ih => exact formStep_timeShaped env s s' hst ih

/-- The checks a sending call of `submitAppointmentBooking` has passed, as the
negations of its early returns. -/
theorem submit_sent_checks (env : Env) (s : State) (msg : String)
    (hs : (submitAppointmentBooking env s).sent = some msg) :
    (s.isEditMode && !(validateEditModeFields env s).2) = false ∧
    jsTrim s.editableCustomerRequirement ≠ "" ∧
    (s.selectedDate = "" || !isFutureDate env s.selectedDate) = false ∧
    (s.selectedTime = "" && (s.selectedHour = "" || s.selectedMinute = "")) = false ∧
    (strOr s.selectedTime (convert12To24Hour s.selectedHour s.selectedMinute s.selectedAmPm) != ""
      && !isFutureDateTime env s.selectedDate
        (strOr s.selectedTime
          (convert12To24Hour s.selectedHour s.selectedMinute s.selectedAmPm))) = false ∧
    timeOutOfRange s = false ∧
    (!s.appointmentLocation.lat.truthy || !s.appointmentLocation.lng.truthy) = false ∧
    (jsTrim s.editableCustomerEmail != "" && !isValidEmail s.editableCustomerEmail) = false ∧
    bookingMessage env s = some msg := by
  unfold submitAppointmentBooking at hs
  split at hs
  · simp [blockedWith] at hs
  · rename_i c1
    simp only [] at hs
    split at hs
    · simp [blockedWith] at hs
    · rename_i c2
      split at hs
      · simp [blockedWith] at hs
      · rename_i c3
        split at hs
        · simp [blockedWith] at hs
        · rename_i c4
          split at hs
          · simp [blockedWith] at hs
          · rename_i c5
            split at hs
            · simp [blockedWith] at hs
            · rename_i c6
              split at hs
              · simp [blockedWith] at hs
              · rename_i c7
                split at hs
                · simp [blockedWith] at hs
                · rename_i c8
                  split at hs
                  · simp at hs
                  · rename_i m hm
                    simp only [Option.some.injEq] at hs
                    subst hs
                    refine ⟨?_, c2, ?_, ?_, ?_, ?_, ?_, ?_, hm⟩
                    · simpa using c1
                    · simpa using c3
                    · simpa using c4
                    · simpa using c5
                    · simpa using c6
                    · simpa using c7
                    · simpa using c8

theorem isFutureDate_spec (env : Env) (d : String) (h : isFutureDate env d = true) :
    ∃ t, env.dateParse d = some t ∧ localDay env env.now < localDay env t := by
  unfold isFutureDate at h
  split at h
  · simp at h
  · cases hp : env.dateParse d with
    | none => rw [hp] at h; simp at h
    | some t =>
      rw [hp] at h
      simp only [decide_eq_true_eq, setHours, msPerDay] at h
      exact ⟨t, rfl, by omega⟩

theorem edit_checks (env : Env) (s : State) (h : (validateEditModeFields env s).2 = true)
    (he : s.isEditMode = true) :
    jsTrim s.editableCustomerName ≠ "" ∧ jsTrim s.editableCustomerPhone ≠ "" ∧
    isValidPhoneNumber s.editableCustomerPhone s.selectedCountryCode = true ∧
    jsTrim s.editableCustomerEmail ≠ "" ∧ isValidEmail s.editableCustomerEmail = true := by
  have hb : ∀ k, tOr env k "This field is required" ≠ "" := fun k => tOr_ne env k _ (by decide)
  simp only [validateEditModeFields, FieldErrors.allEmpty, editModeErrors, he, if_true,
    Bool.and_eq_true, decide_eq_true_eq] at h
  obtain ⟨⟨⟨⟨⟨⟨h1, h2⟩, h3⟩, _⟩, _⟩, _⟩, _⟩ := h
  refine ⟨?_, ?_, ?_, ?_, ?_⟩
  · intro hc; rw [if_pos hc] at h1; exact hb _ h1
  · intro hc; rw [if_pos hc] at h2; exact hb _ h2
  · by_contra hv
    have hne : jsTrim s.editableCustomerPhone ≠ "" := by
      intro hc; rw [if_pos hc] at h2; exact hb _ h2
    rw [if_neg hne] at h2
    simp only [Bool.not_eq_true] at hv
    simp only [hv, Bool.not_false, if_true] at h2
    split at h2
    · exact tOr_ne env _ _ (by decide) h2
    · exact tOr_ne env _ _ (by decide) h2
  · intro hc; rw [if_pos hc] at h3; exact hb _ h3
  · by_contra hv
    have hne : jsTrim s.editableCustomerEmail ≠ "" := by
      intro hc; rw [if_pos hc] at h3; exact hb _ h3
    rw [if_neg hne] at h3
    simp only [Bool.not_eq_true] at hv
    simp only [hv, Bool.not_false, if_true] at h3
    exact tOr_ne env _ _ (by decide) h3

theorem ofInt_ne_nan (z : Int) : JNum.ofInt z ≠ .nan := by
  cases z with
  | ofNat n =>
    show JNum.ofNat n ≠ .nan
    unfold JNum.ofNat
    cases roundNat n <;> simp
  | negSucc n =>
    show (match roundNat (n + 1) with
      | some y => JNum.fin (-(y : Int))
      | none => JNum.inf true) ≠ .nan
    cases roundNat (n + 1) <;> simp

theorem total_ne_nan (a b c : Int) : ((JNum.fin a).mul (.fin b)).add (.fin c) ≠ .nan := by
  have h1 : (JNum.fin a).mul (.fin b) = JNum.ofInt (a * b) := rfl
  rw [h1]
  cases h : JNum.ofInt (a * b) with
  | nan => exact absurd h (ofInt_ne_nan _)
  | inf s => simp [JNum.add]
  | fin y => exact ofInt_ne_nan _

theorem numToString_small (n : Nat) (h : n < 2 ^ 53) :
    numToString (.fin (n : Int)) = intToString (n : Int) := by
  show String.mk (natToText n) = String.mk (natDigits n)
  unfold natToText
  rw [if_pos h]

theorem isFutureDateTime_spec (env : Env) (d tm : String) (h : isFutureDateTime env d tm = true) :
    ∃ t u, env.dateParse d = some t ∧
      setHoursAt env t (parseTime tm).1 (parseTime tm).2 = some u ∧ env.now < u := by
  unfold isFutureDateTime at h
  split at h
  · simp at h
  · cases hp : env.dateParse d with
    | none => rw [hp] at h; simp at h
    | some t =>
      rw [hp] at h
      simp only [] at h
      cases hu : setHoursAt env t (parseTime tm).1 (parseTime tm).2 with
      | none => rw [hu] at h; simp at h
      | some u =>
        rw [hu] at h
        exact ⟨t, u, rfl, hu, by simpa using h⟩

/-- What a submit that passed its time checks has established about the
stored time: it is there, its two numbers are natural numbers, the date at
that time is after now, and the total of minutes lies between 540 and 1080. -/
theorem submit_time_facts (env : Env) (s : State) (hshape : TimeShaped s)
    (hagree : TimeAgrees env s)
    (c4 : (s.selectedTime = "" && (s.selectedHour = "" || s.selectedMinute = "")) = false)
    (c5 : (strOr s.selectedTime (convert12To24Hour s.selectedHour s.selectedMinute s.selectedAmPm)
        != ""
      && !isFutureDateTime env s.selectedDate
        (strOr s.selectedTime
          (convert12To24Hour s.selectedHour s.selectedMinute s.selectedAmPm))) = false)
    (c6 : timeOutOfRange s = false) :
    s.selectedTime ≠ "" ∧
    ∃ (t : Int) (hh mm : Nat), env.dateParse s.selectedDate = some t ∧
      parseTime s.selectedTime = (.fin (hh : Int), .fin (mm : Int)) ∧
      env.now < setHours env t hh mm ∧
      9 * 60 ≤ (hh : Int) * 60 + mm ∧ (hh : Int) * 60 + mm ≤ 18 * 60 := by
  have hne : s.selectedTime ≠ "" := by
    intro he
    simp only [he, decide_True, Bool.true_and, Bool.or_eq_false_iff,
      decide_eq_false_iff_not] at c4
    have := (hagree c4.1 c4.2).1
    exact this he
  have hso : strOr s.selectedTime
      (convert12To24Hour s.selectedHour s.selectedMinute s.selectedAmPm) = s.selectedTime := by
    simp [strOr, hne]
  rw [hso] at c5
  have hfut : isFutureDateTime env s.selectedDate s.selectedTime = true := by
    simpa [hne] using c5
  obtain ⟨_, _, hs3⟩ := hshape
  rcases hs3 with hs3 | ⟨x, m, hx, hm1, hm2, hT⟩
  · exact absurd hs3 hne
  have hp := parseTime_shaped x m hx hm1 hm2
  rw [← hT] at hp
  obtain ⟨t, u, ht, hu, hnow⟩ := isFutureDateTime_spec env _ _ hfut
  rw [hp] at hu
  simp only [] at hu
  obtain ⟨hh, rfl, _⟩ : ∃ hh : Nat, x = .fin (hh : Int) ∧ roundNat hh = some hh := by
    rcases hx with rfl | rfl | h
    · cases hu
    · cases hu
    · exact h
  obtain ⟨mm, hmm, _⟩ : ∃ mm : Nat, JNum.ofNat (digitsToNat m.data) = .fin (mm : Int) ∧
      roundNat mm = some mm := by
    rcases ofNat_nonneg (digitsToNat m.data) with h | h | h
    · rw [h] at hu; cases hu
    · rw [h] at hu; cases hu
    · exact h
  rw [hmm] at hp hu
  have htot : totalMinutes s.selectedTime
      = ((JNum.fin (hh : Int)).mul (.fin 60)).add (.fin (mm : Int)) := by
    unfold totalMinutes
    rw [hp]
  have hnn := total_ne_nan (hh : Int) 60 (mm : Int)
  have hrange : JNum.lt (totalMinutes s.selectedTime) (.fin (9 * 60)) = false ∧
      JNum.lt (.fin (18 * 60)) (totalMinutes s.selectedTime) = false := by
    unfold timeOutOfRange at c6
    split at c6
    · rename_i h1
      simp only [bne_iff_ne, ne_eq, Bool.and_eq_true, decide_eq_true_eq] at h1
      rcases (hagree h1.1 h1.2).2 with hcons | ⟨_, hrej⟩
      · simp only [Bool.not_eq_false'] at c6
        unfold isTimeInAllowedRange at c6
        rw [← hcons] at c6
        simp only [h1.1, h1.2, decide_False, Bool.or_self, Bool.false_eq_true, if_false, hne,
          Bool.and_eq_true] at c6
        rw [htot] at c6 ⊢
        rw [le_of_not_lt _ _ (by simp) hnn, le_of_not_lt _ _ hnn (by simp)] at c6
        simpa using c6
      · rw [hrej] at hfut
        cases hfut
    · simp only [bne_iff_ne, ne_eq, hne, not_false_eq_true, if_true, Bool.or_eq_false_iff] at c6
      exact c6
  rw [htot] at hrange
  obtain ⟨_, hlo, hhi⟩ := total_exact hh mm hrange.1 hrange.2
  have hh18 : hh ≤ 18 := by omega
  have hm1080 : mm ≤ 1080 := by omega
  have hu' := setHoursAt_small env t u hh mm (env.dateParseClipped _ t ht) hh18 hm1080 hu
  rw [hu'] at hnow
  exact ⟨hne, t, hh, mm, ht, hp, hnow, hlo, hhi⟩

theorem timeLabel_of_parse (s : State) (hh mm : Nat) (hne : s.selectedTime ≠ "")
    (hp : parseTime s.selectedTime = (.fin (hh : Int), .fin (mm : Int)))
    (h1 : hh < 2 ^ 53) (h2 : mm < 2 ^ 53) :
    timeLabel s = intToString (if (hh : Int) > 12 then (hh : Int) - 12
        else if (hh : Int) = 0 then 12 else (hh : Int))
      ++ ":" ++ padStart2 (intToString (mm : Int)) ++ " "
      ++ (if (hh : Int) ≥ 12 then "PM" else "AM") := by
  have h53 : (2 : Nat) ^ 53 = 9007199254740992 := by norm_num
  rw [h53] at h1 h2
  simp only [timeLabel, bne_iff_ne, ne_eq, hne, not_false_eq_true, if_true, hp]
  rw [numToString_small mm (by omega)]
  have hle : JNum.le (.fin 12) (.fin (hh : Int)) = decide ((hh : Int) ≥ 12) := by
    show (!decide ((hh : Int) < 12)) = decide ((hh : Int) ≥ 12)
    by_cases c : (hh : Int) < 12
    · have c' : ¬ (hh : Int) ≥ 12 := by omega
      rw [decide_eq_true c, decide_eq_false c']
      rfl
    · have c' : (hh : Int) ≥ 12 := by omega
      rw [decide_eq_false c, decide_eq_true c']
      rfl
  have hlt : JNum.lt (.fin 12) (.fin (hh : Int)) = decide ((hh : Int) > 12) := rfl
  rw [hle, hlt]
  by_cases c1 : (hh : Int) > 12
  · have hsub : (JNum.fin (hh : Int)).sub (.fin 12) = .fin (((hh - 12 : Nat) : Nat) : Int) := by
      have : ((hh - 12 : Nat) : Int) = (hh : Int) + -12 := by omega
      rw [this]
      exact sub_exact _ _ (by omega) (by omega)
    have hge : (hh : Int) ≥ 12 := by omega
    simp only [c1, decide_True, if_true, hge, hsub]
    rw [numToString_small (hh - 12) (by omega)]
    have : ((hh - 12 : Nat) : Int) = (hh : Int) - 12 := by omega
    rw [this]
  · by_cases c2 : (hh : Int) = 0
    · have hz : hh = 0 := by omega
      subst hz
      rfl
    · have heq : (JNum.fin (hh : Int) == JNum.fin 0) = false := by
        simp [c2]
      simp only [c1, decide_False, Bool.false_eq_true, if_false, heq, c2]
      rw [numToString_small hh (by omega)]
      simp only [decide_eq_true_eq]

/-- The state the response handler has reached when it evaluates the
first-message test. -/
theorem handleResponse_cases (env : Env) (s : State) (f : Bool) (data : JVal) :
    ((handleResponse env s f data).threw = true ∧ (handleResponse env s f data).hostCalls = [] ∧
      (handleResponse env s f data).st.confirmation = s.confirmation ∧
      (handleResponse env s f data).st.messages = s.messages ∧
      (handleResponse env s f data).st.isTyping = s.isTyping) ∨
    (∃ shown s2, htmlSummaryShown ((responseDetails data).get "html_summary")
        ((responseDetails data).get "intent") = some shown ∧
      s2.confirmation = s.confirmation ∧ s2.messages = s.messages ∧
      handleResponse env s f data = finishResponse env s2 f data (responseDetails data) shown) := by
  unfold handleResponse
  by_cases hn : data.isNullish = true
  · left; simp [hn]
  · rw [if_neg hn]
    dsimp only
    split
    · left
      exact ⟨rfl, rfl, (store_frame _ _ _).2.2.2, (store_frame _ _ _).2.2.1, (store_frame _ _ _).2.1⟩
    · split
      · left
        exact ⟨rfl, rfl, (store_frame _ _ _).2.2.2, (store_frame _ _ _).2.2.1,
          (store_frame _ _ _).2.1⟩
      · rename_i shown ho
        right
        exact ⟨shown,
          (storeAppointmentDetails
            { s with
              needsConfirmation := ((responseDetails data).get "intent").isStr "confirm_appointment" }
            (responseDetails data)
            (((responseDetails data).get "intent").isStr "confirm_appointment")).1,
          ho, (store_frame _ _ _).2.2.2, (store_frame _ _ _).2.2.1, rfl⟩

theorem finishResponse_messages (env : Env) (s : State) (f : Bool) (data ad : JVal) (shown : Bool) :
    (finishResponse env s f data ad shown).st.messages =
      s.messages ++ newBotMessages env f data (ad.get "html_summary") (ad.get "intent") shown := by
  unfold finishResponse
  simp only []
  split <;> split <;> rfl

theorem finishResponse_booking (env : Env) (s : State) (f : Bool) (data ad : JVal) (shown : Bool) :
    ((ad.get "intent").isStr "booking_confirmed" = true ∧ (ad.get "appointment_id").truthy = true →
      (finishResponse env s f data ad shown).hostCalls
          = (if env.hasOnAppointmentCreated then [ad] else []) ∧
        (finishResponse env s f data ad shown).st.confirmation = true ∧
        (finishResponse env s f data ad shown).st.needsConfirmation = false) ∧
    (¬((ad.get "intent").isStr "booking_confirmed" = true ∧ (ad.get "appointment_id").truthy = true) →
      (finishResponse env s f data ad shown).hostCalls = [] ∧
        (finishResponse env s f data ad shown).st.confirmation = s.confirmation) := by
  unfold finishResponse
  simp only []
  constructor
  · intro h
    simp [h.1, h.2]
  · intro h
    have hc : ((ad.get "intent").isStr "booking_confirmed" && (ad.get "appointment_id").truthy) = false := by
      cases h1 : (ad.get "intent").isStr "booking_confirmed" <;>
        cases h2 : (ad.get "appointment_id").truthy <;> simp_all
    simp only [hc, Bool.false_eq_true, if_false]
    split <;> simp

theorem finishResponse_snapshot (env : Env) (s : State) (f : Bool) (data ad : JVal) (shown : Bool) :
    (finishResponse env s f data ad shown).st.currentAppointmentDetails
        = s.currentAppointmentDetails ∧
    (finishResponse env s f data ad shown).st.savedAddressDetails = s.savedAddressDetails := by
  unfold finishResponse
  simp only []
  split <;> split <;> exact ⟨rfl, rfl⟩

theorem store_snapshot (s : State) (ad : JVal) (r : Bool) :
    (storeAppointmentDetails s ad r).1.currentAppointmentDetails
        = (if ad.truthy && ad.hasKeys then ad else s.currentAppointmentDetails) ∧
    ((ad.truthy && ad.hasKeys) = false →
      (storeAppointmentDetails s ad r).1.savedAddressDetails = s.savedAddressDetails) := by
  unfold storeAppointmentDetails
  simp only []
  split
  · rename_i h1
    refine ⟨?_, fun h => by rw [h] at h1; cases h1⟩
    split
    · split <;> rfl
    · split
      · split <;> rfl
      · split <;> split <;> rfl
  · exact ⟨rfl, fun _ => rfl⟩

theorem handleResponse_snapshot (env : Env) (s : State) (f : Bool) (data : JVal)
    (hn : data.isNullish = false) :
    (handleResponse env s f data).st.currentAppointmentDetails
        = (if (responseDetails data).truthy && (responseDetails data).hasKeys
           then responseDetails data else s.currentAppointmentDetails) ∧
    (((responseDetails data).truthy && (responseDetails data).hasKeys) = false →
      (handleResponse env s f data).st.savedAddressDetails = s.savedAddressDetails) := by
  unfold handleResponse
  rw [if_neg (by simp [hn])]
  dsimp only
  split
  · exact store_snapshot _ _ _
  · split
    · exact store_snapshot _ _ _
    · rw [(finishResponse_snapshot _ _ _ _ _ _).1, (finishResponse_snapshot _ _ _ _ _ _).2]
      exact store_snapshot _ _ _

theorem get_of_not_truthy (v : JVal) (k : String) (h : v.truthy = false) : v.get k = .undefined := by
  cases v <;> simp_all [JVal.get, JVal.truthy]

theorem jsTrim_empty : jsTrim "" = "" := by decide

theorem isAddressMissing_eq (d : JVal) :
    isAddressMissing d = missingFromFields (customerField d "address")
      (customerField d "latitude") (customerField d "longitude") := by
  unfold isAddressMissing customerField
  by_cases h1 : d.truthy = true
  · by_cases h2 : (d.get "customer").truthy = true
    · simp only [h1, h2, Bool.not_true, Bool.false_eq_true, if_false]
      unfold missingFromFields
      cases ha : (d.get "customer").get "address" with
      | str a =>
        by_cases hz : a = ""
        · subst hz
          cases hla : (d.get "customer").get "latitude" <;>
            cases hlo : (d.get "customer").get "longitude" <;>
            simp [JVal.truthy, JVal.isNullish, jsTrim_empty]
        · have hb : (jsTrim a != "") = !decide (jsTrim a = "") := by
            by_cases ht : jsTrim a = "" <;> simp [ht]
          cases hla : (d.get "customer").get "latitude" <;>
            cases hlo : (d.get "customer").get "longitude" <;>
            simp [JVal.truthy, JVal.isNullish, hz, hb]
      | undefined => simp [JVal.truthy]
      | null => simp [JVal.truthy]
      | bool b => cases b <;> simp [JVal.truthy]
      | num n =>
        by_cases hz : n = 0
        · simp [JVal.truthy, hz]
        · simp [JVal.truthy, hz]
      | arr xs => simp [JVal.truthy]
      | obj kvs => simp [JVal.truthy]
    · simp only [Bool.not_eq_true] at h2
      simp [h1, h2, get_of_not_truthy _ _ h2, missingFromFields, JVal.truthy]
  · simp only [Bool.not_eq_true] at h1
    have hg : (d.get "customer") = .undefined := get_of_not_truthy _ _ h1
    have hg2 : ∀ k, (JVal.undefined).get k = .undefined := fun k => rfl
    simp only [h1, hg, hg2, Bool.not_false, if_true]
    rfl

theorem sendState_messages (env : Env) (s : State) (text : String) :
    (sendState env s text false).messages = s.messages ++ [⟨.user, .str text, false, .undefined⟩] := by
  unfold sendState
  simp
  split <;> rfl

theorem sendState_confirmation (env : Env) (s : State) (text : String) (i : Bool) :
    (sendState env s text i).confirmation = s.confirmation := by
  unfold sendState
  cases i <;> simp <;> split <;> rfl

theorem sendMessage_confirmation (env : Env) (s : State) (m : Option String) (i a : Bool) :
    (sendMessage env s m i a).1.confirmation = s.confirmation := by
  cases he : sendReturnsEarly s m i with
  | true => rw [sendMessage_early _ _ _ _ _ he]
  | false => rw [sendMessage_sent _ _ _ _ _ he]; exact sendState_confirmation _ _ _ _

theorem finishResponse_confirmation (env : Env) (s : State) (f : Bool) (data ad : JVal)
    (shown : Bool) :
    (finishResponse env s f data ad shown).st.confirmation = true ∨
      (finishResponse env s f data ad shown).st.confirmation = s.confirmation := by
  unfold finishResponse
  simp only []
  split
  · left; rfl
  · right; split <;> rfl

theorem handleResponse_confirmation (env : Env) (s : State) (f : Bool) (data : JVal) :
    (handleResponse env s f data).st.confirmation = true ∨
      (handleResponse env s f data).st.confirmation = s.confirmation := by
  rcases handleResponse_cases env s f data with hc | ⟨shown, s2, _, hcf, _, he⟩
  · exact Or.inr hc.2.2.1
  · rw [he]
    rcases finishResponse_confirmation env s2 f data (responseDetails data) shown with h | h
    · exact Or.inl h
    · exact Or.inr (h.trans hcf)

theorem updateTime_confirmation (env : Env) (h m a : String) (s : State) :
    (updateTimeFrom12Hour env h m a s).confirmation = s.confirmation := by
  unfold updateTimeFrom12Hour
  split <;> rfl

theorem commit_confirmation (env : Env) (lat lng label : JVal) (v : Fetched) (s : State) :
    (commitIfViable env lat lng label v s).confirmation = s.confirmation := by
  have hv : (checkAddressViability env v s).1.confirmation = s.confirmation := by
    unfold checkAddressViability
    cases v with
    | failed => rfl
    | body d =>
      simp only []
      split
      · rfl
      · split <;> rfl
  unfold commitIfViable
  split <;> exact hv

theorem storeCityState_confirmation (f : JVal) (s : State) :
    (storeCityState f s).confirmation = s.confirmation := by
  unfold storeCityState
  simp only []
  split <;> split <;> rfl

theorem submit_confirmation (env : Env) (s : State) :
    (submitAppointmentBooking env s).st.confirmation = s.confirmation := by
  have hs0 : (if s.isEditMode then (validateEditModeFields env s).1 else s).confirmation
      = s.confirmation := by
    split <;> rfl
  unfold submitAppointmentBooking
  simp only [blockedWith]
  split
  · rfl
  · split
    · exact hs0
    · split
      · exact hs0
      · split
        · exact hs0
        · split
          · exact hs0
          · split
            · exact hs0
            · split
              · exact hs0
              · split
                · exact hs0
                · split
                  · exact hs0
                  · simp only [sendMessage_confirmation]
                    exact hs0

theorem act_confirmation (env : Env) (s : State) (a : Action) (ha : a.isStartNew = false)
    (hc : s.confirmation = true) : (act env s a).confirmation = true := by
  cases a with
  | send m i ad => simp only [act, sendMessage_confirmation, hc]
  | respond f data =>
    rcases handleResponse_confirmation env s f data with h | h
    · exact h
    · exact h.trans hc
  | fail => exact hc
  | startNew minDate => simp [Action.isStartNew] at ha
  | hour v => simp only [act, selectHour, updateTime_confirmation, hc]
  | minute v => simp only [act, selectMinute, updateTime_confirmation, hc]
  | amPm v =>
    simp only [act, selectAmPm]
    split
    · simp only [updateTime_confirmation, hc]
    · exact hc
  | openEditTime =>
    simp only [act, openEditTime]
    split
    · split
      · exact hc
      · exact hc
    · exact hc
  | openEditAddress =>
    simp only [act, openEditAddress]
    split <;> exact hc
  | closeForm => exact hc
  | submitForm => simp only [act, submit_confirmation, hc]
  | resetForm => exact hc
  | validate => exact hc
  | submitAddress =>
    simp only [act, submitAddressFromMap]
    split
    · exact hc
    · simp only [sendMessage_confirmation, hc]
  | finishAddress => exact hc
  | closeMap => exact hc
  | mapPoint lat lng geo viability =>
    simp only [act, reverseGeocodeAppointment]
    cases geo with
    | raised => simp only [commit_confirmation, hc]
    | noFeature => simp only [commit_confirmation, hc]
    | feature f =>
      simp only []
      split
      · simp only [commit_confirmation, hc]
      · simp only [commit_confirmation, storeCityState_confirmation, hc]
  | searchBox result viability =>
    simp only [act, handleSearchBoxRetrieve]
    split
    · exact hc
    · simp only [commit_confirmation, storeCityState_confirmation, hc]
  | syncAddress => exact hc
  | leadPrefill lead =>
    simp only [act, leadAddressPrefill]
    split
    · exact hc
    · split <;> exact hc
  | confirmBooking english => simp only [act, handleConfirmBooking, sendMessage_confirmation, hc]
  | cancelBooking => simp only [act, handleCancelBooking, sendMessage_confirmation, hc]
  | closeConfirmation => exact hc
  | other handler frame => exact (frame s).trans hc

theorem runActions_confirmation (env : Env) (acts : List Action) (s : State)
    (ha : ∀ a ∈ acts, a.isStartNew = false) (hc : s.confirmation = true) :
    (runActions env s acts).confirmation = true := by
  induction acts generalizing s with
  | nil => exact hc
  | cons a rest ih =>
    simp only [runActions, List.foldl_cons]
    exact ih _ (fun b hb => ha b (List.mem_cons_of_mem _ hb))
      (act_confirmation env s a (ha a (List.mem_cons_self _ _)) hc)

theorem handleResponse_raised (env : Env) (s : State) (f : Bool) (data : JVal)
    (h : responseRaises data = true) :
    (handleResponse env s f data).threw = true ∧ (handleResponse env s f data).hostCalls = [] ∧
    (handleResponse env s f data).st.confirmation = s.confirmation := by
  rcases handleResponse_cases env s f data with hc | ⟨shown, s2, _, hcf, _, he⟩
  · exact ⟨hc.1, hc.2.1, hc.2.2.1⟩
  · have := handleResponse_threw env s f data
    rw [h, he] at this
    have h2 := (finishResponse_facts env s2 f data (responseDetails data) shown).1
    rw [h2] at this
    cases this

/-! ## The claims -/

/-- Claim C1: the code does not do this for every sequence. A response whose
`html_summary` is a number makes the response handler raise before it stores
the `session_id` the response carries (the defect of claim C6); the typing flag
then stays set, later non-initialization sends are dropped, and an
initialization send carries the old token: in the conversation of the
examples the last request carries the empty string, not `s-2`.  In every
conversation without an initialization send, and in every conversation in
which no response handler raises, each request carries the `session_id` of the
most recent earlier response that supplied a truthy one (the empty string if
none did); a response without `session_id` leaves the stored token unchanged;
a response processed to its end with a truthy `session_id` stores it, and the
next send with a text issues a request that carries it. -/
theorem session_token_lost_after_raise :
    exampleNumericSummary.get "session_id" = .str "s-2" ∧
    (∃ q1 q2, (run exampleEnv (initSys exampleEnv none) exampleRaiseThenInit).log
        = [.request q1, .responded exampleNumericSummary, .request q2] ∧
      q2.session_id = .str "") ∧
    ¬ RequestsEchoToken (run exampleEnv (initSys exampleEnv none) exampleRaiseThenInit).log ∧
    (sendMessage exampleEnv
      (run exampleEnv (initSys exampleEnv none)
        [.send (some "hello") false false, .deliver 0 exampleNumericSummary]).st
      (some "again") false false).2 = none ∧
    (∀ (env : Env) (chatbotId : Option String) (evs : List Event),
      ((∀ e ∈ evs, e.isInitSend = false) ∨ (∀ e ∈ evs, e.deliversRaising = false)) →
      RequestsEchoToken (run env (initSys env chatbotId) evs).log) ∧
    (∀ (env : Env) (s : State) (f : Bool) (data : JVal), (data.get "session_id").truthy = false →
      (handleResponse env s f data).st.sessionId = s.sessionId) ∧
    (∀ (env : Env) (s : State) (f : Bool) (data : JVal) (text : String) (a : Bool),
      responseRaises data = false → (data.get "session_id").truthy = true →
      (handleResponse env s f data).st.sessionId = data.get "session_id" ∧
      (text ≠ "" →
        ∃ q, (sendMessage env (handleResponse env s f data).st (some text) false a).2 = some q ∧
          q.session_id = data.get "session_id" ∧ q.message = text)) ∧
    (∃ q1 q2, (run exampleEnv (initSys exampleEnv none) exampleEvents).log
        = [.request q1, .responded (.obj [("response", .str "Sure"), ("session_id", .str "s-1")]),
            .request q2] ∧
      q2.session_id = .str "s-1") := by
  refine ⟨rfl, ⟨_, _, rfl, rfl⟩, ?_, rfl, ?_, ?_, ?_, ⟨_, _, rfl, rfl⟩⟩
  · intro h
    have h1 := h [.request ⟨"hello", .str "", exampleEnv.timezone, none, none⟩,
      .responded exampleNumericSummary] ⟨"", .str "", exampleEnv.timezone, none, none⟩ [] rfl
    have h2 : lastToken [.request ⟨"hello", .str "", exampleEnv.timezone, none, none⟩,
      .responded exampleNumericSummary] = .str "s-2" := rfl
    rw [h2] at h1
    simp at h1
  · intro env chatbotId evs h
    rcases h with h | h
    · have h0 : SyncedOrStuck (initSys env chatbotId) :=
        ⟨requestsEchoToken_nil, Or.inl ⟨rfl, by simp [initSys], fun hx => absurd rfl hx⟩⟩
      exact (run_syncedOrStuck env evs _ h0 h).1
    · have h0 : Synced (initSys env chatbotId) := ⟨requestsEchoToken_nil, rfl⟩
      exact (run_synced env evs _ h0 h).1
  · intro env s f data hd
    exact handleResponse_keeps_token env s f data hd
  · intro env s f data text a hr ht
    have hc := handleResponse_complete env s f data hr
    have hs : (handleResponse env s f data).st.sessionId = data.get "session_id" := by
      rw [hc.1]
      simp [nextToken, ht]
    refine ⟨hs, fun hne => ?_⟩
    have he : sendReturnsEarly (handleResponse env s f data).st (some text) false = false := by
      simp [sendReturnsEarly, messageToSend, hne, hc.2]
    rw [sendMessage_sent env _ _ _ a he]
    exact ⟨_, rfl, hs, rfl⟩

/-- Claim C2. A non-initialization call of `sendMessage` made while a reply is
awaited, or whose text to send is empty, changes no state field and issues no
request. -/
theorem send_guard_is_noop (env : Env) (s : State) (initialMessage : Option String)
    (isAddressUpdate : Bool)
    (h : s.isTyping = true ∨ messageToSend s initialMessage = "") :
    sendMessage env s initialMessage false isAddressUpdate = (s, none) := by
  apply sendMessage_early
  rcases h with h | h <;> simp [sendReturnsEarly, h]

/-- Witness for C2: a send while the reply to an earlier one is awaited. -/
theorem send_guard_is_noop_witness :
    exampleAwaiting.isTyping = true ∧
    sendMessage exampleEnv exampleAwaiting (some "again") false true = (exampleAwaiting, none) :=
  ⟨by decide, send_guard_is_noop exampleEnv exampleAwaiting (some "again") true (Or.inl (by decide))⟩

/-- Claim C3, as stated, fails: for an initialization call answered by a
payload without response text, the first bot message carries the greeting,
not the "something went wrong" string. -/
theorem first_message_fallback_counterexample :
    ¬ FirstMessageAsSpecified exampleEnv (initialState exampleEnv none) true (.obj []) := by
  intro h
  unfold FirstMessageAsSpecified at h
  have h2 := congrArg (fun o => o.map (fun m => m.text.toStr)) h
  revert h2
  decide

/-- Claim C3, amended. For every payload on which the response handler does
not raise, the first bot message appended is the summary as structured content
when `html_summary` is a string, non-empty after trimming, not the text `null`,
and the intent is not `error`; otherwise it is a plain message whose text is
the response text or, when there is none, the greeting for an initialization
call and the "something went wrong" string for any other call. -/
theorem first_bot_message (env : Env) (s : State) (isInitialization : Bool) (data : JVal)
    (h : responseRaises data = false) :
    (appended s (handleResponse env s isInitialization data).st).head? =
      some (specFirstMessage
        (if isInitialization then env.t "chatbot.greeting"
         else env.t "chatbot.somethingWentWrong") data) := by
  rcases handleResponse_cases env s isInitialization data with hc | ⟨shown, s2, ho, _, hm, he⟩
  · have := handleResponse_threw env s isInitialization data
    rw [hc.1, h] at this
    cases this
  · rw [he]
    unfold appended
    rw [finishResponse_messages, hm, List.drop_left]
    unfold specFirstMessage
    cases hv : (responseDetails data).get "html_summary" with
    | undefined =>
      rw [hv] at ho
      simp only [htmlSummaryShown, Option.some.injEq] at ho
      subst ho
      cases isInitialization <;> simp [newBotMessages] <;> split <;> rfl
    | null =>
      rw [hv] at ho
      simp only [htmlSummaryShown, Option.some.injEq] at ho
      subst ho
      cases isInitialization <;> simp [newBotMessages] <;> split <;> rfl
    | str summary =>
      rw [hv] at ho
      simp only [htmlSummaryShown, Option.some.injEq] at ho
      subst ho
      by_cases h1 : jsTrim summary = "" <;> by_cases h2 : summary = "null" <;>
        cases h3 : ((responseDetails data).get "intent").isStr "error" <;>
        cases isInitialization <;>
        simp [newBotMessages, h1, h2, h3] <;> split <;> rfl
    | bool b => rw [hv] at ho; simp [htmlSummaryShown] at ho
    | num n => rw [hv] at ho; simp [htmlSummaryShown] at ho
    | arr xs => rw [hv] at ho; simp [htmlSummaryShown] at ho
    | obj kvs => rw [hv] at ho; simp [htmlSummaryShown] at ho

/-- Witness for C3: an initialization call answered by an empty object gets
the greeting as its plain first message. -/
theorem first_bot_message_witness :
    responseRaises (.obj []) = false ∧
    (appended (initialState exampleEnv none)
        (handleResponse exampleEnv (initialState exampleEnv none) true (.obj [])).st).head? =
      some (specFirstMessage "chatbot.greeting" (.obj [])) :=
  ⟨by decide, first_bot_message exampleEnv (initialState exampleEnv none) true (.obj []) (by decide)⟩

/-- Claim C4: the code does not do this for every parsed response. A
response with intent `booking_confirmed`, a truthy `appointment_id` and a
numeric `html_summary` makes the response handler raise before it reaches the
booking-confirmed block (the defect of claim C6): the host callback is not
called and `confirmation` keeps its value.  For every response on which the
handler does not raise: when the intent is `booking_confirmed` and
`appointment_id` is truthy the host callback (when the host passed one) is
called exactly once, with the response's appointment details, and the widget
is left confirmed; for every response at all, when either condition fails the
callback is not called and `confirmation` is unchanged. -/
theorem booking_confirmed_lost_on_raise (env : Env) (s : State) (isInitialization : Bool) :
    (((responseDetails exampleConfirmedNumeric).get "intent").isStr "booking_confirmed" = true ∧
      ((responseDetails exampleConfirmedNumeric).get "appointment_id").truthy = true) ∧
    ((handleResponse env s isInitialization exampleConfirmedNumeric).threw = true ∧
      (handleResponse env s isInitialization exampleConfirmedNumeric).hostCalls = [] ∧
      (handleResponse env s isInitialization exampleConfirmedNumeric).st.confirmation
        = s.confirmation) ∧
    (exampleEnv.hasOnAppointmentCreated = true ∧
      (handleResponse exampleEnv exampleAwaiting false exampleConfirmedNumeric).st.confirmation
        = false) ∧
    (∀ data : JVal,
      (((responseDetails data).get "intent").isStr "booking_confirmed" = true ∧
          ((responseDetails data).get "appointment_id").truthy = true →
        responseRaises data = false →
        (handleResponse env s isInitialization data).hostCalls
            = (if env.hasOnAppointmentCreated then [responseDetails data] else []) ∧
          (handleResponse env s isInitialization data).st.confirmation = true ∧
          (handleResponse env s isInitialization data).st.needsConfirmation = false) ∧
      (¬(((responseDetails data).get "intent").isStr "booking_confirmed" = true ∧
            ((responseDetails data).get "appointment_id").truthy = true) →
        (handleResponse env s isInitialization data).hostCalls = [] ∧
          (handleResponse env s isInitialization data).st.confirmation = s.confirmation)) ∧
    ((handleResponse exampleEnv exampleAwaiting false exampleConfirmed).hostCalls
        = [responseDetails exampleConfirmed] ∧
      (handleResponse exampleEnv exampleAwaiting false exampleConfirmed).st.confirmation = true ∧
      (handleResponse exampleEnv exampleAwaiting false exampleConfirmed).st.needsConfirmation
        = false) := by
  refine ⟨by decide, handleResponse_raised env s isInitialization _ (by decide),
    ⟨rfl, by decide⟩, ?_, ⟨rfl, by decide, by decide⟩⟩
  intro data
  rcases handleResponse_cases env s isInitialization data with hc | ⟨shown, s2, _, hcf, _, he⟩
  · constructor
    · intro _ hr
      have := handleResponse_threw env s isInitialization data
      rw [hc.1, hr] at this
      cases this
    · intro _
      exact ⟨hc.2.1, hc.2.2.1⟩
  · rw [he]
    constructor
    · intro hb _
      exact (finishResponse_booking env s2 isInitialization data (responseDetails data) shown).1 hb
    · intro hb
      have := (finishResponse_booking env s2 isInitialization data (responseDetails data) shown).2 hb
      exact ⟨this.1, by rw [this.2, hcf]⟩

/-- Claim C5, as stated, fails: in the state reached after a confirming
response, with no new conversation started, a `sendMessage` call with a text
appends the user message and issues a request. -/
theorem send_after_confirmation_counterexample :
    exampleConfirmedState.confirmation = true ∧
    (sendMessage exampleEnv exampleConfirmedState (some "hola") false false).2.isSome = true ∧
    (sendMessage exampleEnv exampleConfirmedState (some "hola") false false).1.messages.length
      = exampleConfirmedState.messages.length + 1 := by
  decide

/-- Claim C5, amended. After a response with intent `booking_confirmed` and a
truthy `appointment_id` has been processed to its end, `confirmation` is true,
and it stays true through every sequence of handler runs that has no run of
`startNewConversation`; in each of these states the input area shows only the
start-new-conversation action, and a run of `startNewConversation` brings the
text box back.  `sendMessage` itself does not read `confirmation`: in each of
these states a call issues no request exactly when it is a non-initialization
call whose text is empty or that is made while a reply is awaited, and any
other non-initialization call appends the user message and issues a request
with that text. -/
theorem confirmed_state_blocks_input_area (env : Env) (s0 : State) (isInitialization : Bool)
    (data : JVal) (acts : List Action)
    (hi : ((responseDetails data).get "intent").isStr "booking_confirmed" = true)
    (ha : ((responseDetails data).get "appointment_id").truthy = true)
    (hr : responseRaises data = false)
    (hn : ∀ a ∈ acts, a.isStartNew = false) :
    (runActions env (handleResponse env s0 isInitialization data).st acts).confirmation = true ∧
    inputArea (runActions env (handleResponse env s0 isInitialization data).st acts)
      = .startNewConversationButton ∧
    (∀ minDate,
      inputArea (act env (runActions env (handleResponse env s0 isInitialization data).st acts)
        (.startNew minDate)) = .textBoxAndSend) ∧
    (∀ (initialMessage : Option String) (isInit isAddressUpdate : Bool),
      (sendMessage env (runActions env (handleResponse env s0 isInitialization data).st acts)
          initialMessage isInit isAddressUpdate).2 = none ↔
        (isInit = false ∧
          (messageToSend (runActions env (handleResponse env s0 isInitialization data).st acts)
              initialMessage = "" ∨
            (runActions env (handleResponse env s0 isInitialization data).st acts).isTyping
              = true))) ∧
    (∀ (text : String) (isAddressUpdate : Bool), text ≠ "" →
      (runActions env (handleResponse env s0 isInitialization data).st acts).isTyping = false →
      (sendMessage env (runActions env (handleResponse env s0 isInitialization data).st acts)
          (some text) false isAddressUpdate).1.messages
        = (runActions env (handleResponse env s0 isInitialization data).st acts).messages
          ++ [⟨.user, .str text, false, .undefined⟩] ∧
      ∃ q, (sendMessage env (runActions env (handleResponse env s0 isInitialization data).st acts)
          (some text) false isAddressUpdate).2 = some q ∧ q.message = text) := by
  have hc0 : (handleResponse env s0 isInitialization data).st.confirmation = true := by
    rcases handleResponse_cases env s0 isInitialization data with hc | ⟨shown, s2, _, hcf, _, he⟩
    · have := handleResponse_threw env s0 isInitialization data
      rw [hc.1, hr] at this
      cases this
    · rw [he]
      exact ((finishResponse_booking env s2 isInitialization data (responseDetails data)
        shown).1 ⟨hi, ha⟩).2.1
  have hc := runActions_confirmation env acts _ hn hc0
  generalize runActions env (handleResponse env s0 isInitialization data).st acts = s at hc ⊢
  refine ⟨hc, ?_, ?_, ?_, ?_⟩
  · simp [inputArea, hc]
  · intro minDate
    simp [act, inputArea, startNewConversation]
  · intro m i a
    cases he : sendReturnsEarly s m i with
    | true =>
      rw [sendMessage_early env s m i a he]
      simp only [sendReturnsEarly, Bool.and_eq_true, Bool.not_eq_true', Bool.or_eq_true,
        decide_eq_true_eq] at he
      simpa using he
    | false =>
      rw [sendMessage_sent env s m i a he]
      simp only [sendReturnsEarly] at he
      cases i <;> simp_all
  · intro text a hne ht
    have he : sendReturnsEarly s (some text) false = false := by
      simp [sendReturnsEarly, messageToSend, hne, ht]
    rw [sendMessage_sent env s _ _ a he]
    exact ⟨sendState_messages env s _, _, rfl, rfl⟩

/-- Witness for C5: after the confirming response of the examples, a send
from the form, closing the dialog and a further response leave the input area
with the start-new-conversation action only. -/
theorem confirmed_state_blocks_input_area_witness :
    ((responseDetails exampleConfirmed).get "intent").isStr "booking_confirmed" = true ∧
    responseRaises exampleConfirmed = false ∧
    (∀ a ∈ exampleAfterConfirmation, a.isStartNew = false) ∧
    (runActions exampleEnv (handleResponse exampleEnv exampleAwaiting false exampleConfirmed).st
      exampleAfterConfirmation).messages.length = 5 ∧
    inputArea (runActions exampleEnv
      (handleResponse exampleEnv exampleAwaiting false exampleConfirmed).st
      exampleAfterConfirmation) = .startNewConversationButton :=
  ⟨by decide, by decide, by decide, by decide,
    (confirmed_state_blocks_input_area exampleEnv exampleAwaiting false exampleConfirmed
      exampleAfterConfirmation (by decide) (by decide) (by decide) (by decide)).2.1⟩

/-- Claim C6: the code does not do this. A response whose `html_summary`
is a number makes the response handler raise in its timer callback, outside
the `try` of `sendMessage`: no bot message is appended and the typing flag
keeps the value it had (true while the reply was awaited). -/
theorem response_handler_raises_on_numeric_summary (env : Env) (s : State)
    (isInitialization : Bool) :
    (handleResponse env s isInitialization exampleNumericSummary).threw = true ∧
    (handleResponse env s isInitialization exampleNumericSummary).st.isTyping = s.isTyping ∧
    (handleResponse env s isInitialization exampleNumericSummary).st.messages = s.messages ∧
    exampleAwaiting.isTyping = true := by
  rcases handleResponse_cases env s isInitialization exampleNumericSummary with
    hc | ⟨shown, s2, ho, _, _, _⟩
  · exact ⟨hc.1, hc.2.2.2.2, hc.2.2.2.1, by decide⟩
  · have hn : htmlSummaryShown ((responseDetails exampleNumericSummary).get "html_summary")
        ((responseDetails exampleNumericSummary).get "intent") = none := by decide
    rw [hn] at ho
    cases ho

/-- Claim C7, as stated, fails: a response whose details carry only an intent
does not leave the merge of the old snapshot with it; the customer of the old
snapshot is gone. -/
theorem snapshot_merge_counterexample :
    ¬ MergedSnapshot examplePrevious exampleIntentOnly
        (handleResponse exampleEnv exampleWithSnapshot false
          exampleIntentOnlyResponse).st.currentAppointmentDetails := by
  intro h
  have h1 := (h "customer").2 (by decide)
  have h2 := congrArg JVal.isNullish h1
  revert h2
  decide

/-- Claim C7, amended. When a parsed response with non-empty
`appointmentDetails` is processed, the stored snapshot becomes exactly the
details of the response: every field has the value the response gives it, and
a field the response lacks is absent afterwards, whatever the previous
snapshot held. -/
theorem snapshot_replaced (env : Env) (s : State) (isInitialization : Bool) (data : JVal)
    (h : (data.get "appointmentDetails").truthy = true ∧
      (data.get "appointmentDetails").hasKeys = true) :
    (handleResponse env s isInitialization data).st.currentAppointmentDetails
        = data.get "appointmentDetails" ∧
    ∀ k, (handleResponse env s isInitialization data).st.currentAppointmentDetails.get k
        = (data.get "appointmentDetails").get k := by
  have hn : data.isNullish = false := by
    cases data <;> simp_all [JVal.get, JVal.truthy, JVal.isNullish]
  have hd : responseDetails data = data.get "appointmentDetails" := by
    simp [responseDetails, JVal.or, h.1]
  have := (handleResponse_snapshot env s isInitialization data hn).1
  rw [hd, h.1, h.2] at this
  simp only [Bool.and_self, if_true] at this
  exact ⟨this, fun k => by rw [this]⟩

/-- Witness for C7: the intent-only response replaces the stored snapshot. -/
theorem snapshot_replaced_witness :
    (handleResponse exampleEnv exampleWithSnapshot false
        exampleIntentOnlyResponse).st.currentAppointmentDetails
      = exampleIntentOnlyResponse.get "appointmentDetails" :=
  (snapshot_replaced exampleEnv exampleWithSnapshot false exampleIntentOnlyResponse
    ⟨by decide, by decide⟩).1

/-- Claim C8. When the `appointmentDetails` of a response is absent or the
empty object, the stored snapshot and the saved address details are what they
were before the response. -/
theorem empty_details_keep_snapshot (env : Env) (s : State) (isInitialization : Bool)
    (data : JVal)
    (h : data.get "appointmentDetails" = .undefined ∨ data.get "appointmentDetails" = .obj []) :
    (handleResponse env s isInitialization data).st.currentAppointmentDetails
        = s.currentAppointmentDetails ∧
    (handleResponse env s isInitialization data).st.savedAddressDetails
        = s.savedAddressDetails := by
  by_cases hn : data.isNullish = true
  · simp [handleResponse, hn]
  · simp only [Bool.not_eq_true] at hn
    have hd : responseDetails data = .obj [] := by
      rcases h with h | h <;> simp [responseDetails, JVal.or, h, JVal.truthy]
    obtain ⟨h1, h2⟩ := handleResponse_snapshot env s isInitialization data hn
    rw [hd] at h1 h2
    exact ⟨by simpa [JVal.hasKeys] using h1, h2 (by simp [JVal.hasKeys])⟩

/-- Witness for C8: a response without details leaves the stored snapshot. -/
theorem empty_details_keep_snapshot_witness :
    (handleResponse exampleEnv exampleWithSnapshot false (.obj [])).st.currentAppointmentDetails
        = exampleWithSnapshot.currentAppointmentDetails ∧
    (handleResponse exampleEnv exampleWithSnapshot false (.obj [])).st.savedAddressDetails
        = exampleWithSnapshot.savedAddressDetails :=
  empty_details_keep_snapshot exampleEnv exampleWithSnapshot false (.obj []) (Or.inl (by rfl))

/-- Claim C9, as stated, fails: an address of only white space, with both
coordinates present, is reported missing although it is neither absent, `null`
nor the empty string. -/
theorem blank_address_counterexample :
    isAddressMissing exampleBlankAddress = some true ∧
    specAddressMissing exampleBlankAddress = false := by
  decide

/-- Claim C9, amended. For details whose `customer.address` is falsy or a
string, `isAddressMissing` is true exactly when the address is blank (falsy,
or empty after trimming) or a coordinate is `null` or undefined, a missing
value or customer counting as all three absent; the result is a function of
these three fields alone, and a coordinate equal to zero counts as present. -/
theorem address_missing_characterised (d : JVal) :
    (((customerField d "address").truthy = false ∨ ∃ a, customerField d "address" = .str a) →
      isAddressMissing d = some (blankAddress (customerField d "address") ||
        (customerField d "latitude").isNullish || (customerField d "longitude").isNullish)) ∧
    (∀ d', customerField d "address" = customerField d' "address" →
      customerField d "latitude" = customerField d' "latitude" →
      customerField d "longitude" = customerField d' "longitude" →
      isAddressMissing d = isAddressMissing d') ∧
    isAddressMissing exampleZeroCoordinates = some false := by
  refine ⟨?_, ?_, by decide⟩
  · intro h
    rw [isAddressMissing_eq]
    rcases h with h | ⟨a, h⟩
    · cases hv : customerField d "address" <;> rw [hv] at h <;>
        simp_all [missingFromFields, blankAddress, JVal.truthy, jsTrim_empty]
    · rw [h]
      simp [missingFromFields, blankAddress]
  · intro d' h1 h2 h3
    rw [isAddressMissing_eq, isAddressMissing_eq, h1, h2, h3]

/-- Witness for C9: the blank-address details of the examples. -/
theorem address_missing_characterised_witness :
    isAddressMissing exampleBlankAddress
      = some (blankAddress (customerField exampleBlankAddress "address") ||
        (customerField exampleBlankAddress "latitude").isNullish ||
        (customerField exampleBlankAddress "longitude").isNullish) :=
  (address_missing_characterised exampleBlankAddress).1 (Or.inr ⟨"   ", by rfl⟩)

/-- Claim C10, as stated, fails: the time pre-fill of the edit dialog stores
the minute group of the service time as it is, so a stored `8:100 AM` gives a
reachable form whose submit passes every check (the total is 580 minutes) and
sends a message whose time line reads `8:100 AM`, which names no time between
09:00 and 18:00. -/
theorem long_minute_sent_counterexample :
    FormReachable exampleEnv exampleLongMinuteForm ∧
    exampleLongMinuteForm.selectedTime = "08:100" ∧
    timeOutOfRange exampleLongMinuteForm = false ∧
    timeLabel exampleLongMinuteForm = "8:100 AM" ∧
    (submitAppointmentBooking exampleEnv exampleLongMinuteForm).sent
      = some exampleLongMinuteMessage := by
  have h : exampleLongMinuteForm = prefillTime "8" "100" "AM" exampleLongMinuteStored := rfl
  refine ⟨?_, by decide, by decide, by decide, by rfl⟩
  rw [h]
  exact .step _ _
    (.step _ _ (.init none) (.other _ exampleLongMinuteStored rfl rfl rfl rfl))
    (.prefill _ "8" "100" "AM" (by decide) (by decide) (by decide))

/-- Claim C10, amended. From every reachable appointment-form state,
`submitAppointmentBooking` passes a message to `sendMessage` only if the
requirement is not blank; the date parses to an instant on a local day after
today (so a date read as UTC midnight of a day is a later day than today); a
time is present; the date at that time is after now; the hour and the minute
the message label is rendered from are natural numbers `h` and `m` with
`540 ≤ 60 h + m ≤ 1080`, which is a time within 09:00 to 18:00 whenever `m` is
at most 59, as it is for every time chosen with the dropdowns; both
coordinates are set; the email is blank or valid; and, in edit mode, name,
phone and email are not blank and the phone has a valid digit count. -/
theorem submit_sends_only_when_valid (env : Env) (s : State) (msg : String)
    (hr : FormReachable env s) (hs : (submitAppointmentBooking env s).sent = some msg) :
    jsTrim s.editableCustomerRequirement ≠ "" ∧
    (∃ t, env.dateParse s.selectedDate = some t ∧ localDay env env.now < localDay env t ∧
      (∀ day, t = day * msPerDay → env.tzOffsetMin < 1440 → localDay env env.now < day) ∧
      ∃ hh mm : Nat, s.selectedTime ≠ "" ∧
        parseTime s.selectedTime = (.fin (hh : Int), .fin (mm : Int)) ∧
        env.now < setHours env t hh mm ∧
        9 * 60 ≤ hh * 60 + mm ∧ hh * 60 + mm ≤ 18 * 60 ∧
        (mm ≤ 59 → 9 ≤ hh ∧ hh ≤ 18 ∧ (hh = 18 → mm = 0)) ∧
        timeLabel s = intToString (if (hh : Int) > 12 then (hh : Int) - 12
            else if (hh : Int) = 0 then 12 else (hh : Int))
          ++ ":" ++ padStart2 (intToString (mm : Int)) ++ " "
          ++ (if (hh : Int) ≥ 12 then "PM" else "AM")) ∧
    bookingMessage env s = some msg ∧
    s.appointmentLocation.lat.truthy = true ∧ s.appointmentLocation.lng.truthy = true ∧
    (jsTrim s.editableCustomerEmail = "" ∨ isValidEmail s.editableCustomerEmail = true) ∧
    (s.isEditMode = true →
      jsTrim s.editableCustomerName ≠ "" ∧ jsTrim s.editableCustomerPhone ≠ "" ∧
      isValidPhoneNumber s.editableCustomerPhone s.selectedCountryCode = true ∧
      jsTrim s.editableCustomerEmail ≠ "" ∧ isValidEmail s.editableCustomerEmail = true) := by
  obtain ⟨c1, c2, c3, c4, c5, c6, c7, c8, c9⟩ := submit_sent_checks env s msg hs
  simp only [Bool.or_eq_false_iff, decide_eq_false_iff_not, Bool.not_eq_false'] at c3
  obtain ⟨t, ht, hday⟩ := isFutureDate_spec env s.selectedDate c3.2
  obtain ⟨hne, t', hh, mm, ht', hp, hnow, hlo, hhi⟩ :=
    submit_time_facts env s (formReachable_timeShaped env s hr)
      (formReachable_timeAgrees env s hr) c4 c5 c6
  rw [ht] at ht'
  cases ht'
  simp only [Bool.or_eq_false_iff, Bool.not_eq_false'] at c7
  have h53 : (2 : Nat) ^ 53 = 9007199254740992 := by norm_num
  refine ⟨c2, ⟨t, ht, hday, ?_, hh, mm, hne, hp, hnow, by omega, by omega, by omega, ?_⟩, c9,
    c7.1, c7.2, ?_, ?_⟩
  · intro day hd hoff
    subst hd
    simp only [localDay, msPerDay] at hday ⊢
    omega
  · exact timeLabel_of_parse s hh mm hne hp (by omega) (by omega)
  · by_cases he : jsTrim s.editableCustomerEmail = ""
    · exact Or.inl he
    · right
      simpa [he] using c8
  · intro he
    have hv : (validateEditModeFields env s).2 = true := by
      simpa [he] using c1
    exact edit_checks env s hv he

/-- Witness for C10: the filled form of the examples is reachable and sends. -/
theorem submit_sends_only_when_valid_witness :
    FormReachable exampleEnv exampleFormState ∧
    (submitAppointmentBooking exampleEnv exampleFormState).sent = some exampleFormMessage ∧
    jsTrim exampleFormState.editableCustomerRequirement ≠ "" ∧
    exampleFormState.appointmentLocation.lat.truthy = true :=
  have hr : FormReachable exampleEnv exampleFormState :=
    .step _ _
      (.step _ _
        (.step _ _ (.init none)
          (.other _
            { initialState exampleEnv none with
              editableCustomerRequirement := "Installation"
              selectedDate := "2026-11-07"
              appointmentLocation := ⟨.num 10, .num (-66), .str "Plaza Venezuela, Caracas"⟩ }
            rfl rfl rfl rfl))
        (.hour _ "10" (by decide)))
      (.minute _ "30" (by decide))
  have hs : (submitAppointmentBooking exampleEnv exampleFormState).sent
      = some exampleFormMessage := by rfl
  have h := submit_sends_only_when_valid exampleEnv exampleFormState exampleFormMessage hr hs
  ⟨hr, hs, h.1, h.2.2.2.1⟩

/-! ## Lemmas on the appointment form, the address handlers and the page location -/

set_option maxRecDepth 100000

set_option synthInstance.maxHeartbeats 400000

set_option synthInstance.maxSize 2048

theorem range_table : ∀ hn < 13, ∀ mn < 60, ∀ pm : Bool, 1 ≤ hn →
    isTimeInAllowedRange (padStart2 (intToString (hn : Nat))) (padStart2 (intToString (mn : Nat)))
        (if pm then "PM" else "AM") =
      decide (9 * 60 ≤ clock24Minutes hn mn pm ∧ clock24Minutes hn mn pm ≤ 18 * 60) := by
  decide

theorem sendState_showMapDialog (env : Env) (s : State) (text : String) (i : Bool)
    (h : s.showMapDialog = false) : (sendState env s text i).showMapDialog = false := by
  unfold sendState
  cases i <;> simp <;> split <;> simp [h]

theorem addressMessage_ne (env : Env) (s : State) : addressMessage env s ≠ "" := by
  intro heq
  have := congrArg String.length heq
  simp only [addressMessage, String.length_append] at this
  have h1 : ". ".length = 2 := by decide
  have h0 : "".length = 0 := by decide
  omega

theorem viability_answer (env : Env) (v : Fetched) (s s' : State) :
    (checkAddressViability env v s).2 = (checkAddressViability env v s').2 := by
  unfold checkAddressViability
  cases v with
  | failed => rfl
  | body d =>
    simp only []
    split
    · rfl
    · split <;> rfl

theorem viability_notice (env : Env) (v : Fetched) (s : State)
    (h : (checkAddressViability env v s).2 = true) :
    (checkAddressViability env v s).1.viabilityError = "" := by
  unfold checkAddressViability at h ⊢
  cases v with
  | failed => simp at h
  | body d =>
    simp only [] at h ⊢
    split
    · rename_i hn; simp [hn] at h
    · split
      · rfl
      · rename_i hn hc; simp [hn, hc] at h

theorem viability_frame (env : Env) (v : Fetched) (s : State) :
    (checkAddressViability env v s).1.appointmentSearchAddress = s.appointmentSearchAddress := by
  unfold checkAddressViability
  cases v with
  | failed => rfl
  | body d =>
    simp only []
    split
    · rfl
    · split <;> rfl

theorem commit_cleared (env : Env) (lat lng label : JVal) (v : Fetched) (s : State)
    (h : (checkAddressViability env v s).2 = false) :
    (commitIfViable env lat lng label v s).appointmentLocation = emptyLocation ∧
    (commitIfViable env lat lng label v s).editableFullAddress = "" ∧
    (commitIfViable env lat lng label v s).appointmentSearchAddress = s.appointmentSearchAddress := by
  unfold commitIfViable
  rw [h]
  simp [viability_frame]

theorem commit_stored (env : Env) (lat lng label : JVal) (v : Fetched) (s : State)
    (h : (checkAddressViability env v s).2 = true) :
    (commitIfViable env lat lng label v s).appointmentLocation = ⟨lat, lng, label⟩ ∧
    (commitIfViable env lat lng label v s).viabilityError = "" ∧
    (commitIfViable env lat lng label v s).appointmentSearchAddress = s.appointmentSearchAddress := by
  unfold commitIfViable
  rw [h]
  simp [viability_notice env v s h, viability_frame]

theorem submitDisabled_of_cleared (env : Env) (s : State)
    (h : s.appointmentLocation = emptyLocation) : submitDisabled env s = true := by
  simp [submitDisabled, h, emptyLocation, JVal.truthy]

theorem reverseGeocode_commit (env : Env) (lat lng : JVal) (geo : GeoOutcome) (v : Fetched)
    (s : State) :
    ∃ label s', (∀ w, reverseGeocodeAppointment env lat lng geo w s
        = commitIfViable env lat lng label w s') ∧
      s'.appointmentSearchAddress = label.asText := by
  unfold reverseGeocodeAppointment
  cases geo with
  | raised => exact ⟨_, _, fun w => rfl, rfl⟩
  | noFeature => exact ⟨_, _, fun w => rfl, rfl⟩
  | feature f =>
    simp only []
    split
    · exact ⟨_, _, fun w => rfl, rfl⟩
    · refine ⟨_, _, fun w => rfl, ?_⟩
      unfold storeCityState
      simp only []
      split <;> split <;> rfl

theorem searchBox_commit (env : Env) (result feature lng lat : JVal) (v : Fetched) (s : State)
    (hp : searchBoxPoint result = some (feature, lng, lat)) :
    ∃ s', handleSearchBoxRetrieve env result v s
        = commitIfViable env lat lng (featureLabel feature "") v s' ∧
      s'.appointmentSearchAddress = (featureLabel feature "").asText := by
  unfold handleSearchBoxRetrieve
  rw [hp]
  refine ⟨_, rfl, ?_⟩
  unfold storeCityState
  simp only []
  split <;> split <;> rfl

theorem mem_insertByLength (x y : CountryCode) (l : List CountryCode) :
    y ∈ insertByLength x l ↔ y = x ∨ y ∈ l := by
  induction l with
  | nil => simp [insertByLength]
  | cons z zs ih =>
    unfold insertByLength
    split
    · simp
    · simp only [List.mem_cons, ih]
      tauto

theorem mem_sortByLength (y : CountryCode) (l : List CountryCode) :
    y ∈ sortByLength l ↔ y ∈ l := by
  induction l with
  | nil => simp [sortByLength]
  | cons x xs ih => simp [sortByLength, mem_insertByLength, ih]

theorem falling_insertByLength (x : CountryCode) (l : List CountryCode) (h : FallingLength l) :
    FallingLength (insertByLength x l) := by
  induction l with
  | nil => simp [insertByLength, FallingLength]
  | cons z zs ih =>
    unfold FallingLength at h ih ⊢
    rw [List.pairwise_cons] at h
    unfold insertByLength
    split
    · rename_i hz
      rw [List.pairwise_cons]
      refine ⟨?_, List.pairwise_cons.mpr h⟩
      intro b hb
      rcases List.mem_cons.mp hb with hb | hb
      · rw [hb]; exact hz
      · exact le_trans (h.1 b hb) hz
    · rename_i hz
      rw [List.pairwise_cons]
      refine ⟨?_, ih h.2⟩
      intro b hb
      rcases (mem_insertByLength x b zs).mp hb with hb | hb
      · rw [hb]; omega
      · exact h.1 b hb

theorem falling_sortByLength (l : List CountryCode) : FallingLength (sortByLength l) := by
  induction l with
  | nil => simp [sortByLength, FallingLength]
  | cons x xs ih => exact falling_insertByLength x _ ih

theorem find_longest (p : CountryCode → Bool) (l : List CountryCode) (h : FallingLength l)
    (m : CountryCode) (hf : l.find? p = some m) :
    m ∈ l ∧ p m = true ∧ ∀ c ∈ l, p c = true → c.code.data.length ≤ m.code.data.length := by
  induction l with
  | nil => simp at hf
  | cons z zs ih =>
    unfold FallingLength at h ih
    rw [List.pairwise_cons] at h
    rw [List.find?_cons] at hf
    cases hz : p z with
    | true =>
      rw [hz] at hf
      simp only [Option.some.injEq] at hf
      subst hf
      refine ⟨List.mem_cons_self _ _, hz, ?_⟩
      intro c hc _
      rcases List.mem_cons.mp hc with hc | hc
      · rw [hc]
      · exact h.1 c hc
    | false =>
      rw [hz] at hf
      obtain ⟨h1, h2, h3⟩ := ih h.2 hf
      refine ⟨List.mem_cons_of_mem _ h1, h2, ?_⟩
      intro c hc hpc
      rcases List.mem_cons.mp hc with hc | hc
      · rw [hc, hz] at hpc; cases hpc
      · exact h3 c hc hpc

theorem detect_longest (codes : List CountryCode) (phone : String) (hp : phone ≠ "")
    (hex : ∃ c ∈ codes, c.code.data <+: phone.data) :
    ∃ m ∈ codes, m.code.data <+: phone.data ∧
      (∀ c ∈ codes, c.code.data <+: phone.data → c.code.data.length ≤ m.code.data.length) ∧
      detectCountryCodeIn codes phone =
        ⟨m.code, String.mk (trimChars (phone.data.drop m.code.data.length))⟩ := by
  obtain ⟨c, hc, hpre⟩ := hex
  cases hf : (sortByLength codes).find? (fun c => c.code.data.isPrefixOf phone.data) with
  | none =>
    rw [List.find?_eq_none] at hf
    have := hf c ((mem_sortByLength c codes).mpr hc)
    simp only [List.isPrefixOf_iff_prefix, Bool.not_eq_true, decide_eq_false_iff_not] at this
    exact absurd hpre this
  | some m =>
    obtain ⟨h1, h2, h3⟩ := find_longest _ _ (falling_sortByLength codes) m hf
    refine ⟨m, (mem_sortByLength m codes).mp h1, by simpa using h2, ?_, ?_⟩
    · intro c' hc' hp'
      exact h3 c' ((mem_sortByLength c' codes).mpr hc') (by simpa using hp')
    · simp only [detectCountryCodeIn, hp, if_false, hf]

theorem codes_prefix_free :
    ∀ a ∈ countryCodes, ∀ b ∈ countryCodes, a.code.data <+: b.code.data → a.code = b.code := by
  decide

theorem rx_nullable (r : Rx) : r.nullable = true ↔ r.Lang [] := by
  induction r with
  | none => simp [Rx.nullable, Rx.Lang]
  | eps => simp [Rx.nullable, Rx.Lang]
  | cls p => simp [Rx.nullable, Rx.Lang]
  | seq a b iha ihb =>
    simp only [Rx.nullable, Rx.Lang, Bool.and_eq_true, iha, ihb]
    constructor
    · rintro ⟨h1, h2⟩
      exact ⟨[], [], rfl, h1, h2⟩
    · rintro ⟨u, v, huv, h1, h2⟩
      have := List.append_eq_nil.mp huv.symm
      rw [this.1] at h1
      rw [this.2] at h2
      exact ⟨h1, h2⟩
  | alt a b iha ihb => simp only [Rx.nullable, Rx.Lang, Bool.or_eq_true, iha, ihb]
  | star a _ =>
    simp only [Rx.nullable, Rx.Lang, true_iff]
    exact ⟨[], rfl, by simp⟩

theorem rx_deriv (r : Rx) (c : Char) (cs : List Char) :
    (r.deriv c).Lang cs ↔ r.Lang (c :: cs) := by
  induction r generalizing cs with
  | none => simp [Rx.deriv, Rx.Lang]
  | eps => simp [Rx.deriv, Rx.Lang]
  | cls p =>
    simp only [Rx.deriv, Rx.Lang]
    by_cases hp : p c = true
    · simp only [hp, if_true, Rx.Lang]
      constructor
      · intro h
        exact ⟨c, by rw [h], hp⟩
      · rintro ⟨x, hx, _⟩
        simp only [List.cons.injEq] at hx
        exact hx.2
    · simp only [hp, Bool.false_eq_true, if_false, Rx.Lang, false_iff]
      rintro ⟨x, hx, hpx⟩
      simp only [List.cons.injEq] at hx
      rw [← hx.1] at hpx
      exact hp hpx
  | seq a b iha ihb =>
    have key : (∃ u v, cs = u ++ v ∧ (a.deriv c).Lang u ∧ b.Lang v) ∨
        (a.Lang [] ∧ b.Lang (c :: cs)) ↔ ∃ u v, c :: cs = u ++ v ∧ a.Lang u ∧ b.Lang v := by
      constructor
      · rintro (⟨u, v, huv, h1, h2⟩ | ⟨h1, h2⟩)
        · exact ⟨c :: u, v, by simp [huv], (iha u).mp h1, h2⟩
        · exact ⟨[], c :: cs, rfl, h1, h2⟩
      · rintro ⟨u, v, huv, h1, h2⟩
        cases u with
        | nil =>
          right
          simp only [List.nil_append] at huv
          rw [← huv] at h2
          exact ⟨h1, h2⟩
        | cons x u' =>
          left
          simp only [List.cons_append, List.cons.injEq] at huv
          obtain ⟨hx, hcs⟩ := huv
          subst hx
          exact ⟨u', v, hcs, (iha u').mpr h1, h2⟩
    simp only [Rx.deriv]
    by_cases hn : a.nullable = true
    · simp only [hn, if_true, Rx.Lang]
      rw [← key, ihb, ← rx_nullable]
      simp [hn]
    · simp only [hn, Bool.false_eq_true, if_false, Rx.Lang]
      rw [← key, ← rx_nullable]
      simp [hn]
  | alt a b iha ihb => simp only [Rx.deriv, Rx.Lang, iha, ihb]
  | star a iha =>
    simp only [Rx.deriv, Rx.Lang]
    constructor
    · rintro ⟨u, v, huv, h1, parts, hv, hparts⟩
      refine ⟨(c :: u) :: parts, by simp [huv, hv], ?_⟩
      intro p hp
      rcases List.mem_cons.mp hp with hp | hp
      · rw [hp]
        exact ⟨by simp, (iha u).mp h1⟩
      · exact hparts p hp
    · rintro ⟨parts, hcs, hparts⟩
      cases parts with
      | nil => simp at hcs
      | cons p ps =>
        obtain ⟨hne, hp⟩ := hparts p (List.mem_cons_self _ _)
        cases p with
        | nil => exact absurd rfl hne
        | cons x u =>
          simp only [List.flatten_cons, List.cons_append, List.cons.injEq] at hcs
          obtain ⟨hx, hcs⟩ := hcs
          subst hx
          exact ⟨u, ps.flatten, hcs, (iha u).mpr hp, ps, rfl,
            fun q hq => hparts q (List.mem_cons_of_mem _ hq)⟩

theorem rx_test (r : Rx) (cs : List Char) : r.test cs = true ↔ r.Lang cs := by
  induction cs generalizing r with
  | nil => simpa [Rx.test] using rx_nullable r
  | cons c cs ih =>
    have h := ih (r.deriv c)
    simp only [Rx.test, List.foldl_cons] at h ⊢
    rw [h, rx_deriv]

theorem rx_star_cls (p : Char → Bool) (cs : List Char) :
    (Rx.star (.cls p)).Lang cs ↔ ∀ c ∈ cs, p c = true := by
  simp only [Rx.Lang]
  constructor
  · rintro ⟨parts, hcs, hparts⟩ c hc
    rw [hcs, List.mem_flatten] at hc
    obtain ⟨l, hl, hcl⟩ := hc
    obtain ⟨_, x, hx, hpx⟩ := hparts l hl
    rw [hx, List.mem_singleton] at hcl
    rw [hcl]
    exact hpx
  · intro h
    refine ⟨cs.map (fun c => [c]), ?_, ?_⟩
    · induction cs with
      | nil => rfl
      | cons x xs ih =>
        simp only [List.map_cons, List.flatten_cons, List.singleton_append, List.cons.injEq, true_and]
        exact ih (fun c hc => h c (List.mem_cons_of_mem _ hc))
    · intro q hq
      rw [List.mem_map] at hq
      obtain ⟨c, hc, rfl⟩ := hq
      exact ⟨by simp, c, rfl, h c hc⟩

theorem rx_plus_cls (p : Char → Bool) (cs : List Char) :
    (Rx.plus (.cls p)).Lang cs ↔ cs ≠ [] ∧ ∀ c ∈ cs, p c = true := by
  unfold Rx.plus
  simp only [Rx.Lang.eq_4, rx_star_cls]
  simp only [Rx.Lang]
  constructor
  · rintro ⟨u, v, huv, ⟨x, hx, hpx⟩, hv⟩
    subst hx
    subst huv
    refine ⟨by simp, ?_⟩
    intro c hc
    rcases List.mem_cons.mp hc with hc | hc
    · rw [hc]; exact hpx
    · exact hv c hc
  · rintro ⟨hne, h⟩
    cases cs with
    | nil => exact absurd rfl hne
    | cons x xs =>
      exact ⟨[x], xs, rfl, ⟨x, rfl, h x (List.mem_cons_self _ _)⟩,
        fun c hc => h c (List.mem_cons_of_mem _ hc)⟩

theorem rx_chr (c : Char) (cs : List Char) : (Rx.chr c).Lang cs ↔ cs = [c] := by
  unfold Rx.chr
  simp only [Rx.Lang, decide_eq_true_eq]
  constructor
  · rintro ⟨x, hx, hxc⟩
    rw [hx, hxc]
  · intro h
    exact ⟨c, h, rfl⟩

theorem emailRegex_lang (cs : List Char) : emailRegex.Lang cs ↔ EmailShape cs := by
  have hpart : ∀ l : List Char,
      (Rx.plus (.cls (fun c => !(jsIsSpace c || c = '@')))).Lang l ↔
        l ≠ [] ∧ ∀ c ∈ l, jsIsSpace c = false ∧ c ≠ '@' := by
    intro l
    rw [rx_plus_cls]
    simp
  unfold emailRegex EmailShape
  simp only [Rx.Lang.eq_4, hpart, rx_chr]
  constructor
  · rintro ⟨a, r1, hcs, ⟨hane, ha⟩, x, r2, hr1, hx, b, r3, hr2, ⟨hbne, hb⟩, y, d, hr3, hy, hdne, hd⟩
    subst hx hy hr3 hr2 hr1 hcs
    refine ⟨?_, a, b ++ '.' :: d, by simp, ?_, ?_, hane, b, d, rfl, hbne, hdne⟩
    · intro c hc
      simp only [List.mem_append, List.mem_cons, List.singleton_append, List.not_mem_nil,
        or_false] at hc
      rcases hc with hc | hc | hc | hc | hc
      · exact (ha c hc).1
      · rw [hc]; decide
      · exact (hb c hc).1
      · rw [hc]; decide
      · exact (hd c hc).1
    · intro hc
      exact (ha _ hc).2 rfl
    · intro hc
      simp only [List.mem_append, List.mem_cons] at hc
      rcases hc with hc | hc | hc
      · exact (hb _ hc).2 rfl
      · revert hc; decide
      · exact (hd _ hc).2 rfl
  · rintro ⟨hsp, before, after, hcs, hb1, hb2, hne, front, back, haf, hfne, hbne⟩
    subst haf hcs
    refine ⟨before, '@' :: (front ++ '.' :: back), rfl, ⟨hne, ?_⟩, ['@'], front ++ '.' :: back, rfl,
      rfl, front, '.' :: back, rfl, ⟨hfne, ?_⟩, ['.'], back, rfl, rfl, hbne, ?_⟩
    · intro c hc
      refine ⟨hsp c (by simp [hc]), ?_⟩
      rintro rfl
      exact hb1 hc
    · intro c hc
      refine ⟨hsp c (by simp [hc]), ?_⟩
      rintro rfl
      exact hb2 (by simp [hc])
    · intro c hc
      refine ⟨hsp c (by simp [hc]), ?_⟩
      rintro rfl
      exact hb2 (by simp [hc])

theorem matchTimeAt_groups (cs h m a : List Char) (hm : matchTimeAt cs = some (h, m, a)) :
    (h ≠ [] ∧ h.all isDigit = true) ∧ (m ≠ [] ∧ m.all isDigit = true) ∧
      upperAscii (String.mk a) ∈ amPmOptions := by
  unfold matchTimeAt at hm
  split at hm
  · cases hm
  · rename_i h1
    split at hm
    · rename_i rest _
      split at hm
      · cases hm
      · rename_i h2
        split at hm
        · rename_i x y _ _
          split at hm
          · rename_i hc
            simp only [Option.some.injEq, Prod.mk.injEq] at hm
            obtain ⟨e1, e2, e3⟩ := hm
            subst e1 e2 e3
            refine ⟨⟨?_, takeWhile_all _ _⟩, ⟨?_, takeWhile_all _ _⟩, ?_⟩
            · intro hx; rw [hx] at h1; exact h1 rfl
            · intro hx; rw [hx] at h2; exact h2 rfl
            · simp only [Bool.and_eq_true, Bool.or_eq_true, decide_eq_true_eq] at hc
              obtain ⟨hx, hy⟩ := hc
              rcases hx with ((hx | hx) | hx) | hx <;> rcases hy with hy | hy <;>
                (subst hx; subst hy; decide)
          · cases hm
        · cases hm
    · cases hm

theorem matchTime_groups (cs h m a : List Char) (hm : matchTime cs = some (h, m, a)) :
    (h ≠ [] ∧ h.all isDigit = true) ∧ (m ≠ [] ∧ m.all isDigit = true) ∧
      upperAscii (String.mk a) ∈ amPmOptions := by
  induction cs with
  | nil => simp [matchTime] at hm
  | cons c cs ih =>
    unfold matchTime at hm
    split at hm
    · rename_i g hg
      simp only [Option.some.injEq] at hm
      subst hm
      exact matchTimeAt_groups _ _ _ _ hg
    · exact ih hm

theorem openEditTime_step (env : Env) (s : State) : FormStep env s (openEditTime s) := by
  unfold openEditTime
  split
  · rename_i time _
    split
    · rename_i hour minute ampm hg
      obtain ⟨h1, h2, h3⟩ := matchTime_groups _ _ _ _ hg
      exact .prefill s _ _ _ h1 h2 h3
    · exact .other s s rfl rfl rfl rfl
  · exact .other s s rfl rfl rfl rfl

theorem parse_table : ∀ hh < 24, ∀ mm < 60,
    parseTime (padStart2 (intToString (hh : Nat)) ++ ":" ++ padStart2 (intToString (mm : Nat)))
      = (.fin (hh : Int), .fin (mm : Int)) := by
  decide

theorem match_table : ∀ hh < 24, ∀ mm < 60,
    matchTime (intToString (if ((hh : Nat) : Int) > 12 then ((hh : Nat) : Int) - 12
          else if ((hh : Nat) : Int) = 0 then 12 else ((hh : Nat) : Int))
        ++ ":" ++ padStart2 (intToString (mm : Nat)) ++ " "
        ++ (if ((hh : Nat) : Int) ≥ 12 then "PM" else "AM")).data
      = some ((intToString (if ((hh : Nat) : Int) > 12 then ((hh : Nat) : Int) - 12
          else if ((hh : Nat) : Int) = 0 then 12 else ((hh : Nat) : Int))).data,
        (padStart2 (intToString (mm : Nat))).data,
        (if ((hh : Nat) : Int) ≥ 12 then "PM" else "AM").data) := by
  decide

theorem hour_table : ∀ hh < 24,
    (prefillTime (intToString (if ((hh : Nat) : Int) > 12 then ((hh : Nat) : Int) - 12
          else if ((hh : Nat) : Int) = 0 then 12 else ((hh : Nat) : Int))) "00"
        (if ((hh : Nat) : Int) ≥ 12 then "PM" else "AM") (initialState exampleEnv none)).selectedTime
      = padStart2 (intToString (hh : Nat)) ++ ":" ++ "00" ∧
    (intToString (if ((hh : Nat) : Int) > 12 then ((hh : Nat) : Int) - 12
      else if ((hh : Nat) : Int) = 0 then 12 else ((hh : Nat) : Int))).data ≠ [] ∧
    (intToString (if ((hh : Nat) : Int) > 12 then ((hh : Nat) : Int) - 12
      else if ((hh : Nat) : Int) = 0 then 12 else ((hh : Nat) : Int))).data.all isDigit = true ∧
    (padStart2 (numToString (parseInt10 (intToString
      (if ((hh : Nat) : Int) > 12 then ((hh : Nat) : Int) - 12
        else if ((hh : Nat) : Int) = 0 then 12 else ((hh : Nat) : Int)))))).data.all isDigit
      = true := by
  decide

theorem prefillTime_minute_free (h m m' a : String) (s s' : State) (t : String)
    (ht : (prefillTime h m' a s').selectedTime = t ++ ":" ++ m') :
    (prefillTime h m a s).selectedTime = t ++ ":" ++ m := by
  simp only [prefillTime] at ht ⊢
  have hd := congrArg String.data ht
  simp only [String.data_append, List.append_assoc] at hd
  have hlen := congrArg List.length hd
  simp only [List.length_append] at hlen
  have hx := List.append_inj_left hd (by omega)
  have : ∀ x y : String, x.data = y.data → x = y := fun x y h => String.ext h
  rw [this _ _ hx]

theorem padStart2_ne (x : String) : padStart2 x ≠ "" := by
  intro h
  have h2 : (padStart2 x).data.length ≥ 2 := by
    simp only [padStart2, List.length_append, List.length_replicate]
    omega
  rw [h] at h2
  revert h2
  decide

theorem exampleFormState_reachable : FormReachable exampleEnv exampleFormState :=
  .step _ _
    (.step _ _
      (.step _ _ (.init none)
        (.other _
          { initialState exampleEnv none with
            editableCustomerRequirement := "Installation"
            selectedDate := "2026-11-07"
            appointmentLocation := ⟨.num 10, .num (-66), .str "Plaza Venezuela, Caracas"⟩ }
          rfl rfl rfl rfl))
      (.hour _ "10" (by decide)))
    (.minute _ "30" (by decide))

theorem exampleStaleTimeState_reachable : FormReachable exampleEnv exampleStaleTimeState :=
  .step _ _
    (.step _ _
      (.step _ _
        (.step _ _
          (.step _ _ (.init none) (.hour _ "08" (by decide)))
          (.minute _ "00" (by decide)))
        (.amPm _ "PM" (by decide)))
      (.close _))
    (.other _ exampleStaleTimeState rfl rfl rfl rfl)

theorem handleResponse_appended (env : Env) (s : State) (f : Bool) (data : JVal)
    (h : responseRaises data = false) :
    ∃ shown, appended s (handleResponse env s f data).st =
      newBotMessages env f data ((responseDetails data).get "html_summary")
        ((responseDetails data).get "intent") shown := by
  rcases handleResponse_cases env s f data with hc | ⟨shown, s2, ho, _, hm, he⟩
  · have := handleResponse_threw env s f data
    rw [hc.1, h] at this
    cases this
  · refine ⟨shown, ?_⟩
    rw [he]
    unfold appended
    rw [finishResponse_messages, hm, List.drop_left]

theorem pathSegments_ne (pathname seg : String) (h : seg ∈ pathSegments pathname) : seg ≠ "" := by
  unfold pathSegments at h
  rw [List.mem_map] at h
  obtain ⟨p, hp, rfl⟩ := h
  rw [List.mem_filter] at hp
  intro he
  have hd := congrArg String.data he
  have hx : p = [] := hd
  rw [hx] at hp
  simp at hp

theorem filter_some_ne (o : Option String) (v : String) (h : o = some v) (hv : v ≠ "") :
    o.filter (fun v => v != "") = some v := by
  subst h
  simp [Option.filter, hv]

theorem range_iff (x : JNum) :
    (JNum.le (.fin (9 * 60)) x && JNum.le x (.fin (18 * 60))) = true ↔
      ∃ total : Int, x = .fin total ∧ 9 * 60 ≤ total ∧ total ≤ 18 * 60 := by
  cases x with
  | nan => simp [JNum.le]
  | inf s => cases s <;> simp [JNum.le, JNum.lt]
  | fin n =>
    simp only [JNum.le, JNum.lt, Bool.and_eq_true, Bool.not_eq_true', decide_eq_false_iff_not,
      not_lt, JNum.fin.injEq, exists_eq_left']

theorem labelledLine_text (label : String) (v : JVal)
    (h : v.truthy = false ∨ ∃ p, v = .str p) : ∃ l, labelledLine label v = some l := by
  unfold labelledLine
  rcases h with h | ⟨p, h⟩
  · exact ⟨[], by simp [h]⟩
  · subst h
    split
    · exact ⟨_, rfl⟩
    · exact ⟨_, rfl⟩

theorem bookingMessage_composed (env : Env) (s : State)
    (hr : jsTrim s.editableCustomerRequirement ≠ "")
    (hn : jsTrim s.editableCustomerName ≠ "" ∨ s.customerLeadData.truthy = false ∨
      (s.customerLeadData.get "customer").isNullish = false)
    (hp : jsTrim s.editableCustomerPhone ≠ "" ∨ s.customerLeadData.truthy = false ∨
      ((s.customerLeadData.get "customer").isNullish = false ∧
        (((s.customerLeadData.get "customer").get "phone").truthy = false ∨
          ∃ p, (s.customerLeadData.get "customer").get "phone" = .str p)))
    (hm : (bookingCustomerEmail s).truthy = false ∨ ∃ v, bookingCustomerEmail s = .str v) :
    ∃ msg, bookingMessage env s = some msg := by
  have h1 : ∃ n, bookingCustomerName s = some n := by
    unfold bookingCustomerName
    simp only []
    split
    · exact ⟨_, rfl⟩
    · rename_i hb
      split
      · rename_i hl
        split
        · rename_i hc
          rcases hn with h | h | h
          · simp [h] at hb
          · rw [hl] at h; cases h
          · rw [hc] at h; cases h
        · exact ⟨_, rfl⟩
      · exact ⟨_, rfl⟩
  have h2 : ∃ n, bookingCustomerPhone s = some n := by
    unfold bookingCustomerPhone
    simp only []
    split
    · exact ⟨_, rfl⟩
    · rename_i hb
      split
      · rename_i hl
        split
        · rename_i hc
          rcases hp with h | h | h
          · simp [h] at hb
          · rw [hl] at h; cases h
          · rw [hc] at h; cases h.1
        · split
          · split
            · exact ⟨_, rfl⟩
            · exact ⟨_, rfl⟩
          · rename_i hns
            rcases hp with h | h | ⟨_, h | ⟨p, h⟩⟩
            · simp [h] at hb
            · rw [hl] at h; cases h
            · exact absurd (by simp [JVal.or, h]) (hns "")
            · by_cases hpe : p = ""
              · exact absurd (by simp [JVal.or, h, hpe, JVal.truthy]) (hns "")
              · exact absurd (by simp [JVal.or, h, hpe, JVal.truthy]) (hns p)
      · exact ⟨_, rfl⟩
  have h3 := labelledLine_text (tOr env "chatbot.customerEmail" "Email") (bookingCustomerEmail s) hm
  have h4 := labelledLine_text (tOr env "chatbot.customerRequirement" "Customer Requirements")
    (bookingInstallationNotes s)
    (Or.inr ⟨jsTrim s.editableCustomerRequirement, by simp [bookingInstallationNotes, hr]⟩)
  obtain ⟨n, h1⟩ := h1
  obtain ⟨p, h2⟩ := h2
  obtain ⟨e, h3⟩ := h3
  obtain ⟨r, h4⟩ := h4
  unfold bookingMessage
  rw [h1, h2, h3, h4]
  exact ⟨_, rfl⟩

theorem viability_installable (env : Env) (d : JVal) (s : State)
    (hn : d.isNullish = false) (hs : (d.get "success").truthy = true)
    (hi : (((d.get "data").or d).getOpt "isInstallable").truthy = true) :
    (checkAddressViability env (.body d) s).2 = true := by
  simp [checkAddressViability, hn, hs, hi]

theorem viability_rejected (env : Env) (v : Fetched) (s : State)
    (h : v = .failed ∨ ∃ d, v = .body d ∧ (d.isNullish = true ∨ (d.get "success").truthy = false ∨
      (((d.get "data").or d).getOpt "isInstallable").truthy = false)) :
    (checkAddressViability env v s).2 = false := by
  rcases h with h | ⟨d, h, hd⟩
  · subst h; rfl
  · subst h
    unfold checkAddressViability
    simp only []
    split
    · rfl
    · rename_i hn
      rcases hd with hd | hd | hd
      · exact absurd hd hn
      · simp [hd]
      · simp [hd]

/-! ## The claims on the appointment form, the address handlers and the page location -/

/-- Claim C11, failing input. In edit mode, with the hour and minute
dropdowns empty and a stored time of 20:00 (a reachable form state),
`validateEditModeFields` returns `true` and reports no field error, although
the time lies outside 09:00 to 18:00; `submitAppointmentBooking` and the
submit button test the stored time and reject it. -/
theorem stale_time_passes_edit_validation :
    FormReachable exampleEnv exampleStaleTimeState ∧
    exampleStaleTimeState.isEditMode = true ∧
    exampleStaleTimeState.selectedTime = "20:00" ∧
    totalMinutes exampleStaleTimeState.selectedTime = .fin (20 * 60) ∧
    (validateEditModeFields exampleEnv exampleStaleTimeState).2 = true ∧
    (validateEditModeFields exampleEnv exampleStaleTimeState).1.fieldErrors = noFieldErrors ∧
    timeOutOfRange exampleStaleTimeState = true ∧
    submitDisabled exampleEnv exampleStaleTimeState = true ∧
    (submitAppointmentBooking exampleEnv exampleStaleTimeState).alert
      = some "chatbot.timeRangeError" := by
  refine ⟨exampleStaleTimeState_reachable, ?_, ?_, ?_, ?_, ?_, ?_, ?_, ?_⟩ <;> decide

/-- Claim C12, failing input. Four hours west of UTC, at 08:00 local time on
5 November 2026, `isFutureDate` rejects today's date and also the date
`getMinDate` returns, 6 November; west of UTC it rejects the next local day at
every instant, because the date text is read as midnight UTC, which is still
the evening of the day before. -/
theorem tomorrow_rejected_west_of_utc :
    todayString exampleEnv = "2026-11-05" ∧ getMinDate exampleEnv = "2026-11-06" ∧
    isFutureDate exampleEnv (todayString exampleEnv) = false ∧
    isFutureDate exampleEnv (getMinDate exampleEnv) = false ∧
    (∀ env : Env, -1440 < env.tzOffsetMin → env.tzOffsetMin < 0 →
      env.dateParse (getMinDate env) = some (localDay env (env.now + msPerDay) * msPerDay) →
      isFutureDate env (getMinDate env) = false) ∧
    (∀ env : Env, -1440 < env.tzOffsetMin → env.tzOffsetMin < 1440 →
      env.dateParse (todayString env) = some (localDay env env.now * msPerDay) →
      isFutureDate env (todayString env) = false) := by
  refine ⟨by decide, by decide, by decide, by decide, ?_, ?_⟩
  · intro env h1 h2 hp
    unfold isFutureDate
    split
    · rfl
    · rw [hp]
      simp only [decide_eq_false_iff_not, setHours, localDay, msPerDay, gt_iff_lt, not_lt]
      omega
  · intro env h1 h2 hp
    unfold isFutureDate
    split
    · rfl
    · rw [hp]
      simp only [decide_eq_false_iff_not, setHours, localDay, msPerDay, gt_iff_lt, not_lt]
      omega

/-- Claim C13. For every hour from 01 to 12, minute from 00 to 59 and AM/PM
marker, `isTimeInAllowedRange` holds exactly when the time of day they stand
for lies between 09:00 and 18:00, both included; 09:00 and 18:00 are accepted,
08:59 and 18:01 are rejected, and the test fails when the hour or the minute
is empty. -/
theorem time_window_inclusive (hour minute : Nat) (pm : Bool)
    (hh : 1 ≤ hour ∧ hour ≤ 12) (hm : minute ≤ 59) :
    (isTimeInAllowedRange (padStart2 (intToString (hour : Nat))) (padStart2 (intToString (minute : Nat)))
        (if pm then "PM" else "AM") = true ↔
      9 * 60 ≤ clock24Minutes hour minute pm ∧ clock24Minutes hour minute pm ≤ 18 * 60) ∧
    isTimeInAllowedRange "09" "00" "AM" = true ∧ isTimeInAllowedRange "06" "00" "PM" = true ∧
    isTimeInAllowedRange "08" "59" "AM" = false ∧ isTimeInAllowedRange "06" "01" "PM" = false ∧
    (∀ m a, isTimeInAllowedRange "" m a = false) ∧ (∀ h a, isTimeInAllowedRange h "" a = false) := by
  refine ⟨?_, by decide, by decide, by decide, by decide, ?_, ?_⟩
  · rw [range_table hour (by omega) minute (by omega) pm hh.1]
    simp
  · intro m a; simp [isTimeInAllowedRange]
  · intro h a; simp [isTimeInAllowedRange]

/-- Witness for C13: half past five in the afternoon. -/
theorem time_window_inclusive_witness :
    (1 ≤ 5 ∧ 5 ≤ 12) ∧ 30 ≤ 59 ∧ isTimeInAllowedRange "05" "30" "PM" = true :=
  ⟨by decide, by decide,
    ((time_window_inclusive 5 30 true (by decide) (by decide)).1).2 (by decide)⟩

/-- Claim C14. For a phone text that is not blank, `isValidPhoneNumber` with
the code `+58` holds exactly when the text has 10 or 11 digit characters, and
with any other code exactly when it has between 7 and 15; a blank or empty
text is invalid for every code. -/
theorem phone_digit_count :
    (∀ phone : String, jsTrim phone ≠ "" →
      (isValidPhoneNumber phone "+58" = true ↔
        (phone.data.filter isDigit).length = 10 ∨ (phone.data.filter isDigit).length = 11)) ∧
    (∀ phone code : String, jsTrim phone ≠ "" → code ≠ "+58" →
      (isValidPhoneNumber phone code = true ↔
        7 ≤ (phone.data.filter isDigit).length ∧ (phone.data.filter isDigit).length ≤ 15)) ∧
    (∀ phone code : String, jsTrim phone = "" → isValidPhoneNumber phone code = false) ∧
    isValidPhoneNumber "412123456" "+58" = false ∧ isValidPhoneNumber "412123456789" "+58" = false ∧
    isValidPhoneNumber "123456" "+1" = false ∧ isValidPhoneNumber "1234567890123456" "+1" = false := by
  refine ⟨?_, ?_, ?_, by decide, by decide, by decide, by decide⟩
  · intro phone hb
    have hne : phone ≠ "" := by
      intro h; subst h; exact hb jsTrim_empty
    simp only [isValidPhoneNumber, hne, hb, decide_False, Bool.or_self, Bool.false_eq_true,
      if_false, if_true, Bool.and_eq_true, decide_eq_true_eq]
    omega
  · intro phone code hb hc
    have hne : phone ≠ "" := by
      intro h; subst h; exact hb jsTrim_empty
    simp only [isValidPhoneNumber, hne, hb, hc, decide_False, Bool.or_self, Bool.false_eq_true,
      if_false, Bool.and_eq_true, decide_eq_true_eq]
  · intro phone code hb
    simp [isValidPhoneNumber, hb]

/-- Claim C15. For every non-empty phone text and every code list with at
least one code that is a prefix of the text, `detectCountryCode` returns as
`countryCode` a listed code that is a prefix of the text and at least as long
as every listed code that is one, and as `localNumber` what follows that code
in the text, trimmed; with `+5` and `+58` both listed, `+584121234567` gives
`+58` and `4121234567`. -/
theorem longest_code_wins (codes : List CountryCode) (phone : String) (hp : phone ≠ "")
    (hex : ∃ c ∈ codes, c.code.data <+: phone.data) :
    (∃ c ∈ codes, c.code = (detectCountryCodeIn codes phone).countryCode) ∧
    (detectCountryCodeIn codes phone).countryCode.data <+: phone.data ∧
    (∀ c ∈ codes, c.code.data <+: phone.data →
      c.code.data.length ≤ (detectCountryCodeIn codes phone).countryCode.data.length) ∧
    (detectCountryCodeIn codes phone).localNumber =
      jsTrim (String.mk
        (phone.data.drop (detectCountryCodeIn codes phone).countryCode.data.length)) ∧
    detectCountryCodeIn [⟨"+5", "Five"⟩, ⟨"+58", "Venezuela"⟩] "+584121234567"
      = ⟨"+58", "4121234567"⟩ ∧
    detectCountryCode "+584121234567" = ⟨"+58", "4121234567"⟩ := by
  obtain ⟨m, hm, hpre, hmax, he⟩ := detect_longest codes phone hp hex
  rw [he]
  exact ⟨⟨m, hm, rfl⟩, hpre, hmax, rfl, by decide, by decide⟩

/-- Witness for C15: the list with `+5` and `+58`. -/
theorem longest_code_wins_witness :
    "+584121234567" ≠ "" ∧
    (detectCountryCodeIn [⟨"+5", "Five"⟩, ⟨"+58", "Venezuela"⟩] "+584121234567").countryCode.data
      <+: "+584121234567".data :=
  ⟨by decide,
    (longest_code_wins [⟨"+5", "Five"⟩, ⟨"+58", "Venezuela"⟩] "+584121234567" (by decide)
      ⟨⟨"+5", "Five"⟩, by simp, by decide⟩).2.1⟩

/-- Claim C16. For every text, `isValidEmail` holds exactly when the text is
blank, or the trimmed text has the form `local@domain.tld`: no white space,
exactly one `@` with a non-empty part before it, and after it a part with a
`.` that is neither its first nor its last character. -/
theorem email_shape (email : String) :
    isValidEmail email = true ↔ jsTrim email = "" ∨ EmailShape (trimChars email.data) := by
  unfold isValidEmail
  by_cases hb : jsTrim email = ""
  · simp [hb]
  · have hne : email ≠ "" := by
      intro h; subst h; exact hb jsTrim_empty
    simp only [hne, hb, decide_False, Bool.or_self, Bool.false_eq_true, if_false, false_or]
    rw [rx_test, emailRegex_lang]

/-- Claim C17, as stated, fails: a selection whose latitude is 0 has two
coordinates that are not `null`, yet `submitAddressFromMap` is blocked. -/
theorem zero_coordinate_blocks_counterexample :
    exampleEquatorSelection.selectedLocation.lat.isNullish = false ∧
    exampleEquatorSelection.selectedLocation.lng.isNullish = false ∧
    (submitAddressFromMap exampleEnv exampleEquatorSelection).calls = [] ∧
    (submitAddressFromMap exampleEnv exampleEquatorSelection).alert
      = some "chatbot.selectLocationAlert" ∧
    (submitAddressFromMap exampleEnv exampleEquatorSelection).st.showMapDialog = true := by
  decide

/-- Claim C17, amended. `submitAddressFromMap` is blocked, with an alert, no
`sendMessage` call and the state as it was, exactly when a coordinate of the
selection is falsy (`null`, absent, 0 or empty); for every other selection it
closes the map dialog and calls `sendMessage` once with the composed text,
`isInitialization = false` and `isAddressUpdate = true`. -/
theorem address_submit_guard (env : Env) (s : State) :
    ((s.selectedLocation.lat.truthy = false ∨ s.selectedLocation.lng.truthy = false) →
      (submitAddressFromMap env s).calls = [] ∧ (submitAddressFromMap env s).request = none ∧
      (submitAddressFromMap env s).alert = some (env.t "chatbot.selectLocationAlert") ∧
      (submitAddressFromMap env s).st = s) ∧
    ((s.selectedLocation.lat.truthy = true ∧ s.selectedLocation.lng.truthy = true) →
      (submitAddressFromMap env s).calls =
        [⟨env.t "chatbot.myAddressIs" ++ " " ++ s.selectedLocation.address.toStr ++ ". "
            ++ env.t "chatbot.coordinates" ++ " " ++ s.selectedLocation.lat.toStr ++ ", "
            ++ s.selectedLocation.lng.toStr, false, true⟩] ∧
      (submitAddressFromMap env s).alert = none ∧
      (submitAddressFromMap env s).st.showMapDialog = false ∧
      (s.isTyping = false → ∃ q, (submitAddressFromMap env s).request = some q ∧
        q.message = addressMessage env s)) := by
  constructor
  · intro h
    have hc : (!s.selectedLocation.lat.truthy || !s.selectedLocation.lng.truthy) = true := by
      rcases h with h | h <;> simp [h]
    simp [submitAddressFromMap, hc]
  · intro h
    have hc : (!s.selectedLocation.lat.truthy || !s.selectedLocation.lng.truthy) = false := by
      simp [h.1, h.2]
    simp only [submitAddressFromMap, hc, Bool.false_eq_true, if_false]
    refine ⟨?_, ?_, ?_, ?_⟩
    · trivial
    · trivial
    · cases he : sendReturnsEarly { s with showMapDialog := false } (some (addressMessage env s)) false with
      | true => rw [sendMessage_early _ _ _ _ _ he]
      | false =>
        rw [sendMessage_sent _ _ _ _ _ he]
        exact sendState_showMapDialog _ _ _ _ rfl
    · intro ht
      have he : sendReturnsEarly { s with showMapDialog := false } (some (addressMessage env s)) false
          = false := by
        simp [sendReturnsEarly, messageToSend, ht, addressMessage_ne]
      rw [sendMessage_sent _ _ _ _ _ he]
      exact ⟨_, rfl, rfl⟩

/-- Claim C18, as stated, fails: in a state where the last response needed
confirmation and the stored details have no address, a call
`sendMessage(text, false, false)` hands a request to the backend and appends
the user message, not a validation message. -/
theorem address_guard_absent_counterexample :
    exampleNeedsAddress.needsConfirmation = true ∧
    isAddressMissing exampleNeedsAddress.currentAppointmentDetails = some true ∧
    ((sendMessage exampleEnv exampleNeedsAddress (some "tomorrow at ten") false false).2.map
      (fun q => q.message)) = some "tomorrow at ten" ∧
    (appended exampleNeedsAddress
      (sendMessage exampleEnv exampleNeedsAddress (some "tomorrow at ten") false false).1).map
        (fun m => (m.role, m.text.toStr)) = [(Role.user, "tomorrow at ten")] := by
  decide

/-- Claim C18, amended. `sendMessage` has no address guard: every
non-initialization call with a non-empty text made while no reply is awaited
appends the user message and hands the request to the backend, whatever
`needsConfirmation`, the stored details and `isAddressUpdate` are; the
`isAddressUpdate` flag changes nothing. -/
theorem send_ignores_address_state (env : Env) (s : State) (text : String) (isAddressUpdate : Bool)
    (ht : text ≠ "") (hy : s.isTyping = false) :
    (sendMessage env s (some text) false isAddressUpdate).2 =
      some ⟨text, s.sessionId, env.timezone, activeChatbotId env s, activeChatbotId env s⟩ ∧
    (sendMessage env s (some text) false isAddressUpdate).1.messages =
      s.messages ++ [⟨.user, .str text, false, .undefined⟩] ∧
    sendMessage env s (some text) false isAddressUpdate = sendMessage env s (some text) false true := by
  have he : sendReturnsEarly s (some text) false = false := by
    simp [sendReturnsEarly, messageToSend, ht, hy]
  rw [sendMessage_sent _ _ _ _ _ he, sendMessage_sent _ _ _ _ _ he]
  exact ⟨rfl, sendState_messages env s _, rfl⟩

/-- Witness for C18: the send of the counterexample state. -/
theorem send_ignores_address_state_witness :
    "tomorrow at ten" ≠ "" ∧ exampleNeedsAddress.isTyping = false ∧
    sendMessage exampleEnv exampleNeedsAddress (some "tomorrow at ten") false false =
      sendMessage exampleEnv exampleNeedsAddress (some "tomorrow at ten") false true :=
  ⟨by decide, by decide,
    (send_ignores_address_state exampleEnv exampleNeedsAddress "tomorrow at ten" false
      (by decide) (by decide)).2.2⟩

/-- Claim C19. For every point chosen in the appointment form by a map click
or marker drag (`reverseGeocodeAppointment`, whatever the geocoding request
gave) or by a search-box result (`handleSearchBoxRetrieve`): when the body of
the viability answer has a truthy `success` and a truthy `isInstallable` (in
its `data`, or at top level when it has no `data`), `appointmentLocation` holds
exactly the point afterwards and the viability notice is empty; when the
request fails, or the body is `null`, or `success` or `isInstallable` is not
truthy, both coordinates of `appointmentLocation` are `null` afterwards and the
submit button is disabled.  The two answers of the examples show both cases. -/
theorem viability_gates_location (env : Env) (lat lng : JVal) (geo : GeoOutcome) (s : State) :
    (∀ d : JVal, d.isNullish = false → (d.get "success").truthy = true →
      (((d.get "data").or d).getOpt "isInstallable").truthy = true →
      ((reverseGeocodeAppointment env lat lng geo (.body d) s).appointmentLocation.lat = lat ∧
        (reverseGeocodeAppointment env lat lng geo (.body d) s).appointmentLocation.lng = lng ∧
        (reverseGeocodeAppointment env lat lng geo (.body d) s).viabilityError = "") ∧
      (∀ result feature, searchBoxPoint result = some (feature, lng, lat) →
        (handleSearchBoxRetrieve env result (.body d) s).appointmentLocation.lat = lat ∧
        (handleSearchBoxRetrieve env result (.body d) s).appointmentLocation.lng = lng ∧
        (handleSearchBoxRetrieve env result (.body d) s).viabilityError = "")) ∧
    (∀ viability : Fetched,
      (viability = .failed ∨ ∃ d, viability = .body d ∧
        (d.isNullish = true ∨ (d.get "success").truthy = false ∨
          (((d.get "data").or d).getOpt "isInstallable").truthy = false)) →
      ((reverseGeocodeAppointment env lat lng geo viability s).appointmentLocation.lat = .null ∧
        (reverseGeocodeAppointment env lat lng geo viability s).appointmentLocation.lng = .null ∧
        submitDisabled env (reverseGeocodeAppointment env lat lng geo viability s) = true) ∧
      (∀ result feature, searchBoxPoint result = some (feature, lng, lat) →
        (handleSearchBoxRetrieve env result viability s).appointmentLocation.lat = .null ∧
        (handleSearchBoxRetrieve env result viability s).appointmentLocation.lng = .null ∧
        submitDisabled env (handleSearchBoxRetrieve env result viability s) = true)) ∧
    (reverseGeocodeAppointment exampleEnv (.num 10) (.num (-66)) (.feature exampleFeature)
        exampleInstallable exampleFormState).appointmentLocation
      = ⟨.num 10, .num (-66), .str "Plaza Venezuela, Caracas, Venezuela"⟩ ∧
    (handleSearchBoxRetrieve exampleEnv exampleSearchResult exampleInstallable
        exampleFormState).appointmentLocation
      = ⟨.num 10, .num (-66), .str "Plaza Venezuela, Caracas, Venezuela"⟩ ∧
    (reverseGeocodeAppointment exampleEnv (.num 10) (.num (-66)) (.feature exampleFeature)
        exampleNotInstallable exampleFormState).appointmentLocation = emptyLocation ∧
    (reverseGeocodeAppointment exampleEnv (.num 10) (.num (-66)) (.feature exampleFeature)
        exampleNotInstallable exampleFormState).viabilityError = "Out of coverage" := by
  obtain ⟨label, s', he, _⟩ := reverseGeocode_commit env lat lng geo .failed s
  refine ⟨?_, ?_, ?_, ?_, ?_, ?_⟩
  · intro d hn hs hi
    constructor
    · obtain ⟨h1, h2, _⟩ :=
        commit_stored env lat lng label (.body d) s' (viability_installable env d s' hn hs hi)
      rw [he]
      exact ⟨by rw [h1], by rw [h1], h2⟩
    · intro result feature hp
      obtain ⟨s2, he2, _⟩ := searchBox_commit env result feature lng lat (.body d) s hp
      obtain ⟨h1, h2, _⟩ :=
        commit_stored env lat lng (featureLabel feature "") (.body d) s2
          (viability_installable env d s2 hn hs hi)
      rw [he2]
      exact ⟨by rw [h1], by rw [h1], h2⟩
  · intro v hv
    constructor
    · obtain ⟨h1, _, _⟩ := commit_cleared env lat lng label v s' (viability_rejected env v s' hv)
      rw [he]
      exact ⟨by rw [h1]; rfl, by rw [h1]; rfl, submitDisabled_of_cleared env _ h1⟩
    · intro result feature hp
      obtain ⟨s2, he2, _⟩ := searchBox_commit env result feature lng lat v s hp
      obtain ⟨h1, _, _⟩ :=
        commit_cleared env lat lng (featureLabel feature "") v s2 (viability_rejected env v s2 hv)
      rw [he2]
      exact ⟨by rw [h1]; rfl, by rw [h1]; rfl, submitDisabled_of_cleared env _ h1⟩
  · rfl
  · rfl
  · rfl
  · decide

/-- Claim C20, as stated, fails: after a not-installable answer for a clicked
point whose label was resolved, `appointmentLocation.address` and the
full-address field are empty; only the search text holds the label. -/
theorem label_cleared_counterexample :
    (reverseGeocodeAppointment exampleEnv (.num 10) (.num (-66)) (.feature exampleFeature)
      exampleNotInstallable exampleFormState).appointmentLocation.address = .str "" ∧
    (reverseGeocodeAppointment exampleEnv (.num 10) (.num (-66)) (.feature exampleFeature)
      exampleNotInstallable exampleFormState).editableFullAddress = "" ∧
    (syncFullAddress (reverseGeocodeAppointment exampleEnv (.num 10) (.num (-66))
      (.feature exampleFeature) exampleNotInstallable exampleFormState)).editableFullAddress = "" ∧
    (reverseGeocodeAppointment exampleEnv (.num 10) (.num (-66)) (.feature exampleFeature)
      exampleNotInstallable exampleFormState).appointmentSearchAddress
        = "Plaza Venezuela, Caracas, Venezuela" := by
  refine ⟨rfl, ?_, ?_, ?_⟩ <;> decide

/-- Claim C20, amended. After a viability answer that is not installable for
a point chosen by map click, marker drag or search-box result, the label
resolved for the point is retained only in the search text of the form
(`appointmentSearchAddress`); `appointmentLocation` is the empty record, label
included, and the full-address field is empty. -/
theorem rejected_point_keeps_search_text (env : Env) (lat lng : JVal) (geo : GeoOutcome)
    (viability : Fetched) (s : State) (h : (checkAddressViability env viability s).2 = false) :
    (∃ label,
      (∀ v, (reverseGeocodeAppointment env lat lng geo v s).appointmentSearchAddress
        = label.asText) ∧
      (∀ v, (checkAddressViability env v s).2 = true →
        (reverseGeocodeAppointment env lat lng geo v s).appointmentLocation.address = label)) ∧
    (reverseGeocodeAppointment env lat lng geo viability s).appointmentLocation = emptyLocation ∧
    (reverseGeocodeAppointment env lat lng geo viability s).editableFullAddress = "" ∧
    (∀ result feature, searchBoxPoint result = some (feature, lng, lat) →
      (handleSearchBoxRetrieve env result viability s).appointmentSearchAddress
        = (featureLabel feature "").asText ∧
      (handleSearchBoxRetrieve env result viability s).appointmentLocation = emptyLocation ∧
      (handleSearchBoxRetrieve env result viability s).editableFullAddress = "") := by
  obtain ⟨label, s', he, hl⟩ := reverseGeocode_commit env lat lng geo viability s
  refine ⟨⟨label, ?_, ?_⟩, ?_, ?_, ?_⟩
  · intro v
    rw [he v]
    cases hv : (checkAddressViability env v s').2 with
    | true => rw [(commit_stored env lat lng label v s' hv).2.2, hl]
    | false => rw [(commit_cleared env lat lng label v s' hv).2.2, hl]
  · intro v hv
    rw [viability_answer env v s s'] at hv
    rw [he v, (commit_stored env lat lng label v s' hv).1]
  · rw [viability_answer env viability s s'] at h
    rw [he viability]
    exact (commit_cleared env lat lng label viability s' h).1
  · rw [viability_answer env viability s s'] at h
    rw [he viability]
    exact (commit_cleared env lat lng label viability s' h).2.1
  · intro result feature hp
    obtain ⟨s2, he2, hl2⟩ := searchBox_commit env result feature lng lat viability s hp
    rw [viability_answer env viability s s2] at h
    obtain ⟨h1, h2, h3⟩ := commit_cleared env lat lng (featureLabel feature "") viability s2 h
    rw [he2]
    exact ⟨by rw [h3, hl2], h1, h2⟩

/-- Witness for C20: the clicked point of the counterexample. -/
theorem rejected_point_keeps_search_text_witness :
    (checkAddressViability exampleEnv exampleNotInstallable exampleFormState).2 = false ∧
    (reverseGeocodeAppointment exampleEnv (.num 10) (.num (-66)) (.feature exampleFeature)
      exampleNotInstallable exampleFormState).appointmentLocation = emptyLocation :=
  ⟨by decide,
    (rejected_point_keeps_search_text exampleEnv (.num 10) (.num (-66)) (.feature exampleFeature)
      exampleNotInstallable exampleFormState (by decide)).2.1⟩

/-- Claim C21, failing input. The address block of the edit pre-fill and the
address block of the token pre-fill store the coordinates they are given into
`appointmentLocation` without any viability request: neither takes the outcome
of one. -/
theorem prefill_stores_unchecked_coordinates :
    (openEditAddress exampleEditable).appointmentLocation.lat.toStr = "10" ∧
    (openEditAddress exampleEditable).appointmentLocation.lng.toStr = "-66" ∧
    (openEditAddress exampleEditable).appointmentLocation.lat.truthy = true ∧
    (openEditAddress exampleEditable).viabilityError = exampleEditable.viabilityError ∧
    (leadAddressPrefill exampleLead (initialState exampleEnv none)).map
      (fun s => (s.appointmentLocation.lat.toStr, s.appointmentLocation.lng.toStr,
        s.appointmentLocation.address.toStr)) = some ("10", "-66", "Av. Bolivar 12") ∧
    (reverseGeocodeAppointment exampleEnv (.num 10) (.num (-66)) .noFeature exampleNotInstallable
      exampleEditable).appointmentLocation.lat.truthy = false := by
  decide

/-- Claim C22, failing input. Four hours west of UTC the form with the
selected date 2026-11-07 passes validation and sends a message whose date line
is `06/11/2026`, while `formatDateDDMMYYYY` displays `07/11/2026` for the same
selected date. -/
theorem message_date_one_day_early :
    exampleFormState.selectedDate = "2026-11-07" ∧
    isFutureDate exampleEnv exampleFormState.selectedDate = true ∧
    formatDateDDMMYYYY exampleFormState.selectedDate = "07/11/2026" ∧
    formattedDate exampleEnv exampleFormState.selectedDate = "06/11/2026" ∧
    (submitAppointmentBooking exampleEnv exampleFormState).sent = some exampleFormMessage := by
  refine ⟨by decide, by decide, by decide, by decide, by rfl⟩

/-- Claim C23, failing input. After a submit that sends, and the reset that
follows it, the dialog is closed and the date, time, location, search text,
full address, name, phone, country code, email and requirement have their
initial values, but house number, sector, city and state keep what the user
typed; `closeAppointmentDialog` clears these four. -/
theorem reset_keeps_house_fields :
    ((submitAppointmentBooking exampleEnv exampleHouseForm).sent).isSome = true ∧
    (resetAppointmentForm (submitAppointmentBooking exampleEnv exampleHouseForm).st).showAppointmentDialog
      = false ∧
    (resetAppointmentForm (submitAppointmentBooking exampleEnv exampleHouseForm).st).editableHouseNumber
      = "12" ∧
    (resetAppointmentForm (submitAppointmentBooking exampleEnv exampleHouseForm).st).editableCity
      = "Caracas" ∧
    (closeAppointmentDialog exampleHouseForm).editableHouseNumber = "" ∧
    (closeAppointmentDialog exampleHouseForm).editableCity = "" ∧
    (∀ s : State,
      (resetAppointmentForm s).selectedDate = "" ∧ (resetAppointmentForm s).selectedTime = "" ∧
      (resetAppointmentForm s).selectedHour = "" ∧ (resetAppointmentForm s).selectedMinute = "" ∧
      (resetAppointmentForm s).selectedAmPm = "AM" ∧
      (resetAppointmentForm s).appointmentLocation = emptyLocation ∧
      (resetAppointmentForm s).appointmentSearchAddress = "" ∧
      (resetAppointmentForm s).editableFullAddress = "" ∧
      (resetAppointmentForm s).editableCustomerName = "" ∧
      (resetAppointmentForm s).editableCustomerPhone = "" ∧
      (resetAppointmentForm s).selectedCountryCode = "+58" ∧
      (resetAppointmentForm s).editableCustomerEmail = "" ∧
      (resetAppointmentForm s).editableCustomerRequirement = "" ∧
      (resetAppointmentForm s).editableHouseNumber = s.editableHouseNumber ∧
      (resetAppointmentForm s).editableSector = s.editableSector ∧
      (resetAppointmentForm s).editableCity = s.editableCity ∧
      (resetAppointmentForm s).editableState = s.editableState) := by
  refine ⟨by rfl, by rfl, by rfl, by rfl, by decide, by decide, ?_⟩
  intro s
  exact ⟨rfl, rfl, rfl, rfl, rfl, rfl, rfl, rfl, rfl, rfl, rfl, rfl, rfl, rfl, rfl, rfl, rfl⟩

/-- Claim C24, as stated, fails: for a `ready_for_confirmation` response that
carries a response text, the second bot message repeats that text; it is not
the confirm prompt. -/
theorem second_message_repeats_response_counterexample :
    (appended exampleAwaiting (handleResponse exampleEnv exampleAwaiting false exampleReadyResponse).st).map
      (fun m => (m.role, m.text.toStr, m.isHtml)) =
        [(Role.bot, "Please review the details", false),
         (Role.bot, "Please review the details", false)] ∧
    exampleEnv.t "chatbot.confirmMessage" ≠ "Please review the details" := by
  decide

/-- Claim C24, amended. For every response on which the handler does not
raise: when the intent is `ready_for_confirmation`, exactly two bot messages
are appended and the second is a plain-text message whose text is the response
text, or the confirm prompt when the response has no text; for every other
intent exactly one bot message is appended. -/
theorem confirmation_prompt_message (env : Env) (s : State) (isInitialization : Bool) (data : JVal)
    (h : responseRaises data = false) :
    (((responseDetails data).get "intent").isStr "ready_for_confirmation" = true →
      ∃ first, first.role = .bot ∧
        appended s (handleResponse env s isInitialization data).st =
          [first, ⟨.bot, (data.get "response").or (.str (env.t "chatbot.confirmMessage")),
            false, .null⟩]) ∧
    (((responseDetails data).get "intent").isStr "ready_for_confirmation" = false →
      ∃ first, first.role = .bot ∧
        appended s (handleResponse env s isInitialization data).st = [first]) ∧
    ((data.get "response").truthy = false →
      (data.get "response").or (.str (env.t "chatbot.confirmMessage"))
        = .str (env.t "chatbot.confirmMessage")) := by
  obtain ⟨shown, he⟩ := handleResponse_appended env s isInitialization data h
  rw [he]
  refine ⟨?_, ?_, ?_⟩
  · intro hi
    unfold newBotMessages
    simp only [hi, if_true]
    refine ⟨_, ?_, rfl⟩
    split <;> rfl
  · intro hi
    unfold newBotMessages
    simp only [hi, Bool.false_eq_true, if_false]
    refine ⟨_, ?_, rfl⟩
    split <;> rfl
  · intro hr
    simp [JVal.or, hr]

/-- Witness for C24: a `ready_for_confirmation` response without a text. -/
theorem confirmation_prompt_message_witness :
    responseRaises exampleIntentOnlyResponse = false ∧
    ∃ first, first.role = .bot ∧
      appended exampleAwaiting
          (handleResponse exampleEnv exampleAwaiting false exampleIntentOnlyResponse).st =
        [first, ⟨.bot, (exampleIntentOnlyResponse.get "response").or
          (.str (exampleEnv.t "chatbot.confirmMessage")), false, .null⟩] :=
  ⟨by decide,
    (confirmation_prompt_message exampleEnv exampleAwaiting false exampleIntentOnlyResponse
      (by decide)).1 (by decide)⟩

/-- Claim C25, as stated, fails: for a page whose path is `/abc123`, with no
query and no fragment, the trailing path segment is `abc123` and is not
`chatbot`, yet `getChatbotIdFromUrl` returns `null`. -/
theorem one_segment_path_counterexample :
    pathSegments exampleOneSegmentPage.pathname = ["abc123"] ∧
    getChatbotIdFromUrl plainParamLookup exampleOneSegmentPage = none ∧
    getChatbotIdFromUrl plainParamLookup examplePathPage = some "abc123" := by
  decide

/-- Claim C25, amended. `getChatbotIdFromUrl` returns the query parameter
`id` when it is non-empty; otherwise the `id` of the query part of the hash
fragment when that is non-empty; otherwise the last non-empty path segment,
provided the path has at least two non-empty segments and the last is not the
literal `chatbot`; otherwise `null`.  `resolveInitialChatbotId` returns the
explicit id when one is supplied (and not empty) and the URL-derived value
otherwise. -/
theorem chatbot_id_from_url (get : ParamLookup) (loc : PageLocation) :
    (∀ v, get loc.search "id" = some v → v ≠ "" → getChatbotIdFromUrl get loc = some v) ∧
    ((get loc.search "id").filter (fun v => v != "") = none →
      ∀ q v, hashQuery loc.hash = some q → get q "id" = some v → v ≠ "" →
        getChatbotIdFromUrl get loc = some v) ∧
    ((get loc.search "id").filter (fun v => v != "") = none →
      (hashQuery loc.hash).bind (fun q => (get q "id").filter (fun v => v != "")) = none →
      (∀ last, 2 ≤ (pathSegments loc.pathname).length →
        (pathSegments loc.pathname).getLast? = some last → last ≠ "chatbot" →
        getChatbotIdFromUrl get loc = some last) ∧
      ((pathSegments loc.pathname).length ≤ 1 → getChatbotIdFromUrl get loc = none) ∧
      ((pathSegments loc.pathname).getLast? = some "chatbot" →
        getChatbotIdFromUrl get loc = none)) ∧
    (∀ v, v ≠ "" → resolveInitialChatbotId get loc (some v) = some v) ∧
    resolveInitialChatbotId get loc none = getChatbotIdFromUrl get loc ∧
    resolveInitialChatbotId get loc (some "") = getChatbotIdFromUrl get loc := by
  refine ⟨?_, ?_, ?_, ?_, ?_, ?_⟩
  · intro v h hv
    unfold getChatbotIdFromUrl
    rw [filter_some_ne _ v h hv]
  · intro hf q v hq hg hv
    unfold getChatbotIdFromUrl
    rw [hf, hq]
    simp only [Option.some_bind]
    rw [filter_some_ne _ v hg hv]
  · intro hf hh
    unfold getChatbotIdFromUrl
    rw [hf, hh]
    refine ⟨?_, ?_, ?_⟩
    · intro last hlen hlast hne
      have hmem : last ∈ pathSegments loc.pathname := List.mem_of_getLast?_eq_some hlast
      have hne2 := pathSegments_ne _ _ hmem
      simp only [gt_iff_lt]
      rw [if_pos (by omega), hlast]
      simp [hne, hne2]
    · intro hlen
      simp only [gt_iff_lt]
      rw [if_neg (by omega)]
    · intro hlast
      simp only [gt_iff_lt]
      split
      · rw [hlast]
        simp
      · rfl
  · intro v hv
    unfold resolveInitialChatbotId
    rw [filter_some_ne _ v rfl hv]
  · rfl
  · rfl

/-- Claim C26. For every dial code of `countryCodes` and every text of
digits, `detectCountryCode` splits the code followed by the digits into
exactly that code and those digits: no listed code is a proper prefix of
another, and no digit is dropped. -/
theorem listed_code_round_trip (c : CountryCode) (digits : List Char)
    (hc : c ∈ countryCodes) (hd : digits.all isDigit = true) :
    detectCountryCode (c.code ++ String.mk digits) = ⟨c.code, String.mk digits⟩ ∧
    (∀ s : State, s.selectedCountryCode = c.code → s.editableCustomerPhone = String.mk digits →
      digits ≠ [] → detectCountryCode (getFullPhoneNumber s) = ⟨c.code, String.mk digits⟩) ∧
    (∀ a ∈ countryCodes, ∀ b ∈ countryCodes, a.code.data <+: b.code.data → a.code = b.code) := by
  have htrim : trimChars digits = digits :=
    trimChars_noSpace digits (fun x hx => isDigit_notSpace x (List.all_eq_true.mp hd x hx))
  suffices hmain : detectCountryCode (c.code ++ String.mk digits) = ⟨c.code, String.mk digits⟩ by
    refine ⟨hmain, ?_, codes_prefix_free⟩
    intro s h1 h2 h3
    have hb : jsTrim s.editableCustomerPhone ≠ "" := by
      rw [h2]
      unfold jsTrim
      rw [htrim]
      intro hx
      exact h3 (congrArg String.data hx)
    unfold getFullPhoneNumber
    rw [if_neg hb, h1, h2]
    exact hmain
  have hne : c.code ++ String.mk digits ≠ "" := by
    have hlen : ∀ a ∈ countryCodes, a.code.length ≠ 0 := by decide
    intro heq
    have := congrArg String.length heq
    simp only [String.length_append] at this
    have h0 : "".length = 0 := by decide
    have := hlen c hc
    omega
  have hdata : (c.code ++ String.mk digits).data = c.code.data ++ digits := by
    simp [String.data_append]
  obtain ⟨m, hm, hpre, hmax, he⟩ := detect_longest countryCodes (c.code ++ String.mk digits) hne
    ⟨c, hc, by rw [hdata]; exact List.prefix_append _ _⟩
  have hcm : c.code.data <+: m.code.data := by
    rw [hdata] at hpre
    have hcp : c.code.data <+: c.code.data ++ digits := List.prefix_append _ _
    have hle := hmax c hc (by rw [hdata]; exact hcp)
    exact List.prefix_of_prefix_length_le hcp hpre hle
  have hcode : c.code = m.code := codes_prefix_free c hc m hm hcm
  unfold detectCountryCode
  rw [he, ← hcode, hdata, List.drop_left, htrim]

/-- Witness for C26: a Venezuelan number with a leading zero. -/
theorem listed_code_round_trip_witness :
    (⟨"+58", "Venezuela"⟩ : CountryCode) ∈ countryCodes ∧
    detectCountryCode ("+58" ++ String.mk "04121234567".data) = ⟨"+58", "04121234567"⟩ :=
  ⟨by simp [countryCodes],
    (listed_code_round_trip ⟨"+58", "Venezuela"⟩ "04121234567".data (by simp [countryCodes])
      (by decide)).1⟩

/-- Claim C27. For every time `HH:MM` of the 24-hour clock, the label that
`submitAppointmentBooking` writes for it, read back by the time pre-fill of
`openEditAppointmentDialog`, gives `selectedTime` equal to that time and an
hour, minute and AM/PM selection that `convert12To24Hour` turns into it. -/
theorem time_label_round_trip (hh mm : Nat) (s stored : State) (h1 : hh ≤ 23) (h2 : mm ≤ 59)
    (hs : s.selectedTime = padStart2 (intToString (hh : Nat)) ++ ":" ++ padStart2 (intToString (mm : Nat)))
    (hd : (stored.currentAppointmentDetails.get "service").getOpt "time" = .str (timeLabel s)) :
    (openEditTime stored).selectedTime = s.selectedTime ∧
    convert12To24Hour (openEditTime stored).selectedHour (openEditTime stored).selectedMinute
      (openEditTime stored).selectedAmPm = s.selectedTime := by
  have hp := parse_table hh (by omega) mm (by omega)
  rw [← hs] at hp
  have hne : s.selectedTime ≠ "" := by
    intro he
    have := congrArg String.length (hs.symm.trans he)
    simp only [String.length_append] at this
    have hc : ":".length = 1 := by decide
    have h0 : "".length = 0 := by decide
    omega
  have h53 : (2 : Nat) ^ 53 = 9007199254740992 := by norm_num
  have hl := timeLabel_of_parse s hh mm hne hp (by omega) (by omega)
  have hm := match_table hh (by omega) mm (by omega)
  rw [← hl] at hm
  have ho : openEditTime stored =
      prefillTime
        (intToString (if ((hh : Nat) : Int) > 12 then ((hh : Nat) : Int) - 12
          else if ((hh : Nat) : Int) = 0 then 12 else ((hh : Nat) : Int)))
        (padStart2 (intToString (mm : Nat)))
        (if ((hh : Nat) : Int) ≥ 12 then "PM" else "AM") stored := by
    unfold openEditTime
    rw [hd]
    simp only [hm]
  have htime : (openEditTime stored).selectedTime = s.selectedTime := by
    rw [ho, hs]
    exact prefillTime_minute_free _ _ _ _ _ _ _ (hour_table hh (by omega)).1
  refine ⟨htime, ?_⟩
  have hc : TimeConsistent (openEditTime stored) := by
    rw [ho]
    exact timeConsistent_prefill _ _ _ _
      ⟨(hour_table hh (by omega)).2.1, (hour_table hh (by omega)).2.2.1⟩
      (hour_table hh (by omega)).2.2.2
  rw [← htime]
  refine (hc ?_ ?_).symm
  · rw [ho]
    exact padStart2_ne _
  · rw [ho]
    exact padStart2_ne _

/-- Witness for C27: five past one in the afternoon, written `1:05 PM`. -/
theorem time_label_round_trip_witness :
    13 ≤ 23 ∧ 5 ≤ 59 ∧ (openEditTime exampleStoredTime).selectedTime = "13:05" ∧
    convert12To24Hour (openEditTime exampleStoredTime).selectedHour
      (openEditTime exampleStoredTime).selectedMinute
      (openEditTime exampleStoredTime).selectedAmPm = "13:05" :=
  ⟨by decide, by decide,
    time_label_round_trip 13 5 exampleAfternoon exampleStoredTime (by decide) (by decide)
      (by rfl) (by rfl)⟩

/-- Claim C28, as stated, fails: the time pre-fill prints the hour it parsed,
and a number from `1e21` on is printed in exponent form.  For the stored
service time `1000000000000000000000:30 PM` the form holds the hour `1e+21`,
the minute `30` and the time `1e+21:30`, while `convert12To24Hour` reads the
hour `1e+21` as 1 and gives `13:30`. -/
theorem huge_hour_disagrees_counterexample :
    FormReachable exampleEnv exampleHugeHourForm ∧
    exampleHugeHourForm.selectedHour = "1e+21" ∧
    exampleHugeHourForm.selectedMinute = "30" ∧
    exampleHugeHourForm.selectedAmPm = "PM" ∧
    exampleHugeHourForm.selectedTime = "1e+21:30" ∧
    convert12To24Hour exampleHugeHourForm.selectedHour exampleHugeHourForm.selectedMinute
      exampleHugeHourForm.selectedAmPm = "13:30" := by
  refine ⟨?_, by decide, by decide, by decide, by decide, by decide⟩
  exact .step _ _
    (.step _ _ (.init none) (.other _ exampleHugeHourStored rfl rfl rfl rfl))
    (openEditTime_step exampleEnv exampleHugeHourStored)

/-- Claim C28, amended. In every form state reachable through the time
operations (the three dropdowns, the time pre-fill of the edit dialog, closing
the dialog, the reset after a submit, and handlers that write no time field),
when hour and minute are both set a time is stored, the label is rendered from
it, and either it is what `convert12To24Hour` gives for the selection, so the
range test of the submit passes exactly when that time has a total of minutes
between 540 and 1080; or the hour is stored in a form that is not a run of
digits (the exponent form of a pre-filled number from `1e21` on, or
`Infinity`), and then `isFutureDateTime` rejects the stored time for every
date and the submit sends nothing. -/
theorem selected_time_agrees (env : Env) (s : State) (hr : FormReachable env s) :
    (s.selectedHour ≠ "" → s.selectedMinute ≠ "" →
      s.selectedTime ≠ "" ∧
      timeLabel s = timeLabel { s with selectedHour := "", selectedMinute := "" } ∧
      ((s.selectedTime = convert12To24Hour s.selectedHour s.selectedMinute s.selectedAmPm ∧
          (timeOutOfRange s = false ↔
            ∃ total : Int, totalMinutes s.selectedTime = .fin total ∧
              9 * 60 ≤ total ∧ total ≤ 18 * 60)) ∨
        (s.selectedHour.data.all isDigit = false ∧
          (∀ dateString, isFutureDateTime env dateString s.selectedTime = false) ∧
          (submitAppointmentBooking env s).sent = none))) ∧
    FormReachable env (openEditTime s) ∧ FormReachable env (closeAppointmentDialog s) ∧
    FormReachable env (resetAppointmentForm s) := by
  refine ⟨?_, .step _ _ hr (openEditTime_step env s), .step _ _ hr (.close s),
    .step _ _ hr (.reset s)⟩
  intro hh hm
  obtain ⟨hne, hc⟩ := formReachable_timeAgrees env s hr hh hm
  refine ⟨hne, by simp [timeLabel, hne], ?_⟩
  rcases hc with hc | ⟨hd, hrej⟩
  · left
    refine ⟨hc, ?_⟩
    have hcond : (s.selectedHour != "" && s.selectedMinute != "") = true := by simp [hh, hm]
    have hin : isTimeInAllowedRange s.selectedHour s.selectedMinute s.selectedAmPm
        = (JNum.le (.fin (9 * 60)) (totalMinutes s.selectedTime)
          && JNum.le (totalMinutes s.selectedTime) (.fin (18 * 60))) := by
      unfold isTimeInAllowedRange
      simp only [hh, hm, decide_False, Bool.or_self, Bool.false_eq_true, if_false, ← hc, hne]
    unfold timeOutOfRange
    rw [if_pos hcond, hin]
    simp only [Bool.not_eq_false']
    exact range_iff _
  · right
    refine ⟨hd, hrej, ?_⟩
    cases hsent : (submitAppointmentBooking env s).sent with
    | none => rfl
    | some msg =>
      obtain ⟨_, _, _, _, c5, _⟩ := submit_sent_checks env s msg hsent
      have hso : strOr s.selectedTime
          (convert12To24Hour s.selectedHour s.selectedMinute s.selectedAmPm) = s.selectedTime := by
        simp [strOr, hne]
      rw [hso, hrej] at c5
      simp [hne] at c5

/-- Witness for C28: the filled form of the examples, ten thirty chosen from
the dropdowns. -/
theorem selected_time_agrees_witness :
    FormReachable exampleEnv exampleFormState ∧
    exampleFormState.selectedTime ≠ "" ∧
    exampleFormState.selectedTime =
      convert12To24Hour exampleFormState.selectedHour exampleFormState.selectedMinute
        exampleFormState.selectedAmPm :=
  ⟨exampleFormState_reachable,
    ((selected_time_agrees exampleEnv exampleFormState exampleFormState_reachable).1
      (by decide) (by decide)).1, by decide⟩

/-- Claim C29, as stated, fails: outside edit mode, the filled form with a
text in the email field that is not an email address has an enabled submit
button, yet `submitAppointmentBooking` stops at its email check and sends
nothing.  (A second way to send nothing with the button enabled: the stored
lead record has no `customer` and the name field is blank; reading the name
raises while the message is composed.) -/
theorem enabled_button_invalid_email_counterexample :
    exampleBadEmailForm.isEditMode = false ∧
    submitDisabled exampleEnv exampleBadEmailForm = false ∧
    (submitAppointmentBooking exampleEnv exampleBadEmailForm).alert
      = some "chatbot.emailValidationError" ∧
    (submitAppointmentBooking exampleEnv exampleBadEmailForm).sent = none ∧
    submitDisabled exampleEnv exampleLeadWithoutCustomer = false ∧
    (submitAppointmentBooking exampleEnv exampleLeadWithoutCustomer).raised = true ∧
    (submitAppointmentBooking exampleEnv exampleLeadWithoutCustomer).sent = none := by
  decide

/-- Claim C29, amended. Outside edit mode, for every form state in which the
submit button is enabled, the email field is blank or holds a valid email
address, and reading the stored records while the message is composed does not
raise (a blank name or phone field is filled from a lead record that has a
`customer`, whose phone is a text or absent, and the email the message takes
is a text or absent), `submitAppointmentBooking` passes every one of its
checks: it shows no alert, composes the message and hands it to `sendMessage`. -/
theorem enabled_button_passes_checks (env : Env) (s : State) (he : s.isEditMode = false)
    (hb : submitDisabled env s = false)
    (hm : jsTrim s.editableCustomerEmail = "" ∨ isValidEmail s.editableCustomerEmail = true)
    (hname : jsTrim s.editableCustomerName ≠ "" ∨ s.customerLeadData.truthy = false ∨
      (s.customerLeadData.get "customer").isNullish = false)
    (hphone : jsTrim s.editableCustomerPhone ≠ "" ∨ s.customerLeadData.truthy = false ∨
      ((s.customerLeadData.get "customer").isNullish = false ∧
        (((s.customerLeadData.get "customer").get "phone").truthy = false ∨
          ∃ p, (s.customerLeadData.get "customer").get "phone" = .str p)))
    (hemail : (bookingCustomerEmail s).truthy = false ∨ ∃ v, bookingCustomerEmail s = .str v) :
    ∃ msg, bookingMessage env s = some msg ∧
      (submitAppointmentBooking env s).sent = some msg ∧
      (submitAppointmentBooking env s).alert = none ∧
      (submitAppointmentBooking env s).raised = false := by
  unfold submitDisabled at hb
  simp only [] at hb
  split_ifs at hb with h1 h2 h3 h4
  simp only [Bool.or_eq_true, Bool.not_eq_true', Bool.and_eq_false_iff, bne_eq_false_iff_eq,
    not_or, Bool.not_eq_false, Bool.and_eq_true, bne_iff_ne, ne_eq, Bool.or_eq_true,
    decide_eq_true_eq] at h1
  obtain ⟨⟨⟨⟨hd1, hd2⟩, ht⟩, hl1, hl2⟩, hr⟩ := h1
  have c1 : ¬ jsTrim s.editableCustomerRequirement = "" := hr
  have c2 : (s.selectedDate = "" || !isFutureDate env s.selectedDate) = false := by
    simp [hd1, hd2]
  have c3 : (s.selectedTime = "" && (s.selectedHour = "" || s.selectedMinute = "")) = false := by
    rcases ht with ht | ⟨ht1, ht2⟩
    · simp [ht]
    · simp [ht1, ht2]
  have c4 := Bool.eq_false_iff.mpr h2
  have c5 := Bool.eq_false_iff.mpr h3
  have c6 : (!s.appointmentLocation.lat.truthy || !s.appointmentLocation.lng.truthy) = false := by
    simp [hl1, hl2]
  have c7 : (jsTrim s.editableCustomerEmail != "" && !isValidEmail s.editableCustomerEmail)
      = false := by
    rcases hm with hm | hm <;> simp [hm]
  obtain ⟨msg, hmsg⟩ := bookingMessage_composed env s hr hname hphone hemail
  refine ⟨msg, hmsg, ?_⟩
  unfold submitAppointmentBooking
  simp only [he, Bool.false_and, Bool.false_eq_true, if_false, c1, c2, c3, c4, c5, c6, c7, hmsg]
  simp

/-- Witness for C29: the filled form of the examples. -/
theorem enabled_button_passes_checks_witness :
    exampleFormState.isEditMode = false ∧ submitDisabled exampleEnv exampleFormState = false ∧
    ∃ msg, bookingMessage exampleEnv exampleFormState = some msg ∧
      (submitAppointmentBooking exampleEnv exampleFormState).sent = some msg ∧
      (submitAppointmentBooking exampleEnv exampleFormState).alert = none ∧
      (submitAppointmentBooking exampleEnv exampleFormState).raised = false :=
  ⟨by decide, by decide,
    enabled_button_passes_checks exampleEnv exampleFormState (by decide) (by decide)
      (Or.inl (by decide)) (Or.inr (Or.inl (by decide))) (Or.inr (Or.inl (by decide)))
      (Or.inl (by decide))⟩

/-- Claim C30. For every page location without a non-empty `id` and without a
non-empty `token` parameter, in the query string and in the query part of the
hash fragment, `getChatbotIdFromUrl` and `getTokenFromUrl` return the same
value: the last non-empty path segment when the path has at least two such
segments and the last is not `chatbot`, and `null` otherwise. -/
theorem path_value_shared (get : ParamLookup) (loc : PageLocation)
    (hid : (get loc.search "id").filter (fun v => v != "") = none)
    (htoken : (get loc.search "token").filter (fun v => v != "") = none)
    (hhashId : (hashQuery loc.hash).bind (fun q => (get q "id").filter (fun v => v != "")) = none)
    (hhashToken :
      (hashQuery loc.hash).bind (fun q => (get q "token").filter (fun v => v != "")) = none) :
    getChatbotIdFromUrl get loc = getTokenFromUrl get loc ∧
    (getChatbotIdFromUrl get loc = none ∨
      ∃ last, getChatbotIdFromUrl get loc = some last ∧
        (pathSegments loc.pathname).getLast? = some last ∧ last ≠ "chatbot" ∧
        2 ≤ (pathSegments loc.pathname).length) := by
  unfold getChatbotIdFromUrl getTokenFromUrl
  rw [hid, htoken, hhashId, hhashToken]
  refine ⟨rfl, ?_⟩
  simp only [gt_iff_lt]
  split
  · rename_i hlen
    cases hl : (pathSegments loc.pathname).getLast? with
    | none => left; rfl
    | some last =>
      simp only
      by_cases hc : last = "chatbot"
      · left; simp [hc]
      · right
        have hne := pathSegments_ne _ _ (List.mem_of_getLast?_eq_some hl)
        exact ⟨last, by simp [hc, hne], rfl, hc, by omega⟩
  · left; rfl

/-- Witness for C30: a page in the path style `/chatbot/<id>`. -/
theorem path_value_shared_witness :
    (plainParamLookup examplePathPage.search "id").filter (fun v => v != "") = none ∧
    getChatbotIdFromUrl plainParamLookup examplePathPage
      = getTokenFromUrl plainParamLookup examplePathPage ∧
    getTokenFromUrl plainParamLookup examplePathPage = some "abc123" :=
  ⟨by decide,
    (path_value_shared plainParamLookup examplePathPage (by decide) (by decide) (by decide)
      (by decide)).1,
    by decide⟩

end ChatbotWidget
